import Mathlib

/-!
# Search and aggregation engine: embedding and verified properties

A shallow embedding of the query-intent analysis and answer synthesis of
`src/src/search/search_engine.cpp`, of the online aggregator of
`src/src/online/online_search.cpp`, of the store of `src/src/database/database.cpp`,
of the feed parser of `src/sce_sys/src/rss/rss_parser.cpp` and of the content
extractor of `src/sce_sys/src/extractor/content_extractor.cpp`.

Conventions of the embedding:

* a `std::string` is a list of characters (`Str`), one `Char` per byte; the
  character classes (`tolower`, `isalnum`, `isspace`) are those of the C locale;
* `std::string::npos` is `none`; `find` returns `Option Nat`;
* `time_t` is an unbounded `Int`; a value that the source stores in an `int` is
  narrowed modulo 2^32;
* `float` quantities (confidence, score, relevance) are exact rationals;
* the collaborators reached through pointers (fetcher, feed parser, extractor,
  encyclopedia) are records of functions, and a null pointer is `none`;
* the store is the table `items` with its rowids together with the postings of the
  FTS5 table `items_fts`; the matcher and the ranking of FTS5 are functions;
* lengths and positions are natural numbers within the range of `int`;
* a scanning `while` loop of the source is a recursion on a fuel counter that repeats the body
  of the loop; in the content extractor a loop that uses up its fuel, like an
  operation out of range, yields `none`.
-/

namespace Vita

/-! ## Strings -/

/-- A `std::string`, as the list of its characters. -/
abbrev Str := List Char

/-- C `tolower` in the C locale: only `A`..`Z` are changed. -/
def tolower (c : Char) : Char :=
  if 65 ≤ c.toNat ∧ c.toNat ≤ 90 then Char.ofNat (c.toNat + 32) else c

/-- The call `std::transform(s.begin(), s.end(), s.begin(), ::tolower)`. -/
def toLower (s : Str) : Str := s.map tolower

/-- C `isalnum` in the C locale. -/
def isalnum (c : Char) : Bool :=
  (48 ≤ c.toNat && c.toNat ≤ 57) || (65 ≤ c.toNat && c.toNat ≤ 90) ||
    (97 ≤ c.toNat && c.toNat ≤ 122)

/-- C `isspace` in the C locale: space, `\t`, `\n`, `\v`, `\f`, `\r`. -/
def isspace (c : Char) : Bool :=
  c.toNat == 32 || (9 ≤ c.toNat && c.toNat ≤ 13)

/-- Scan of `std::string::find`: `s` is the text from index `i` on; the result
is the first index at or after `i` where `pat` starts. -/
def findFrom (pat : Str) : Str → Nat → Option Nat
  | [], i => if pat.isPrefixOf [] then some i else none
  | c :: cs, i => if pat.isPrefixOf (c :: cs) then some i else findFrom pat cs (i + 1)

/-- The call `s.find(pat, pos)`; `none` is `npos`. -/
def find (s pat : Str) (pos : Nat) : Option Nat :=
  if pos ≤ s.length then findFrom pat (s.drop pos) pos else none

/-- The call `s.substr(pos, len)` for `pos ≤ s.size()` (every call in the source is in range). -/
def substr (s : Str) (pos len : Nat) : Str := (s.drop pos).take len

/-- The call `s.substr(pos)` for `pos ≤ s.size()`. -/
def substrFrom (s : Str) (pos : Nat) : Str := s.drop pos

/-! ## Query intent (`SearchEngine::AnalyzeQuery`) -/

inductive QueryIntent where
  | INTENT_QUOTE
  | INTENT_HOWTO
  | INTENT_WHAT
  | INTENT_WHEN
  | INTENT_WHERE
  | INTENT_WHY
  | INTENT_GENERAL
  deriving DecidableEq, Repr

open QueryIntent

structure QueryAnalysis where
  intent : QueryIntent
  mainTopic : Str
  secondaryTopic : Str
  person : Str
  needsRecent : Bool
  needsOfficial : Bool
  deriving DecidableEq, Repr

/-- The optional `" about "` tail shared by the first two quote patterns:
`topic` stays empty when `" about "` does not occur at or after `from_`. -/
def aboutTopic (query : Str) (from_ : Nat) : Str :=
  match find query " about ".toList from_ with
  | some aboutPos => substrFrom query (aboutPos + 7)
  | none => []

/-- Third pattern of `MatchesQuotePattern`: `"quote from X"`. -/
def quoteFromPattern (query : Str) : Option (Str × Str) :=
  match find query "quote from ".toList 0 with
  | some pos =>
    let person := substrFrom query (pos + 11)
    match find person " about ".toList 0 with
    | some aboutPos => some (substr person 0 aboutPos, substrFrom person (aboutPos + 7))
    | none => some (person, [])
  | none => none

/-- Second pattern of `MatchesQuotePattern`: `"X said"`, then the third. -/
def saidPattern (query : Str) : Option (Str × Str) :=
  match find query " said".toList 0 with
  | some pos => some (substr query 0 pos, aboutTopic query pos)
  | none => quoteFromPattern query

/-- Embeds `SearchEngine::MatchesQuotePattern`: `none` is `false`; `some (person, topic)`
is `true` with the two output parameters. -/
def MatchesQuotePattern (query : Str) : Option (Str × Str) :=
  match find query "what did ".toList 0 with
  | some pos =>
    let start := pos + 9
    match find query " say".toList start with
    | some end_ => some (substr query start (end_ - start), aboutTopic query end_)
    | none => saidPattern query
  | none => saidPattern query

/-- Embeds `SearchEngine::MatchesHowToPattern`. -/
def MatchesHowToPattern (query : Str) : Bool :=
  find query "how to ".toList 0 == some 0 ||
  find query "how do i ".toList 0 == some 0 ||
  find query "how can i ".toList 0 == some 0

/-- Embeds `SearchEngine::MatchesWhatPattern`. -/
def MatchesWhatPattern (query : Str) : Bool :=
  find query "what is ".toList 0 == some 0 ||
  find query "what are ".toList 0 == some 0 ||
  find query "what's ".toList 0 == some 0

/-- The intent chosen by the `if / else if` chain that follows the quote check. -/
def nonQuoteIntent (lowerQuery : Str) : QueryIntent :=
  if MatchesHowToPattern lowerQuery then INTENT_HOWTO
  else if MatchesWhatPattern lowerQuery then INTENT_WHAT
  else if find lowerQuery "when ".toList 0 == some 0 ||
      (find lowerQuery "when did".toList 0).isSome then INTENT_WHEN
  else if find lowerQuery "where ".toList 0 == some 0 ||
      (find lowerQuery "where is".toList 0).isSome then INTENT_WHERE
  else if find lowerQuery "why ".toList 0 == some 0 then INTENT_WHY
  else INTENT_GENERAL

/-- The recency test at the end of `AnalyzeQuery`. -/
def recencyNeeded (lowerQuery : Str) : Bool :=
  (find lowerQuery "recent".toList 0).isSome ||
  (find lowerQuery "latest".toList 0).isSome ||
  (find lowerQuery "current".toList 0).isSome ||
  (find lowerQuery "today".toList 0).isSome ||
  (find lowerQuery "now".toList 0).isSome

/-- Embeds `SearchEngine::AnalyzeQuery`. -/
def AnalyzeQuery (query : Str) : QueryAnalysis :=
  let lowerQuery := toLower query
  match MatchesQuotePattern lowerQuery with
  | some (person, topic) =>
    { intent := INTENT_QUOTE, mainTopic := [], secondaryTopic := topic, person := person,
      needsRecent := false, needsOfficial := true }
  | none =>
    { intent := nonQuoteIntent lowerQuery, mainTopic := [], secondaryTopic := [], person := [],
      needsRecent := recencyNeeded lowerQuery, needsOfficial := false }

/-- The phrases tested by the rules that follow the quote rule. -/
def nonQuotePhrases : List Str :=
  ["how to ".toList, "how do i ".toList, "how can i ".toList, "what is ".toList,
   "what are ".toList, "what's ".toList, "when ".toList, "when did".toList,
   "where ".toList, "where is".toList, "why ".toList]

/-! ## The vault (`Database`) -/

/-- A stored document. The member `relevance_score` of the source is never
assigned or read and is left out. -/
structure VaultItem where
  id : Str
  title : Str
  url : Str
  source_domain : Str
  author : Str
  published_at : Int
  retrieved_at : Int
  topic_tags : Str
  text_snippet : Str
  text_clean : Str
  quotes_json : Str
  language : Str
  content_type : Str
  license_note : Str
  deriving DecidableEq, Repr

structure SearchResult where
  item : VaultItem
  score : ℚ
  matched_snippets : List Str
  deriving DecidableEq

/-- A posting of the FTS5 table `items_fts`: the rowid and the five indexed columns, as
the trigger `items_ai` of `CreateFTSIndex` writes them. -/
structure IndexEntry where
  rowid : Nat
  title : Str
  text_snippet : Str
  text_clean : Str
  quotes_json : Str
  topic_tags : Str
  deriving DecidableEq

/-- The values that the trigger `items_ai` inserts into `items_fts` for a new row:
`new.rowid` and the five indexed columns of the row. -/
def indexEntryOf (rowid : Nat) (item : VaultItem) : IndexEntry :=
  { rowid := rowid, title := item.title, text_snippet := item.text_snippet,
    text_clean := item.text_clean, quotes_json := item.quotes_json,
    topic_tags := item.topic_tags }

/-- The part of SQLite that the source does not contain, the FTS5 matcher and its
ranking. `hit expr e` says that the posting `e` satisfies `items_fts MATCH expr` (for
no posting when the expression is malformed and the step fails); `rank index expr e` is
the hidden column `rank` of the posting, which depends on the statistics of the whole
index; `quoteFilter person e x` is the second conjunct of the `WHERE` clause of
`SearchQuotes` on a posting joined to a row (it holds for no pair when SQLite refuses
to prepare the statement, as it does for a column name that both tables carry). -/
structure FullTextEngine where
  hit : Str → IndexEntry → Bool
  rank : List IndexEntry → Str → IndexEntry → ℚ
  quoteFilter : Str → IndexEntry → VaultItem → Bool

/-- The `Database` object. `db` says that the SQLite handle is open, `stmt_insert`
that the insert statement is prepared. `rows` is the table `items` in rowid order,
each row with its rowid (the column `id` is the primary key of the table); `index` is
the content of the FTS5 table `items_fts` in insertion order. The tables and the
triggers of `CreateTables` and `CreateFTSIndex` exist in an open store (`main.cpp`
creates them right after opening it). The application has one `Database`
(`main.cpp`); the `database` pointer of a component is null or points to it. -/
structure Database where
  db : Bool
  stmt_insert : Bool
  rows : List (Nat × VaultItem)
  index : List IndexEntry
  fts : FullTextEngine

/-- The rows of the table `items` without their rowids, in table order. -/
def Database.items (d : Database) : List VaultItem := d.rows.map Prod.snd

/-- The largest rowid of a table, 0 for the empty table. -/
def maxRowid : List (Nat × VaultItem) → Nat
  | [] => 0
  | r :: rs => max r.1 (maxRowid rs)

/-- Embeds `Database::InsertItem`: the prepared statement is `INSERT OR REPLACE INTO items`.
SQLite picks the rowid of the new row, one more than the largest rowid of the table
(the table is taken to stay below the last rowid, 2^63 - 1), deletes a stored row with
the same `id`, inserts the new row and runs the trigger `items_ai`, which adds the
posting of the new row to `items_fts`. The trigger `items_ad` does not run for a row
that `REPLACE` deletes, since the source leaves recursive triggers off, so the posting
of the replaced row stays in the index. A prepared statement is taken to step to
completion (no input/output failure of SQLite). -/
def Database.InsertItem (d : Database) (item : VaultItem) : Bool × Database :=
  if d.stmt_insert then
    (true, { d with
      rows := d.rows.filter (fun r => r.2.id ≠ item.id) ++ [(maxRowid d.rows + 1, item)]
      index := d.index ++ [indexEntryOf (maxRowid d.rows + 1) item] })
  else (false, d)

/-- Embeds `Database::GetItemById`: `none` is `false`. -/
def Database.GetItemById (d : Database) (id : Str) : Option VaultItem :=
  if d.db then d.items.find? (fun x => x.id = id) else none

/-- Embeds `Database::GetTotalItems`: `SELECT COUNT(*) FROM items`, 0 when the handle is closed. -/
def Database.GetTotalItems (d : Database) : Nat :=
  if d.db then d.items.length else 0

/-- The rows of `items_fts JOIN items ON items.rowid = items_fts.rowid` that pass the
`WHERE` clause `keep`, in index order: each posting with the rows of `items` that carry
its rowid. -/
def joinIndex (index : List IndexEntry) (rows : List (Nat × VaultItem))
    (keep : IndexEntry → VaultItem → Bool) : List (IndexEntry × VaultItem) :=
  index.flatMap fun e =>
    (rows.filter (fun r => decide (r.1 = e.rowid) && keep e r.2)).map (fun r => (e, r.2))

/-- The clause `LIMIT ?`: a negative bound is no bound. -/
def sqlLimit {α : Type} (limit : Int) (l : List α) : List α :=
  if limit < 0 then l else l.take limit.toNat

/-- The `CASE content_type` expression in the `ORDER BY` clause of `SearchQuotes`. -/
def quoteClass (content_type : Str) : Nat :=
  if content_type = "transcript".toList then 1
  else if content_type = "statement".toList then 2
  else 3

/-- Embeds `Database::SearchFTS`: the join of the index with the table for the postings
that match, `ORDER BY rank LIMIT ?`; the columns of `items.*` fill the item and `rank`
the score. Empty when the statement cannot be prepared. -/
def Database.SearchFTS (d : Database) (query : Str) (limit : Int) : List SearchResult :=
  if d.db then
    sqlLimit limit
      (((joinIndex d.index d.rows (fun e _ => d.fts.hit query e)).insertionSort
          (fun a b => d.fts.rank d.index query a.1 ≤ d.fts.rank d.index query b.1)).map
        (fun p => { item := p.2, score := d.fts.rank d.index query p.1,
                    matched_snippets := [] }))
  else []

/-- Embeds `Database::SearchQuotes`: the match expression is the person, followed by a
blank and the topic when there is one; the joined rows that match and pass the second
conjunct are ordered by `rank`, then by the class of their content type. -/
def Database.SearchQuotes (d : Database) (person topic : Str) (limit : Int) :
    List SearchResult :=
  if d.db then
    let query := if topic ≠ [] then person ++ (" ".toList ++ topic) else person
    sqlLimit limit
      (((joinIndex d.index d.rows
            (fun e x => d.fts.hit query e && d.fts.quoteFilter person e x)).insertionSort
          (fun a b => d.fts.rank d.index query a.1 < d.fts.rank d.index query b.1 ∨
            (d.fts.rank d.index query a.1 = d.fts.rank d.index query b.1 ∧
              quoteClass a.2.content_type ≤ quoteClass b.2.content_type))).map
        (fun p => { item := p.2, score := d.fts.rank d.index query p.1,
                    matched_snippets := [] }))
  else []

/-! ## Answers (`SearchEngine::Build*Answer`, `GenerateAnswer`) -/

inductive AnswerType where
  | ANSWER_DIRECT
  | ANSWER_STEPS
  | ANSWER_QUOTES
  | ANSWER_SUMMARY
  | ANSWER_NONE
  deriving DecidableEq, Repr

open AnswerType

/-- A citation. Fields that the source leaves unassigned are empty or 0 here. -/
structure SourceInfo where
  title : Str
  url : Str
  domain : Str
  author : Str
  published : Int
  retrieved : Int
  content_type : Str
  confidence : ℚ
  deriving DecidableEq

structure Answer where
  type : AnswerType
  summary : Str
  steps : List Str
  bullets : List Str
  warnings : List Str
  quotes : List Str
  sources : List SourceInfo
  raw_text : Str
  confidence : ℚ
  deriving DecidableEq

structure ZIMSearchResult where
  title : Str
  url : Str
  snippet : Str
  relevance : Int
  deriving DecidableEq

/-- The encyclopedia collaborator (`ZIMReader`). -/
structure ZIMReader where
  IsLoaded : Bool
  SearchArticles : Str → Int → List ZIMSearchResult

/-- A default-constructed `Answer` with the given type and confidence 0. -/
def Answer.init (t : AnswerType) : Answer :=
  { type := t, summary := [], steps := [], bullets := [], warnings := [], quotes := [],
    sources := [], raw_text := [], confidence := 0 }

/-- The citation built from a result with all eight fields
(`BuildQuotesAnswer`, `GenerateAnswer`). -/
def fullSource (r : SearchResult) : SourceInfo :=
  { title := r.item.title, url := r.item.url, domain := r.item.source_domain,
    author := r.item.author, published := r.item.published_at,
    retrieved := r.item.retrieved_at, content_type := r.item.content_type,
    confidence := r.score }

/-- The citation built without author and content type
(`BuildStepsAnswer`, `BuildDirectAnswer`, `BuildSummaryAnswer`). -/
def briefSource (r : SearchResult) : SourceInfo :=
  { title := r.item.title, url := r.item.url, domain := r.item.source_domain,
    author := [], published := r.item.published_at, retrieved := r.item.retrieved_at,
    content_type := [], confidence := r.score }

/-- The text `person`, then `" about " + secondaryTopic` when the topic is not empty. -/
def personAndTopic (analysis : QueryAnalysis) : Str :=
  analysis.person ++
    (if analysis.secondaryTopic ≠ [] then " about ".toList ++ analysis.secondaryTopic else [])

/-- The loop of `BuildQuotesAnswer` over the results, with its `break` once three
quotes are collected; the state is the pair (quotes, sources). -/
def quotesLoop : List SearchResult → List Str × List SourceInfo → List Str × List SourceInfo
  | [], acc => acc
  | r :: rs, (quotes, sources) =>
    let quotes1 :=
      if r.item.quotes_json ≠ [] then quotes ++ [r.item.quotes_json]
      else if r.item.text_snippet ≠ [] then quotes ++ [r.item.text_snippet]
      else quotes
    let sources1 := sources ++ [fullSource r]
    if 3 ≤ quotes1.length then (quotes1, sources1) else quotesLoop rs (quotes1, sources1)

/-- Embeds `SearchEngine::BuildQuotesAnswer`. -/
def BuildQuotesAnswer (analysis : QueryAnalysis) (results : List SearchResult) : Answer :=
  if results.isEmpty then
    { Answer.init ANSWER_QUOTES with
      summary := "No quotes found for ".toList ++ personAndTopic analysis ++ ".".toList }
  else
    let acc := quotesLoop results ([], [])
    { Answer.init ANSWER_QUOTES with
      summary := "Quotes from ".toList ++ personAndTopic analysis ++ ":".toList
      quotes := acc.1
      sources := acc.2
      confidence := if results.isEmpty then 0 else 0.8 }

/-- The lines that successive `std::getline` calls read from a text: `cur` is the
line being read; a final line without newline is returned when it is not empty. -/
def getlinesAux : Str → Str → List Str
  | [], cur => if cur = [] then [] else [cur]
  | c :: cs, cur => if c = '\n' then cur :: getlinesAux cs [] else getlinesAux cs (cur ++ [c])

def getlines (text : Str) : List Str := getlinesAux text []

/-- The call `std::to_string` of a non-negative `int`. -/
def natToString (n : Nat) : Str := Nat.toDigits 10 n

/-- The test that a line looks like a step. -/
def looksLikeStep (line : Str) (stepNum : Nat) : Bool :=
  line ≠ [] &&
    (find line (natToString stepNum) 0 == some 0 ||
      line.head? == some '-' || line.head? == some '*' ||
      (find line "step".toList 0).isSome)

/-- The `while (std::getline(iss, line) && answer.steps.size() < 10)` loop of
`BuildStepsAnswer`; the state is (steps, stepNum). -/
def stepsLoop : List Str → List Str → Nat → List Str
  | [], steps, _ => steps
  | line :: rest, steps, stepNum =>
    if steps.length < 10 then
      if looksLikeStep line stepNum then stepsLoop rest (steps ++ [line]) (stepNum + 1)
      else stepsLoop rest steps stepNum
    else steps

/-- Embeds `SearchEngine::BuildStepsAnswer`. -/
def BuildStepsAnswer (_analysis : QueryAnalysis) (results : List SearchResult) : Answer :=
  match results with
  | [] => { Answer.init ANSWER_STEPS with summary := "No instructions found.".toList }
  | topResult :: _ =>
    let text :=
      if topResult.item.text_clean = [] then topResult.item.text_snippet
      else topResult.item.text_clean
    let steps := stepsLoop (getlines text) [] 1
    { Answer.init ANSWER_STEPS with
      summary := "Instructions:".toList
      steps := if steps = [] then [substr text 0 200 ++ "...".toList] else steps
      sources := results.map briefSource
      confidence := 0.7 }

/-- Embeds `SearchEngine::BuildDirectAnswer`. -/
def BuildDirectAnswer (_analysis : QueryAnalysis) (results : List SearchResult) : Answer :=
  match results with
  | [] => { Answer.init ANSWER_DIRECT with summary := "No information found.".toList }
  | topResult :: _ =>
    { Answer.init ANSWER_DIRECT with
      summary := topResult.item.text_snippet
      raw_text := if topResult.item.text_clean ≠ [] then topResult.item.text_clean else []
      sources := (results.take 5).map briefSource
      confidence := 0.75 }

/-- The snippets of the results, each followed by a blank line. -/
def combineSnippets (results : List SearchResult) : Str :=
  (results.map (fun r => r.item.text_snippet ++ "\n\n".toList)).flatten

/-- Embeds `SearchEngine::BuildSummaryAnswer`. -/
def BuildSummaryAnswer (_analysis : QueryAnalysis) (results : List SearchResult) : Answer :=
  if results.isEmpty then
    { Answer.init ANSWER_SUMMARY with summary := "No relevant information found.".toList }
  else
    { Answer.init ANSWER_SUMMARY with
      summary := combineSnippets (results.take 3)
      sources := (results.take 3).map briefSource
      confidence := 0.65 }

/-- The citation of an encyclopedia article. -/
def zimSource (z : ZIMSearchResult) (contentType : Str) (confidence : ℚ) : SourceInfo :=
  { title := z.title, url := "wikipedia://".toList ++ z.url, domain := "Wikipedia".toList,
    author := [], published := 0, retrieved := 0, content_type := contentType,
    confidence := confidence }

/-- Embeds `SearchEngine::GenerateAnswer`. -/
def GenerateAnswer (_query : Str) (vaultResults : List SearchResult)
    (zimResults : List ZIMSearchResult) : Answer :=
  if ¬ vaultResults.isEmpty then
    { Answer.init ANSWER_SUMMARY with
      summary := combineSnippets (vaultResults.take 3)
      sources := (vaultResults.take 3).map fullSource
      confidence := 0.8 }
  else
    match zimResults with
    | z :: _ =>
      { Answer.init ANSWER_SUMMARY with
        summary := if z.snippet = [] then z.title else z.snippet
        sources := [zimSource z [] 0.7]
        confidence := 0.7 }
    | [] =>
      { Answer.init ANSWER_SUMMARY with
        summary := "No relevant results found.".toList
        confidence := 0 }

/-! ## The online aggregator (`OnlineSearch`) -/

structure FetchResult where
  url : Str
  html : Str
  statusCode : Int
  success : Bool
  error : Str
  deriving DecidableEq

structure RSSItem where
  title : Str
  link : Str
  description : Str
  author : Str
  pubDate : Int
  guid : Str
  deriving DecidableEq

structure RSSFeed where
  title : Str
  link : Str
  description : Str
  lastBuildDate : Int
  items : List RSSItem
  deriving DecidableEq

structure FeedConfig where
  name : Str
  url : Str
  category : Str
  enabled : Bool
  priority : Int
  deriving DecidableEq

structure ExtractedContent where
  title : Str
  author : Str
  publishDate : Int
  domain : Str
  mainText : Str
  snippet : Str
  quotes : List Str
  language : Str
  wordCount : Int
  hasPaywall : Bool
  deriving DecidableEq

structure OnlineResult where
  url : Str
  title : Str
  snippet : Str
  source : Str
  published : Int
  relevance : ℚ
  deriving DecidableEq

structure OnlineSearchSettings where
  enabled : Bool
  maxResults : Int
  timeoutSeconds : Int
  saveAutomatically : Bool
  cacheSizeLimitMB : Int
  enabledFeeds : List Str

/-- The fetch collaborator. Its answers depend on the state of the network, so each
function takes the number of observations of the outside world made so far. -/
structure NetFetcher where
  IsOnline : Nat → Bool
  FetchURL : Nat → Str → Int → FetchResult

/-- The feed parser collaborator: its catalog and `ParseFeed` (`none` is `false`). -/
structure RSSParser where
  feeds : List FeedConfig
  ParseFeed : Nat → Str → Option RSSFeed

/-- The extractor collaborator. -/
structure ContentExtractor where
  Extract : Str → Str → ExtractedContent

/-- The `OnlineSearch` object; `database` says that its pointer to the store is set. -/
structure OnlineSearch where
  netFetcher : Option NetFetcher
  rssParser : Option RSSParser
  extractor : Option ContentExtractor
  database : Bool
  settings : OnlineSearchSettings

/-- The settings that the constructor of `OnlineSearch` installs. -/
def defaultSettings : OnlineSearchSettings :=
  { enabled := true, maxResults := 10, timeoutSeconds := 30, saveAutomatically := true,
    cacheSizeLimitMB := 100, enabledFeeds := [] }

/-- The mutable state threaded through the aggregator: the store, the wall clock
(`clock n` is what `time(nullptr)` returns when it is the observation number `n`)
and the number of observations of the outside world made so far. -/
structure World where
  db : Database
  clock : Nat → Int
  tick : Nat

/-- One more observation of the outside world has been made. -/
def World.bump (w : World) : World := { w with tick := w.tick + 1 }

/-- Conversion of an integer to `int` (32 bits), as an initialisation that narrows
does it: the value modulo 2^32, taken in the signed range. -/
def toInt32 (x : Int) : Int := (x + 2 ^ 31) % 2 ^ 32 - 2 ^ 31

/-- Conversion of an `int` to `size_t` (32 bits on the target) in a mixed comparison. -/
def toSizeT (x : Int) : Nat := (x % 2 ^ 32).toNat

/-- The words that successive `iss >> keyword` extractions return: maximal runs of
non-space characters; `cur` is the word being read. -/
def wordsAux : Str → Str → List Str
  | [], cur => if cur = [] then [] else [cur]
  | c :: cs, cur =>
    if isspace c then (if cur = [] then wordsAux cs [] else cur :: wordsAux cs [])
    else wordsAux cs (cur ++ [c])

def words (s : Str) : List Str := wordsAux s []

/-- The call `text.find(keyword) != npos`. -/
def contains (text keyword : Str) : Bool := (find text keyword 0).isSome

/-- The keyword loop of `FeedItemMatches`; the state is (matches, keywords). -/
def matchLoop (lowerTitle lowerDesc : Str) : List Str → Nat × Nat → Nat × Nat
  | [], acc => acc
  | keyword :: rest, (nMatches, keywords) =>
    matchLoop lowerTitle lowerDesc rest
      (if contains lowerTitle keyword || contains lowerDesc keyword then nMatches + 1
       else nMatches, keywords + 1)

/-- Embeds `OnlineSearch::FeedItemMatches`. The quotient `(float)matches / keywords`
is exact here; below 2^24 keywords the binary32 quotient is on the same side of 0.5. -/
def FeedItemMatches (item : RSSItem) (query : Str) : Bool :=
  let lowerTitle := toLower item.title
  let lowerDesc := toLower item.description
  let lowerQuery := toLower query
  let counts := matchLoop lowerTitle lowerDesc (words lowerQuery) (0, 0)
  decide (0 < counts.2) && decide ((0.5 : ℚ) ≤ (counts.1 : ℚ) / (counts.2 : ℚ))

/-- The keyword loop of `CalculateRelevance`; the state is
(keywords, titleMatches, snippetMatches). -/
def relevanceLoop (lowerTitle lowerSnippet : Str) :
    List Str → Nat × Nat × Nat → Nat × Nat × Nat
  | [], acc => acc
  | keyword :: rest, (keywords, titleMatches, snippetMatches) =>
    relevanceLoop lowerTitle lowerSnippet rest
      (keywords + 1,
       if contains lowerTitle keyword then titleMatches + 1 else titleMatches,
       if contains lowerSnippet keyword then snippetMatches + 1 else snippetMatches)

/-- Embeds `OnlineSearch::CalculateRelevance`, with the value of `time(nullptr)` as
`now`. The float operations are taken over exact rationals. The difference of the two `time_t` values is exact (it is undefined in C when it
leaves the range of `time_t`), the division truncates as in C, and the quotient is
narrowed to the `int` variable `ageInDays`. -/
def CalculateRelevance (result : OnlineResult) (query : Str) (now : Int) : ℚ :=
  let lowerTitle := toLower result.title
  let lowerSnippet := toLower result.snippet
  let lowerQuery := toLower query
  let counts := relevanceLoop lowerTitle lowerSnippet (words lowerQuery) (0, 0, 0)
  let keywords := counts.1
  let titleMatches := counts.2.1
  let snippetMatches := counts.2.2
  let score : ℚ :=
    if 0 < keywords then ((titleMatches : ℚ) * 0.6 + (snippetMatches : ℚ) * 0.4) / (keywords : ℚ)
    else 0
  let ageInDays : Int := toInt32 (Int.tdiv (now - result.published) (24 * 3600))
  let boosted : ℚ :=
    if ageInDays < 7 then score * 1.2
    else if ageInDays < 30 then score * 1.1
    else score
  min boosted 1

/-- The candidate that `SearchFeed` builds from a feed item, before it is scored
(the source leaves `relevance` unassigned until `CalculateRelevance` returns). -/
def candidateOf (feed : FeedConfig) (item : RSSItem) : OnlineResult :=
  { url := item.link, title := item.title, snippet := item.description,
    source := feed.name, published := item.pubDate, relevance := 0 }

/-- The item loop of `SearchFeed`: each matching item becomes a scored candidate. -/
def feedItemsLoop (feed : FeedConfig) (query : Str) :
    List RSSItem → List OnlineResult → World → List OnlineResult × World
  | [], results, w => (results, w)
  | item :: rest, results, w =>
    if FeedItemMatches item query then
      let result := candidateOf feed item
      let scored := { result with relevance := CalculateRelevance result query (w.clock w.tick) }
      feedItemsLoop feed query rest (results ++ [scored]) w.bump
    else feedItemsLoop feed query rest results w

/-- Embeds `OnlineSearch::SearchFeed`. -/
def SearchFeed (net : NetFetcher) (rss : RSSParser) (settings : OnlineSearchSettings)
    (feed : FeedConfig) (query : Str) (w : World) : List OnlineResult × World :=
  let fetchResult := net.FetchURL w.tick feed.url settings.timeoutSeconds
  let w1 := w.bump
  if ¬ fetchResult.success then ([], w1)
  else
    match rss.ParseFeed w1.tick fetchResult.html with
    | none => ([], w1.bump)
    | some parsedFeed => feedItemsLoop feed query parsedFeed.items [] w1.bump

/-- Embeds `OnlineSearch::FilterAndRank`: sort by descending relevance, then erase the
candidates below 0.3. -/
def FilterAndRank (results : List OnlineResult) (_query : Str) : List OnlineResult :=
  let sorted := results.insertionSort (fun a b => b.relevance ≤ a.relevance)
  sorted.filter (fun r => ¬ (r.relevance < 0.3))

/-- The feed loop of `SearchRSSFeeds`, with its `break` once `2 * limit` candidates
are accumulated. -/
def feedsLoop (net : NetFetcher) (rss : RSSParser) (settings : OnlineSearchSettings)
    (query : Str) (limit : Int) :
    List FeedConfig → List OnlineResult → World → List OnlineResult × World
  | [], allResults, w => (allResults, w)
  | feed :: rest, allResults, w =>
    if ¬ feed.enabled then feedsLoop net rss settings query limit rest allResults w
    else
      let r := SearchFeed net rss settings feed query w
      let allResults1 := allResults ++ r.1
      if toSizeT (limit * 2) ≤ allResults1.length then (allResults1, r.2)
      else feedsLoop net rss settings query limit rest allResults1 r.2

/-- Embeds `OnlineSearch::SearchRSSFeeds`. The order that `std::sort` gives to feeds of
equal priority is not specified; here they keep their catalog order. -/
def SearchRSSFeeds (os : OnlineSearch) (query : Str) (limit : Int) (w : World) :
    List OnlineResult × World :=
  match os.netFetcher, os.rssParser with
  | some net, some rss =>
    let feeds := rss.feeds.insertionSort (fun a b => b.priority ≤ a.priority)
    let r := feedsLoop net rss os.settings query limit feeds [] w
    let filtered := FilterAndRank r.1 query
    (if toSizeT limit < filtered.length then filtered.take (toSizeT limit) else filtered, r.2)
  | _, _ => ([], w)

/-- The decimal text that `operator<<` writes for a `time_t`. -/
def intToString (n : Int) : Str :=
  if n < 0 then '-' :: Nat.toDigits 10 n.natAbs else Nat.toDigits 10 n.toNat

/-- Embeds `OnlineSearch::GenerateItemHash`. -/
def GenerateItemHash (url title : Str) (published : Int) : Str :=
  let combined := url ++ "_".toList ++ title ++ "_".toList ++ intToString published
  let combined := if 16 < combined.length then substr combined 0 16 else combined
  combined.map (fun c => if ¬ isalnum c then '_' else c)

/-- The simplified JSON array of the quotes built by `FetchAndExtract`. -/
def quotesToJson (quotes : List Str) : Str :=
  "[".toList ++ ",".toList.intercalate (quotes.map (fun q => "\"".toList ++ q ++ "\"".toList))
    ++ "]".toList

/-- Embeds `OnlineSearch::FetchAndExtract`: `none` is `false`. -/
def FetchAndExtract (os : OnlineSearch) (url : Str) (w : World) : Option VaultItem × World :=
  match os.netFetcher, os.extractor with
  | some net, some ext =>
    let fetchResult := net.FetchURL w.tick url os.settings.timeoutSeconds
    let w1 := w.bump
    if ¬ fetchResult.success then (none, w1)
    else
      let content := ext.Extract fetchResult.html url
      if content.hasPaywall then (none, w1)
      else
        (some
          { id := GenerateItemHash url content.title content.publishDate
            title := content.title
            url := url
            source_domain := content.domain
            author := content.author
            published_at := content.publishDate
            retrieved_at := w1.clock w1.tick
            topic_tags := []
            text_snippet := content.snippet
            text_clean := content.mainText
            quotes_json := quotesToJson content.quotes
            language := content.language
            content_type := "article".toList
            license_note := [] },
         w1.bump)
  | _, _ => (none, w)

/-- Embeds `OnlineSearch::SaveToVault`. -/
def SaveToVault (os : OnlineSearch) (item : VaultItem) (w : World) : Bool × World :=
  if ¬ os.database then (false, w)
  else
    let r := w.db.InsertItem item
    (r.1, { w with db := r.2 })

/-- Embeds `OnlineSearch::IsDuplicate`. -/
def IsDuplicate (os : OnlineSearch) (item : VaultItem) (w : World) : Bool :=
  if ¬ os.database then false else (w.db.GetItemById item.id).isSome

/-- Embeds `OnlineSearch::GetCachedItemsCount`. -/
def GetCachedItemsCount (os : OnlineSearch) (w : World) : Int :=
  if os.database then (w.db.GetTotalItems : Int) else 0

/-- Embeds `OnlineSearch::GetCacheSizeMB`. -/
def GetCacheSizeMB (os : OnlineSearch) (w : World) : Int :=
  Int.tdiv (GetCachedItemsCount os w) 10

/-- Embeds `OnlineSearch::PruneOldCache`: its body is empty. -/
def PruneOldCache (_os : OnlineSearch) (_daysOld : Int) (w : World) : World := w

/-- Embeds `OnlineSearch::CheckCacheSizeLimit`. -/
def CheckCacheSizeLimit (os : OnlineSearch) (w : World) : Bool × World :=
  if os.settings.cacheSizeLimitMB < GetCacheSizeMB os w then (true, PruneOldCache os 30 w)
  else (false, w)

/-- The fetch loop of `SearchAndSave`; the state is (outItems, fetchedCount). The
two-second delay between fetches has no counterpart here. -/
def fetchLoop (os : OnlineSearch) :
    List OnlineResult → List VaultItem × Int → World → (List VaultItem × Int) × World
  | [], st, w => (st, w)
  | result :: rest, (outItems, fetchedCount), w =>
    if os.settings.maxResults ≤ fetchedCount then ((outItems, fetchedCount), w)
    else
      let r := FetchAndExtract os result.url w
      match r.1 with
      | some item =>
        if ¬ IsDuplicate os item r.2 then
          let s := SaveToVault os item r.2
          if s.1 then fetchLoop os rest (outItems ++ [item], fetchedCount + 1) s.2
          else fetchLoop os rest (outItems, fetchedCount) s.2
        else fetchLoop os rest (outItems, fetchedCount) r.2
      | none => fetchLoop os rest (outItems, fetchedCount) r.2

/-- Embeds `OnlineSearch::IsOnline`: one observation of the network when the fetcher is set. -/
def IsOnline (os : OnlineSearch) (w : World) : Bool × World :=
  match os.netFetcher with
  | some net => (net.IsOnline w.tick, w.bump)
  | none => (false, w)

/-- Embeds `OnlineSearch::SearchAndSave`: the result is the returned flag, the final
`outItems` and the final state. -/
def SearchAndSave (os : OnlineSearch) (query : Str) (outItems : List VaultItem) (w : World) :
    (Bool × List VaultItem) × World :=
  if ¬ os.settings.enabled then ((false, outItems), w)
  else
    let o := IsOnline os w
    if ¬ o.1 then ((false, outItems), o.2)
    else
      let r := SearchRSSFeeds os query os.settings.maxResults o.2
      if r.1.isEmpty then ((false, outItems), r.2)
      else
        let f := fetchLoop os r.1 (outItems, 0) r.2
        let w3 := if 0 < os.settings.cacheSizeLimitMB then (CheckCacheSizeLimit os f.2).2 else f.2
        ((¬ f.1.1.isEmpty, f.1.1), w3)

/-! ## The façade (`SearchEngine::AskOffline`, `AskOnline`) -/

/-- The `SearchEngine` object; `database` says that its pointer to the store is set. -/
structure SearchEngine where
  database : Bool
  zimReader : Option ZIMReader
  onlineSearch : Option OnlineSearch

/-- The vault query shared by both paths: quotes for a QUOTE intent, full text
otherwise; empty when the database pointer is null. -/
def vaultQuery (se : SearchEngine) (db : Database) (query : Str) : List SearchResult :=
  if se.database then
    let analysis := AnalyzeQuery query
    if analysis.intent = INTENT_QUOTE then
      db.SearchQuotes analysis.person analysis.secondaryTopic 10
    else db.SearchFTS query 10
  else []

/-- The `switch` of `AskOffline` on the intent. -/
def synthesize (analysis : QueryAnalysis) (vaultResults : List SearchResult) : Answer :=
  match analysis.intent with
  | INTENT_QUOTE => BuildQuotesAnswer analysis vaultResults
  | INTENT_HOWTO => BuildStepsAnswer analysis vaultResults
  | INTENT_WHAT => BuildDirectAnswer analysis vaultResults
  | INTENT_WHEN => BuildDirectAnswer analysis vaultResults
  | INTENT_WHERE => BuildDirectAnswer analysis vaultResults
  | _ => BuildSummaryAnswer analysis vaultResults

/-- The encyclopedia query `zimReader->SearchArticles(query, 5)`, made when the
reader is set and loaded; empty otherwise. -/
def zimQuery (se : SearchEngine) (query : Str) : List ZIMSearchResult :=
  match se.zimReader with
  | some zim => if zim.IsLoaded then zim.SearchArticles query 5 else []
  | none => []

/-- Embeds `SearchEngine::AskOffline`. -/
def AskOffline (se : SearchEngine) (db : Database) (query : Str) : Answer :=
  if query.isEmpty then Answer.init ANSWER_NONE
  else
    let analysis := AnalyzeQuery query
    let vaultResults := vaultQuery se db query
    let zimResults := zimQuery se query
    let answer := synthesize analysis vaultResults
    if answer.confidence < 0.7 ∧ ¬ zimResults.isEmpty then
      { answer with
        sources := answer.sources ++
          zimResults.map (fun z => zimSource z "encyclopedia".toList 0.8) }
    else answer

/-- Embeds `SearchEngine::AskOnline`. -/
def AskOnline (se : SearchEngine) (query : Str) (w : World) : Answer × World :=
  if query.isEmpty then (Answer.init ANSWER_NONE, w)
  else
    let w1 :=
      match se.onlineSearch with
      | some os => (SearchAndSave os query [] w).2
      | none => w
    let vaultResults := vaultQuery se w1.db query
    let zimResults := if vaultResults.isEmpty then zimQuery se query else []
    (GenerateAnswer query vaultResults zimResults, w1)

/-! ## Definitions used to state the properties -/

/-- The answer type that the claims attach to each intent. -/
def answerTypeOfIntent : QueryIntent → AnswerType
  | INTENT_QUOTE => ANSWER_QUOTES
  | INTENT_HOWTO => ANSWER_STEPS
  | INTENT_WHAT => ANSWER_DIRECT
  | INTENT_WHEN => ANSWER_DIRECT
  | INTENT_WHERE => ANSWER_DIRECT
  | INTENT_WHY => ANSWER_SUMMARY
  | INTENT_GENERAL => ANSWER_SUMMARY

/-- A matcher that no posting satisfies. -/
def emptyEngine : FullTextEngine :=
  { hit := fun _ _ => false, rank := fun _ _ _ => 0, quoteFilter := fun _ _ _ => false }

/-- An open, prepared and empty store. -/
def emptyDatabase : Database :=
  { db := true, stmt_insert := true, rows := [], index := [], fts := emptyEngine }

/-- A search engine wired to the store only. -/
def vaultOnlyEngine : SearchEngine :=
  { database := true, zimReader := none, onlineSearch := none }

/-- A sample stored document. -/
def sampleItem : VaultItem :=
  { id := "doc1".toList, title := "Water".toList, url := "https://example.com/w".toList,
    source_domain := "example.com".toList, author := [], published_at := 0,
    retrieved_at := 0, topic_tags := [], text_snippet := "Boil it.".toList,
    text_clean := "Boil it.".toList, quotes_json := [], language := "en".toList,
    content_type := "article".toList, license_note := [] }

/-- A matcher that every posting satisfies for every full-text query, with rank 1,
and a quote statement that returns nothing. -/
def sampleEngine : FullTextEngine :=
  { hit := fun _ _ => true, rank := fun _ _ _ => 1, quoteFilter := fun _ _ _ => false }

/-- An open store holding the sample document as its first row. -/
def sampleDatabase : Database :=
  { db := true, stmt_insert := true, rows := [(1, sampleItem)],
    index := [indexEntryOf 1 sampleItem], fts := sampleEngine }

/-- A world around the empty store, with the clock stopped at 0. -/
def emptyWorld : World := { db := emptyDatabase, clock := fun _ => 0, tick := 0 }

/-- Every item of `added` has an id carried by no item of `base` and by no earlier
item of `added`: when the items of `added` are inserted one after the other into a
store that holds `base`, each id is absent from the store just before its insertion. -/
def FreshAgainst (base added : List VaultItem) : Prop :=
  ∀ pre x post, added = pre ++ x :: post → ∀ y ∈ base ++ pre, y.id ≠ x.id

/-- The keyword occurs in the text as a case-insensitive substring: at some position
of the text, the characters that follow, as many as the keyword has, equal the keyword
up to the case of letters. -/
def occursIgnoringCase (keyword text : Str) : Bool :=
  (List.range (text.length + 1)).any
    (fun i => toLower (substr text i keyword.length) == toLower keyword)

/-- The recency factor of the claims: 1.2 for an item published less than 7 days
before `now`, 1.1 for less than 30 days, 1 otherwise. -/
def recencyBoost (published now : Int) : ℚ :=
  if now - published < 7 * 86400 then 1.2
  else if now - published < 30 * 86400 then 1.1
  else 1

/-- The recency factor that the code applies: the same tests, on the day count as the
`int` variable `ageInDays` holds it. -/
def appliedBoost (published now : Int) : ℚ :=
  if toInt32 (Int.tdiv (now - published) (24 * 3600)) < 7 then 1.2
  else if toInt32 (Int.tdiv (now - published) (24 * 3600)) < 30 then 1.1
  else 1

/-- A candidate that was published 2^31 days before the time 0, with both keywords of
"water purification" in its title. -/
def ancientResult : OnlineResult :=
  { title := "Water purification methods".toList, url := [], snippet := [], source := [],
    published := -(2 ^ 31 * 86400), relevance := 0 }

/-- A fetcher that is online and answers every request with an empty page. -/
def okFetcher : NetFetcher :=
  { IsOnline := fun _ => true
    FetchURL := fun _ url _ =>
      { url := url, html := [], statusCode := 200, success := true, error := [] } }

/-- An extractor that finds nothing and detects no paywall. -/
def plainExtractor : ContentExtractor :=
  { Extract := fun _ _ =>
      { title := "Untitled".toList, author := [], publishDate := 0, domain := [],
        mainText := [], snippet := [], quotes := [], language := "en".toList,
        wordCount := 0, hasPaywall := false } }

def waterFeed : FeedConfig :=
  { name := "Survival".toList, url := "https://feeds.example.com/rss".toList,
    category := "survival".toList, enabled := true, priority := 5 }

/-- An item with both keywords of "water purification" in its title. -/
def strongItem : RSSItem :=
  { title := "Water purification methods".toList, link := "https://example.com/water".toList,
    description := "Boil, filter or treat".toList, author := [], pubDate := 0, guid := [] }

/-- An item with no keyword of "water purification". -/
def otherItem : RSSItem :=
  { title := "Cooking outdoors".toList, link := "https://example.com/cooking".toList,
    description := "Recipes for the trail".toList, author := [], pubDate := 0, guid := [] }

/-- The document with the given items, whatever the text parsed. -/
def feedOf (items : List RSSItem) : RSSFeed :=
  { title := [], link := [], description := [], lastBuildDate := 0, items := items }

def parserOf (items : List RSSItem) : RSSParser :=
  { feeds := [waterFeed], ParseFeed := fun _ _ => some (feedOf items) }

/-- An aggregator with default settings over the one-feed catalog. -/
def aggregatorOf (items : List RSSItem) : OnlineSearch :=
  { netFetcher := some okFetcher, rssParser := some (parserOf items),
    extractor := some plainExtractor, database := true, settings := defaultSettings }

/-- The invariant of a store whose tables were filled by `InsertItem` alone, starting
from empty tables: the ids of the rows are distinct (primary key), their rowids are
distinct, no two postings share a rowid, and no posting carries a rowid beyond the
largest rowid of the table. -/
structure Database.Consistent (d : Database) : Prop where
  ids_nodup : (d.items.map (fun x => x.id)).Nodup
  rowids_nodup : (d.rows.map Prod.fst).Nodup
  postings_nodup : (d.index.map (fun e => e.rowid)).Nodup
  postings_le : ∀ e ∈ d.index, e.rowid ≤ maxRowid d.rows

/-- Twenty stored documents with the ids 0 to 19. -/
def twentyItems : List VaultItem :=
  (List.range 20).map (fun i => { sampleItem with id := Nat.toDigits 10 i })

/-- A world whose store holds twenty documents. -/
def crowdedWorld : World :=
  { db := { emptyDatabase with
      rows := (List.range 20).map (fun i => (i + 1, { sampleItem with id := Nat.toDigits 10 i }))
      index := (List.range 20).map
        (fun i => indexEntryOf (i + 1) { sampleItem with id := Nat.toDigits 10 i }) },
    clock := fun _ => 0, tick := 0 }

/-- An aggregator wired to the store with a cache budget of one megabyte. -/
def smallCacheAggregator : OnlineSearch :=
  { netFetcher := none, rssParser := none, extractor := none, database := true,
    settings := { defaultSettings with cacheSizeLimitMB := 1 } }

/-! ## The feed parser (`RSSParser`) -/

/-- Embeds `RSSParser::ExtractTag`: the text between the `>` that ends the first
opening tag and the next closing tag; empty when a delimiter is missing. -/
def ExtractTag (xml tag : Str) : Str :=
  let openTag := "<".toList ++ tag
  let closeTag := "</".toList ++ tag ++ ">".toList
  match find xml openTag 0 with
  | none => []
  | some start =>
    match find xml ">".toList start with
    | none => []
    | some gt =>
      match find xml closeTag (gt + 1) with
      | none => []
      | some end_ => substr xml (gt + 1) (end_ - (gt + 1))

/-- The `while (true)` loop of `ExtractAllTags`; the state is (pos, results). Each
iteration moves `pos` forward by at least the length of the closing tag, so the
fuel `xml.length + 1` given by `ExtractAllTags` is not used up. -/
def extractAllTagsLoop (xml openTag closeTag : Str) : Nat → Nat → List Str → List Str
  | 0, _, results => results
  | fuel + 1, pos, results =>
    match find xml openTag pos with
    | none => results
    | some start =>
      match find xml closeTag start with
      | none => results
      | some end_ =>
        let end1 := end_ + closeTag.length
        extractAllTagsLoop xml openTag closeTag fuel end1
          (results ++ [substr xml start (end1 - start)])

/-- Embeds `RSSParser::ExtractAllTags`. -/
def ExtractAllTags (xml tag : Str) : List Str :=
  extractAllTagsLoop xml ("<".toList ++ tag) ("</".toList ++ tag ++ ">".toList)
    (xml.length + 1) 0 []

/-- The character loop of `RSSParser::StripTags`; the state is `inTag`. -/
def stripTagsLoop : Str → Bool → Str
  | [], _ => []
  | c :: cs, inTag =>
    if c = '<' then stripTagsLoop cs true
    else if c = '>' then stripTagsLoop cs false
    else if ¬ inTag then c :: stripTagsLoop cs inTag
    else stripTagsLoop cs inTag

/-- Embeds `RSSParser::StripTags`. -/
def StripTags (html : Str) : Str := stripTagsLoop html false

/-- Embeds `RSSParser::ParseRFC822Date`: 0 for an empty text, and otherwise the value
`now` of `time(nullptr)`, whatever the text. -/
def ParseRFC822Date (dateStr : Str) (now : Int) : Int :=
  if dateStr = [] then 0 else now

/-- Embeds `RSSParser::ParseISO8601Date`: 0 for an empty text, and otherwise the value
`now` of `time(nullptr)`, whatever the text. -/
def ParseISO8601Date (dateStr : Str) (now : Int) : Int :=
  if dateStr = [] then 0 else now

/-- The text after `href="` up to the next `"` (to the end when there is none);
`none` when `href="` does not occur, in which case the link is left as it is. -/
def hrefOf (linkTag : Str) : Option Str :=
  match find linkTag "href=\"".toList 0 with
  | none => none
  | some hrefPos =>
    let start := hrefPos + 6
    match find linkTag "\"".toList start with
    | some end_ => some (substr linkTag start (end_ - start))
    | none => some (substrFrom linkTag start)

/-- The body of the item loop of `ParseRSS`: the item and the number of clock
readings made so far (`time(nullptr)` is read only for a non-empty date text). -/
def parseRSSItem (clock : Nat → Int) (itemXml : Str) (tick : Nat) : RSSItem × Nat :=
  let author := ExtractTag itemXml "author".toList
  let pubDateStr := ExtractTag itemXml "pubDate".toList
  let pubDateStr := if pubDateStr = [] then ExtractTag itemXml "dc:date".toList else pubDateStr
  ({ title := StripTags (ExtractTag itemXml "title".toList)
     link := ExtractTag itemXml "link".toList
     description := StripTags (ExtractTag itemXml "description".toList)
     author := if author = [] then ExtractTag itemXml "dc:creator".toList else author
     pubDate := ParseRFC822Date pubDateStr (clock tick)
     guid := ExtractTag itemXml "guid".toList },
   if pubDateStr = [] then tick else tick + 1)

/-- The body of the entry loop of `ParseAtom`. -/
def parseAtomEntry (clock : Nat → Int) (entryXml : Str) (tick : Nat) : RSSItem × Nat :=
  let summary := StripTags (ExtractTag entryXml "summary".toList)
  let pubDateStr := ExtractTag entryXml "published".toList
  let pubDateStr := if pubDateStr = [] then ExtractTag entryXml "updated".toList else pubDateStr
  ({ title := StripTags (ExtractTag entryXml "title".toList)
     link := (hrefOf (ExtractTag entryXml "link".toList)).getD []
     description :=
       if summary = [] then StripTags (ExtractTag entryXml "content".toList) else summary
     author := ExtractTag entryXml "author".toList
     pubDate := ParseISO8601Date pubDateStr (clock tick)
     guid := ExtractTag entryXml "id".toList },
   if pubDateStr = [] then tick else tick + 1)

/-- The loop over the item (or entry) texts, threading the number of clock readings. -/
def parseItems (parseOne : Str → Nat → RSSItem × Nat) : List Str → Nat → List RSSItem × Nat
  | [], tick => ([], tick)
  | x :: rest, tick =>
    let r := parseOne x tick
    let rs := parseItems parseOne rest r.2
    (r.1 :: rs.1, rs.2)

/-- Embeds `RSSParser::ParseRSS` on a fresh `outFeed`: the returned flag, the feed and
the number of clock readings. -/
def ParseRSS (clock : Nat → Int) (xmlContent : Str) (tick : Nat) : (Bool × RSSFeed) × Nat :=
  let r := parseItems (parseRSSItem clock) (ExtractAllTags xmlContent "item".toList) tick
  ((¬ r.1.isEmpty,
    { title := ExtractTag xmlContent "title".toList
      link := ExtractTag xmlContent "link".toList
      description := ExtractTag xmlContent "description".toList
      lastBuildDate := 0
      items := r.1 }), r.2)

/-- Embeds `RSSParser::ParseAtom` on a fresh `outFeed`. -/
def ParseAtom (clock : Nat → Int) (xmlContent : Str) (tick : Nat) : (Bool × RSSFeed) × Nat :=
  let r := parseItems (parseAtomEntry clock) (ExtractAllTags xmlContent "entry".toList) tick
  ((¬ r.1.isEmpty,
    { title := ExtractTag xmlContent "title".toList
      link := (hrefOf (ExtractTag xmlContent "link".toList)).getD []
      description := ExtractTag xmlContent "subtitle".toList
      lastBuildDate := 0
      items := r.1 }), r.2)

/-- Embeds `RSSParser::ParseFeed` on a fresh `outFeed`. -/
def ParseFeed (clock : Nat → Int) (xmlContent : Str) (tick : Nat) : (Bool × RSSFeed) × Nat :=
  if (find xmlContent "<rss".toList 0).isSome then ParseRSS clock xmlContent tick
  else if (find xmlContent "<feed".toList 0).isSome then ParseAtom clock xmlContent tick
  else ((false, feedOf []), tick)

/-- An Atom document whose entry has the self-closing link `<link href="http://x/a"/>`. -/
def atomSelfClosing : Str :=
  ("<feed><entry><title>T</title><link href=\"http://x/a\"/>" ++
   "<updated>2024-06-15T10:30:00Z</updated></entry></feed>").toList

/-- The same document with the link written `<link href="http://x/a"></link>`. -/
def atomPaired : Str :=
  ("<feed><entry><title>T</title><link href=\"http://x/a\"></link>" ++
   "<updated>2024-06-15T10:30:00Z</updated></entry></feed>").toList

/-- An RSS document whose item has a date text that is no date. -/
def rssBadDate : Str :=
  ("<rss><channel><item><title>T</title><link>http://x/a</link>" ++
   "<pubDate>not a date</pubDate></item></channel></rss>").toList

/-! ## The content extractor (`ContentExtractor`)

The functions of the extractor return an `Option`: `none` stands for a run that does
not return normally, because a `substr` or `erase` position or an index is out of
range, or because a scanning loop has used up its fuel (the fuel given to each loop
is the length of the scanned text plus one). -/

/-- The call `s.substr(pos, len)`, which throws when `pos > s.size()`. -/
def substrChecked (s : Str) (pos len : Nat) : Option Str :=
  if pos ≤ s.length then some ((s.drop pos).take len) else none

/-- The call `s.substr(pos)`, which throws when `pos > s.size()`. -/
def substrFromChecked (s : Str) (pos : Nat) : Option Str :=
  if pos ≤ s.length then some (s.drop pos) else none

/-- The call `s.erase(pos, len)`, which throws when `pos > s.size()`. -/
def eraseChecked (s : Str) (pos len : Nat) : Option Str :=
  if pos ≤ s.length then some (s.take pos ++ s.drop (pos + len)) else none

/-- The members `maxTextLength` and `maxQuoteLength` of the extractor. -/
structure ExtractorSettings where
  maxTextLength : Int
  maxQuoteLength : Int

/-- The values that the constructor of `ContentExtractor` installs. -/
def defaultExtractorSettings : ExtractorSettings :=
  { maxTextLength := 2000, maxQuoteLength := 200 }

structure Quote where
  text : Str
  context : Str
  position : Int
  deriving DecidableEq

/-- The declaration in the header: `linkDensity` is an `int`, `score` a `float`. -/
structure ContentBlock where
  tag : Str
  content : Str
  textLength : Int
  linkDensity : Int
  score : ℚ
  deriving DecidableEq

/-- The character loop of `StripHTML`, on the text from index `i` on; the state is
(inTag, inScript, inStyle). `html.substr(i, n)` is in range since `i < html.length()`. -/
def stripHTMLLoop : Str → Bool → Bool → Bool → Str
  | [], _, _, _ => []
  | c :: cs, inTag, inScript, inStyle =>
    if c = '<' then
      let inScript1 := if (c :: cs).take 7 = "<script".toList then true else inScript
      let inStyle1 := if (c :: cs).take 6 = "<style".toList then true else inStyle
      let inScript2 := if (c :: cs).take 9 = "</script>".toList then false else inScript1
      let inStyle2 := if (c :: cs).take 8 = "</style>".toList then false else inStyle1
      stripHTMLLoop cs true inScript2 inStyle2
    else if c = '>' then stripHTMLLoop cs false inScript inStyle
    else if ¬ inTag ∧ ¬ inScript ∧ ¬ inStyle then c :: stripHTMLLoop cs inTag inScript inStyle
    else stripHTMLLoop cs inTag inScript inStyle

/-- Embeds `ContentExtractor::StripHTML`. -/
def StripHTML (html : Str) : Str := stripHTMLLoop html false false false

/-- The loops of `RemoveScriptsAndStyles`; the state is (result, pos); `closeLen` is
the constant 9 or 8 of the source. -/
def removeLoop (openTag closeTag : Str) (closeLen : Nat) : Nat → Str → Nat → Option Str
  | 0, _, _ => none
  | fuel + 1, result, pos =>
    match find result openTag pos with
    | none => some result
    | some p =>
      match find result closeTag p with
      | none => some result
      | some end_ =>
        (eraseChecked result p (end_ - p + closeLen)).bind
          (fun r => removeLoop openTag closeTag closeLen fuel r p)

/-- Embeds `ContentExtractor::RemoveScriptsAndStyles`. -/
def RemoveScriptsAndStyles (html : Str) : Option Str :=
  (removeLoop "<script".toList "</script>".toList 9 (html.length + 1) html 0).bind
    (fun r => removeLoop "<style".toList "</style>".toList 8 (r.length + 1) r 0)

/-- The character loop of `CleanText`: runs of white space become one blank. -/
def collapseSpaces : Str → Bool → Str
  | [], _ => []
  | c :: cs, lastWasSpace =>
    if isspace c then
      if ¬ lastWasSpace then ' ' :: collapseSpaces cs true else collapseSpaces cs true
    else c :: collapseSpaces cs false

/-- The call `s.find_first_not_of(set)`. -/
def findFirstNotOf (s set : Str) : Option Nat :=
  if s.findIdx (fun c => ¬ c ∈ set) < s.length then some (s.findIdx (fun c => ¬ c ∈ set))
  else none

/-- The call `s.find_last_not_of(set)`. -/
def findLastNotOf (s set : Str) : Option Nat :=
  match findFirstNotOf s.reverse set with
  | some j => some (s.length - 1 - j)
  | none => none

/-- Embeds `ContentExtractor::CleanText`. -/
def CleanText (text : Str) : Option Str :=
  let result := collapseSpaces text false
  match findFirstNotOf result " \t\n\r".toList, findLastNotOf result " \t\n\r".toList with
  | some start, some end_ => substrChecked result start (end_ - start + 1)
  | _, _ => some result

/-- Embeds `ContentExtractor::FindBetween`. -/
def FindBetween (str start end_ : Str) : Option Str :=
  match find str start 0 with
  | none => some []
  | some p =>
    match find str end_ (p + start.length) with
    | none => some []
    | some endPos => substrChecked str (p + start.length) (endPos - (p + start.length))

/-- The `while (true)` loop of `FindAllBetween`; the state is (pos, results). -/
def findAllBetweenLoop (str start end_ : Str) : Nat → Nat → List Str → Option (List Str)
  | 0, _, _ => none
  | fuel + 1, pos, results =>
    match find str start pos with
    | none => some results
    | some startPos =>
      match find str end_ startPos with
      | none => some results
      | some endPos =>
        (substrChecked str startPos (endPos - startPos + end_.length)).bind
          (fun piece =>
            findAllBetweenLoop str start end_ fuel (endPos + end_.length) (results ++ [piece]))

/-- Embeds `ContentExtractor::FindAllBetween`. -/
def FindAllBetween (str start end_ : Str) : Option (List Str) :=
  findAllBetweenLoop str start end_ (str.length + 1) 0 []

/-- The common body of `GetMetaTag` and `GetMetaProperty`: the value of `content="..."`
that follows the text `search`. -/
def metaContent (html search : Str) : Option Str :=
  match find html search 0 with
  | none => some []
  | some pos =>
    match find html "content=\"".toList pos with
    | none => some []
    | some c =>
      match find html "\"".toList (c + 9) with
      | none => some []
      | some endPos => substrChecked html (c + 9) (endPos - (c + 9))

/-- Embeds `ContentExtractor::GetMetaTag`. -/
def GetMetaTag (html name : Str) : Option Str :=
  metaContent html ("name=\"".toList ++ name ++ "\"".toList)

/-- Embeds `ContentExtractor::GetMetaProperty`. -/
def GetMetaProperty (html property : Str) : Option Str :=
  metaContent html ("property=\"".toList ++ property ++ "\"".toList)

/-- The `<h1>` tier of `ExtractTitle`. -/
def titleFromH1 (html : Str) : Option Str :=
  (FindBetween html "<h1".toList "</h1>".toList).bind fun h1 =>
    if h1 ≠ [] then
      match find h1 ">".toList 0 with
      | some contentStart => (substrFromChecked h1 (contentStart + 1)).bind CleanText
      | none => some "Untitled".toList
    else some "Untitled".toList

/-- Embeds `ContentExtractor::ExtractTitle`. -/
def ExtractTitle (html : Str) : Option Str :=
  (GetMetaProperty html "og:title".toList).bind fun ogTitle =>
    if ogTitle ≠ [] then CleanText ogTitle
    else
      (FindBetween html "<title>".toList "</title>".toList).bind fun title =>
        if title ≠ [] then CleanText title else titleFromH1 html

/-- Embeds `ContentExtractor::ExtractAuthor`. -/
def ExtractAuthor (html : Str) : Option Str :=
  (GetMetaTag html "author".toList).bind fun author =>
    if author ≠ [] then some author
    else
      (GetMetaProperty html "article:author".toList).bind fun author2 =>
        if author2 ≠ [] then some author2 else some []

/-- Embeds `ContentExtractor::ExtractPublishDate`: the two meta properties are read
and the value returned is 0. -/
def ExtractPublishDate (html : Str) : Option Int :=
  (GetMetaProperty html "article:published_time".toList).bind fun dateStr =>
    if dateStr = [] then
      (GetMetaProperty html "datePublished".toList).bind fun _ => some 0
    else some 0

/-- Embeds `ContentExtractor::CountWords`. -/
def CountWords (text : Str) : Int := ((words text).length : Int)

/-- The loop of `CalculateLinkDensity`; the state is (pos, linkChars). -/
def linkCharsLoop (html : Str) : Nat → Nat → Nat → Option Nat
  | 0, _, _ => none
  | fuel + 1, pos, linkChars =>
    match find html "<a ".toList pos with
    | none => some linkChars
    | some p =>
      match find html "</a>".toList p with
      | none => some linkChars
      | some end_ => linkCharsLoop html fuel end_ (linkChars + (end_ - p))

/-- Embeds `ContentExtractor::CalculateLinkDensity`, as an exact quotient. -/
def CalculateLinkDensity (html : Str) : Option ℚ :=
  if html.length = 0 then some 0
  else
    (linkCharsLoop html (html.length + 1) 0 0).bind fun linkChars =>
      some ((linkChars : ℚ) / (html.length : ℚ))

/-- The block that `FindContentBlocks` builds from a piece of the document: the link
density is converted to the `int` member by truncation, and the score is the product
`textLength * (1.0f - linkDensity)`. -/
def blockOf (tag blockContent : Str) : Option ContentBlock :=
  (CalculateLinkDensity blockContent).bind fun density =>
    some
      { tag := tag
        content := blockContent
        textLength := CountWords (StripHTML blockContent)
        linkDensity := Rat.floor density
        score := ((CountWords (StripHTML blockContent) : Int) : ℚ) *
          (1 - ((Rat.floor density : Int) : ℚ)) }

/-- The `while (true)` loop of `FindContentBlocks` for one tag; the state is
(pos, blocks). -/
def contentBlocksLoop (html tag : Str) :
    Nat → Nat → List ContentBlock → Option (List ContentBlock)
  | 0, _, _ => none
  | fuel + 1, pos, blocks =>
    match find html tag pos with
    | none => some blocks
    | some start =>
      match find html "</".toList start with
      | none => some blocks
      | some end_ =>
        (substrChecked html start (end_ - start)).bind fun blockContent =>
          (blockOf tag blockContent).bind fun block =>
            contentBlocksLoop html tag fuel end_
              (if 50 < block.textLength then blocks ++ [block] else blocks)

/-- The loop of `FindContentBlocks` over the tags. -/
def contentBlocksTags (html : Str) : List Str → List ContentBlock → Option (List ContentBlock)
  | [], blocks => some blocks
  | tag :: rest, blocks =>
    (contentBlocksLoop html tag (html.length + 1) 0 blocks).bind
      (fun blocks1 => contentBlocksTags html rest blocks1)

/-- Embeds `ContentExtractor::FindContentBlocks`. -/
def FindContentBlocks (html : Str) : Option (List ContentBlock) :=
  contentBlocksTags html ["<div".toList, "<section".toList, "<article".toList] []

/-- Embeds `ContentExtractor::SelectBestBlock`: `best` starts as an empty block of
score 0 and is replaced by each block of strictly greater score. -/
def SelectBestBlock (blocks : List ContentBlock) : ContentBlock :=
  blocks.foldl (fun best block => if best.score < block.score then block else best)
    { tag := [], content := [], textLength := 0, linkDensity := 0, score := 0 }

/-- The loop over the paragraphs in the last tier of `ExtractMainContent`. -/
def paragraphsLoop : List Str → Str → Option Str
  | [], result => some result
  | p :: rest, result =>
    match find p ">".toList 0 with
    | some contentStart =>
      (substrFromChecked p (contentStart + 1)).bind fun body =>
        paragraphsLoop rest (result ++ StripHTML body ++ "\n\n".toList)
    | none => paragraphsLoop rest result

/-- The last tier of `ExtractMainContent`: the paragraphs. -/
def mainContentFromParagraphs (html : Str) : Option Str :=
  (FindAllBetween html "<p".toList "</p>".toList).bind fun paragraphs =>
    paragraphsLoop paragraphs []

/-- The third tier of `ExtractMainContent`: the best content block, else the paragraphs. -/
def mainContentFromBlocks (html : Str) : Option Str :=
  (FindContentBlocks html).bind fun blocks =>
    if blocks ≠ [] then some (StripHTML (SelectBestBlock blocks).content)
    else mainContentFromParagraphs html

/-- The second tier of `ExtractMainContent`: `<main>`, else the later tiers. -/
def mainContentFromMain (html : Str) : Option Str :=
  (FindBetween html "<main".toList "</main>".toList).bind fun main =>
    if main ≠ [] ∧ 200 < main.length then some (StripHTML main)
    else mainContentFromBlocks html

/-- Embeds `ContentExtractor::ExtractMainContent`. -/
def ExtractMainContent (html : Str) : Option Str :=
  (FindBetween html "<article".toList "</article>".toList).bind fun article =>
    if article ≠ [] ∧ 200 < article.length then some (StripHTML article)
    else mainContentFromMain html

/-- The first loop of `GetQuoteContext`, which moves `start` down from `position`;
the state is (start, wordCount). -/
def contextStart (text : Str) (contextWords : Nat) : Nat → Nat → Option Nat
  | 0, _ => some 0
  | start + 1, wordCount =>
    if wordCount < contextWords then
      (text.get? (start + 1)).bind fun c =>
        contextStart text contextWords start (if isspace c then wordCount + 1 else wordCount)
    else some (start + 1)

/-- The second loop of `GetQuoteContext`, which moves `end` up from `position`; the
first argument is the text from index `end` on, so that its head is `text[end]`; the
state is (end, wordCount). -/
def contextEnd (contextWords : Nat) : Str → Nat → Nat → Nat
  | [], end_, _ => end_
  | c :: cs, end_, wordCount =>
    if wordCount < contextWords then
      contextEnd contextWords cs (end_ + 1) (if isspace c then wordCount + 1 else wordCount)
    else end_

/-- Embeds `ContentExtractor::GetQuoteContext`; `position` is an index of `text`. -/
def GetQuoteContext (text : Str) (position contextWords : Nat) : Option Str :=
  (contextStart text contextWords position 0).bind fun start =>
    substrChecked text start
      (contextEnd contextWords (text.drop position) position 0 - start)

/-- The `while (true)` loop of `FindQuotedText`; the state is (pos, quotes). -/
def findQuotedLoop (text openQuote closeQuote : Str) :
    Nat → Nat → List Quote → Option (List Quote)
  | 0, _, _ => none
  | fuel + 1, pos, quotes =>
    match find text openQuote pos with
    | none => some quotes
    | some start =>
      match find text closeQuote (start + openQuote.length) with
      | none => some quotes
      | some end_ =>
        (substrChecked text (start + openQuote.length)
            (end_ - start - openQuote.length)).bind fun quoteText =>
          (GetQuoteContext text start 10).bind fun context =>
            findQuotedLoop text openQuote closeQuote fuel (end_ + closeQuote.length)
              (quotes ++ [{ text := quoteText, context := context, position := (start : Int) }])

/-- Embeds `ContentExtractor::FindQuotedText`. -/
def FindQuotedText (text openQuote closeQuote : Str) : Option (List Quote) :=
  findQuotedLoop text openQuote closeQuote (text.length + 1) 0 []

/-- Modelled from the spec: the opening curly quotation mark of the second call of
`FindQuotedText`, whose two marks are unreadable in the source (three straight quotes
each); the spec names curly-quote pairs. The mark is its three UTF-8 bytes. -/
def curlyOpen : Str := [Char.ofNat 0xE2, Char.ofNat 0x80, Char.ofNat 0x9C]

/-- Modelled from the spec: the closing curly quotation mark, as its three UTF-8 bytes. -/
def curlyClose : Str := [Char.ofNat 0xE2, Char.ofNat 0x80, Char.ofNat 0x9D]

/-- Embeds `ContentExtractor::ExtractQuotes`; the comparison of `text.length()` with
the `int` limit is made in `size_t`. -/
def ExtractQuotes (html : Str) (maxLength : Int) : Option (List Quote) :=
  (FindQuotedText (StripHTML html) "\"".toList "\"".toList).bind fun regularQuotes =>
    (FindQuotedText (StripHTML html) curlyOpen curlyClose).bind fun curlyQuotes =>
      some ((regularQuotes ++ curlyQuotes).filter
        (fun q => ¬ (toSizeT maxLength < q.text.length)))

/-- Embeds `ContentExtractor::DetectPaywall`. -/
def DetectPaywall (html : Str) : Bool :=
  contains (toLower html) "paywall".toList ||
  contains (toLower html) "subscriber only".toList ||
  contains (toLower html) "subscribe to read".toList

/-- Embeds `ContentExtractor::DetectLanguage`. -/
def DetectLanguage (_text : Str) : Str := "en".toList

/-- The word loop of `Extract` that caps the main text; the state is
(limitedText, wordCount). -/
def limitWordsLoop (maxTextLength : Int) : List Str → Str → Int → Str × Int
  | [], limitedText, wordCount => (limitedText, wordCount)
  | word :: rest, limitedText, wordCount =>
    if wordCount < maxTextLength then
      limitWordsLoop maxTextLength rest (limitedText ++ word ++ " ".toList) (wordCount + 1)
    else (limitedText, wordCount)

/-- The domain part of `Extract`: the text between `://` and the next `/`. -/
def domainOf (url : Str) : Option Str :=
  match find url "://".toList 0 with
  | some protoEnd =>
    let domainStart := protoEnd + 3
    let domainEnd := (find url "/".toList domainStart).getD url.length
    substrChecked url domainStart (domainEnd - domainStart)
  | none => some []

/-- The snippet part of `Extract`. -/
def snippetOf (mainText : Str) : Option Str :=
  if 500 < mainText.length then
    (substrChecked mainText 0 500).bind fun head => some (head ++ "...".toList)
  else some mainText

/-- Embeds `ContentExtractor::Extract`. -/
def Extract (cfg : ExtractorSettings) (html url : Str) : Option ExtractedContent :=
  (domainOf url).bind fun domain =>
  (ExtractTitle html).bind fun title =>
  (ExtractAuthor html).bind fun author =>
  (ExtractPublishDate html).bind fun publishDate =>
  (RemoveScriptsAndStyles html).bind fun cleanHtml =>
  (ExtractMainContent cleanHtml).bind fun rawText =>
  (CleanText rawText).bind fun cleanedText =>
    let limited := limitWordsLoop cfg.maxTextLength (words cleanedText) [] 0
    (snippetOf limited.1).bind fun snippet =>
    (ExtractQuotes html cfg.maxQuoteLength).bind fun quotes =>
      some
        { title := title
          author := author
          publishDate := publishDate
          domain := domain
          mainText := limited.1
          snippet := snippet
          quotes := (quotes.filter (fun q => 20 < q.text.length)).map (fun q => q.text)
          language := DetectLanguage limited.1
          wordCount := limited.2
          hasPaywall := DetectPaywall html }

/-! ## Sample documents for the extractor -/

/-- The word `w` written `n` times. -/
def repWords (n : Nat) (w : Str) : Str := (List.replicate n w).flatten

/-- A block of 500 words "b", 456 of them inside one `<a>` element; 927 of its 1030
characters lie between `<a ` and `</a>`. -/
def linkBlock : Str :=
  "<div>".toList ++ repWords 44 "b ".toList ++ "<a href=\"x.io\">".toList ++
    repWords 456 "b ".toList ++ "</a></div>".toList

/-- A block of 500 words "a" without any link. -/
def plainBlock : Str := "<div>".toList ++ repWords 500 "a ".toList ++ "</div>".toList

/-- A document whose `<article>` element holds 211 raw characters and no text, followed
by a `<main>` element with 210 characters of text. -/
def emptyArticleDoc : Str :=
  "<article>".toList ++ repWords 30 "<b></b>".toList ++ "</article><main>".toList ++
    List.replicate 210 'x' ++ "</main>".toList

/-- A malformed page: an unclosed script, an unmatched quotation mark, an unclosed link. -/
def malformedPage : Str :=
  "<div><script>var x = 1; <p>He said \"wait <a href=\"u\">more".toList

/-! ## Further sample inputs and reference definitions -/

/-- A result whose item has neither a quote field nor a snippet. -/
def silentResult : SearchResult :=
  { item := { sampleItem with quotes_json := [], text_snippet := [] }, score := 1,
    matched_snippets := [] }

/-- The analysis of a quote query about a person. -/
def personAnalysis : QueryAnalysis :=
  { intent := INTENT_QUOTE, mainTopic := [], secondaryTopic := [], person := "twain".toList,
    needsRecent := false, needsOfficial := true }

/-- An encyclopedia reader that is loaded and returns one article for every query. -/
def oneArticleReader : ZIMReader :=
  { IsLoaded := true
    SearchArticles := fun _ _ =>
      [{ title := "Water".toList, url := "A/Water".toList, snippet := [], relevance := 1 }] }

/-- A search engine wired to the store and to the loaded encyclopedia. -/
def encyclopediaEngine : SearchEngine :=
  { database := true, zimReader := some oneArticleReader, onlineSearch := none }

/-- The step test in the words of the specification, for the expected step number:
the line is not empty and starts with the decimal of that number, or starts with `-`
or `*`, or contains "step". -/
def qualifiesAsStep (line : Str) (expected : Nat) : Bool :=
  decide (line ≠ []) &&
    (decide (natToString expected <+: line) || decide (line.head? = some '-') ||
      decide (line.head? = some '*') || decide ("step".toList <:+: line))

/-- The lines that qualify in the words of the specification, in order, when
`collected` lines were collected before: the expected step number of a line is 1 plus
the number of lines collected so far. -/
def qualifyingLines : List Str → Nat → List Str
  | [], _ => []
  | line :: rest, collected =>
    if qualifiesAsStep line (1 + collected) then line :: qualifyingLines rest (collected + 1)
    else qualifyingLines rest collected

/-- The text of a result that `BuildStepsAnswer` reads: the clean text, or the snippet
when the clean text is empty. -/
def stepsText (r : SearchResult) : Str :=
  if r.item.text_clean = [] then r.item.text_snippet else r.item.text_clean

/-- A result whose text has two numbered lines and a comment line. -/
def recipeResult : SearchResult :=
  { item := { sampleItem with
      text_clean := "1. Fill the pot\nStir well\n2. Boil for a minute\n".toList },
    score := 1, matched_snippets := [] }

/-- The properties of a block that is cut before the first `</`: no `</` in the
content, link density 0, and a score equal to the word count, which is above 50. -/
def ContentBlock.LinkFree (b : ContentBlock) : Prop :=
  ¬ "</".toList <:+: b.content ∧ CalculateLinkDensity b.content = some 0 ∧
  b.linkDensity = 0 ∧ b.textLength = CountWords (StripHTML b.content) ∧
  b.score = ((CountWords (StripHTML b.content) : Int) : ℚ) ∧
  50 < CountWords (StripHTML b.content)

/-- An attribute text without angle brackets. -/
def sampleAttributes : Str := " class=\"post\"".toList

/-- A body of 201 characters without any tag. -/
def sampleBody : Str := List.replicate 201 'x'

/-! # Verified properties -/

/-! ## Lemmas on `find` -/

theorem findFrom_ge {pat : Str} : ∀ {s : Str} {i j : Nat}, findFrom pat s i = some j → i ≤ j
  | [], i, j, h => by
    unfold findFrom at h
    split at h
    · simp only [Option.some.injEq] at h; omega
    · simp at h
  | c :: cs, i, j, h => by
    unfold findFrom at h
    split at h
    · simp only [Option.some.injEq] at h; omega
    · have := findFrom_ge h; omega

theorem findFrom_self_iff {pat s : Str} {i : Nat} :
    findFrom pat s i = some i ↔ pat <+: s := by
  rw [← List.isPrefixOf_iff_prefix]
  cases s with
  | nil => unfold findFrom; split <;> simp_all
  | cons c cs =>
    unfold findFrom
    split
    · simp_all
    · constructor
      · intro h; have := findFrom_ge h; omega
      · intro h; simp_all

theorem find_zero_iff {s pat : Str} : find s pat 0 = some 0 ↔ pat <+: s := by
  simp [find, findFrom_self_iff]

theorem findFrom_isSome_iff {pat : Str} : ∀ {s : Str} {i : Nat},
    (findFrom pat s i).isSome ↔ pat <:+: s
  | [], i => by
    unfold findFrom
    cases pat with
    | nil => simp
    | cons a as => simp [List.isPrefixOf]
  | c :: cs, i => by
    unfold findFrom
    split
    · rename_i h
      rw [List.isPrefixOf_iff_prefix] at h
      simp [h.isInfix]
    · rename_i h
      rw [List.isPrefixOf_iff_prefix] at h
      rw [findFrom_isSome_iff, List.infix_cons_iff]
      simp [h]

theorem contains_iff {text keyword : Str} : contains text keyword = true ↔ keyword <:+: text := by
  simp [contains, find, findFrom_isSome_iff]

theorem find_eq_none_of_absent {s pat : Str} (h : ¬ pat <:+: s) : find s pat 0 = none := by
  have := (@contains_iff s pat).not.mpr h
  simpa [contains] using this

/-! ## Query intent: verified properties -/

/-- C1 (as stated, refuted): for "what did Mark Twain say about writing" the analysis
does not have the person "Mark Twain" together with intent QUOTE and topic "writing". -/
theorem analyzeQuery_markTwain_person_not_capitalised :
    ¬ ((AnalyzeQuery "what did Mark Twain say about writing".toList).intent = INTENT_QUOTE ∧
       (AnalyzeQuery "what did Mark Twain say about writing".toList).person
          = "Mark Twain".toList ∧
       (AnalyzeQuery "what did Mark Twain say about writing".toList).secondaryTopic
          = "writing".toList) := by
  decide

/-- C1 (amended): for "what did Mark Twain say about writing" the analysis has intent
QUOTE, the person in lower case, "mark twain", and the secondary topic "writing". -/
theorem analyzeQuery_markTwain :
    (AnalyzeQuery "what did Mark Twain say about writing".toList).intent = INTENT_QUOTE ∧
    (AnalyzeQuery "what did Mark Twain say about writing".toList).person
      = "mark twain".toList ∧
    (AnalyzeQuery "what did Mark Twain say about writing".toList).secondaryTopic
      = "writing".toList := by
  decide

theorem not_howto_of_what {q : Str}
    (h : "what is ".toList <+: q ∨ "what are ".toList <+: q ∨ "what's ".toList <+: q) :
    MatchesHowToPattern q = false := by
  have hw : "w".toList <+: q := by
    rcases h with h | h | h <;> exact List.IsPrefix.trans (by decide) h
  have key : ∀ p : Str, p <+: q → "h".toList <+: p → False := by
    intro p hp hh
    have h1 := List.IsPrefix.trans hh hp
    obtain ⟨t1, rfl⟩ := hw
    obtain ⟨t2, h2⟩ := h1
    simp at h2
  simp only [MatchesHowToPattern, Bool.or_eq_false_iff, beq_eq_false_iff_ne, ne_eq,
    find_zero_iff]
  refine ⟨⟨fun h1 => key _ h1 (by decide), fun h1 => key _ h1 (by decide)⟩,
    fun h1 => key _ h1 (by decide)⟩

/-- C2: when the lower-cased query matches no QUOTE pattern, the intent is HOWTO if it
starts with "how to ", "how do i " or "how can i ", WHAT if it starts with "what is ",
"what are " or "what's ", and GENERAL if none of the rule phrases occurs in it; the
three sample queries get HOWTO, WHAT and GENERAL. -/
theorem analyzeQuery_intent_without_quote (query : Str)
    (hq : MatchesQuotePattern (toLower query) = none) :
    (("how to ".toList <+: toLower query ∨ "how do i ".toList <+: toLower query ∨
        "how can i ".toList <+: toLower query) →
      (AnalyzeQuery query).intent = INTENT_HOWTO) ∧
    (("what is ".toList <+: toLower query ∨ "what are ".toList <+: toLower query ∨
        "what's ".toList <+: toLower query) →
      (AnalyzeQuery query).intent = INTENT_WHAT) ∧
    ((∀ p ∈ nonQuotePhrases, ¬ p <:+: toLower query) →
      (AnalyzeQuery query).intent = INTENT_GENERAL) ∧
    (AnalyzeQuery "how to purify water".toList).intent = INTENT_HOWTO ∧
    (AnalyzeQuery "what is hypothermia".toList).intent = INTENT_WHAT ∧
    (AnalyzeQuery "random musings".toList).intent = INTENT_GENERAL := by
  have hA : (AnalyzeQuery query).intent = nonQuoteIntent (toLower query) := by
    simp [AnalyzeQuery, hq]
  refine ⟨?_, ?_, ?_, by decide, by decide, by decide⟩
  · intro h
    have : MatchesHowToPattern (toLower query) = true := by
      simp only [MatchesHowToPattern, Bool.or_eq_true, beq_iff_eq, find_zero_iff]
      tauto
    simp [hA, nonQuoteIntent, this]
  · intro h
    have h1 := not_howto_of_what h
    have : MatchesWhatPattern (toLower query) = true := by
      simp only [MatchesWhatPattern, Bool.or_eq_true, beq_iff_eq, find_zero_iff]
      tauto
    simp [hA, nonQuoteIntent, this, h1]
  · intro h
    have hn : ∀ p ∈ nonQuotePhrases, find (toLower query) p 0 = none :=
      fun p hp => find_eq_none_of_absent (h p hp)
    simp only [nonQuotePhrases, List.mem_cons, List.mem_singleton, forall_eq_or_imp,
      forall_eq] at hn
    obtain ⟨h1, h2, h3, h4, h5, h6, h7, h8, h9, h10, h11, -⟩ := hn
    rw [hA]
    simp only [nonQuoteIntent, MatchesHowToPattern, MatchesWhatPattern, h1, h2, h3, h4, h5,
      h6, h7, h8, h9, h10, h11]
    rfl

/-- C2, at the query "how to purify water". -/
theorem analyzeQuery_intent_without_quote_witness :
    MatchesQuotePattern (toLower "how to purify water".toList) = none ∧
    (AnalyzeQuery "how to purify water".toList).intent = INTENT_HOWTO :=
  ⟨by decide,
   (analyzeQuery_intent_without_quote "how to purify water".toList (by decide)).1
     (Or.inl (by decide))⟩

/-! ## Answer synthesis: verified properties -/

theorem BuildQuotesAnswer_type (a : QueryAnalysis) (r : List SearchResult) :
    (BuildQuotesAnswer a r).type = ANSWER_QUOTES := by
  unfold BuildQuotesAnswer; split <;> rfl

theorem BuildStepsAnswer_type (a : QueryAnalysis) (r : List SearchResult) :
    (BuildStepsAnswer a r).type = ANSWER_STEPS := by
  unfold BuildStepsAnswer; split <;> rfl

theorem BuildDirectAnswer_type (a : QueryAnalysis) (r : List SearchResult) :
    (BuildDirectAnswer a r).type = ANSWER_DIRECT := by
  unfold BuildDirectAnswer; split <;> rfl

theorem BuildSummaryAnswer_type (a : QueryAnalysis) (r : List SearchResult) :
    (BuildSummaryAnswer a r).type = ANSWER_SUMMARY := by
  unfold BuildSummaryAnswer; split <;> rfl

theorem synthesize_type (a : QueryAnalysis) (r : List SearchResult) :
    (synthesize a r).type = answerTypeOfIntent a.intent := by
  unfold synthesize
  cases a.intent <;>
    simp [answerTypeOfIntent, BuildQuotesAnswer_type, BuildStepsAnswer_type,
      BuildDirectAnswer_type, BuildSummaryAnswer_type]

theorem synthesize_nil_confidence (a : QueryAnalysis) : (synthesize a []).confidence = 0 := by
  unfold synthesize
  cases a.intent <;>
    simp [BuildQuotesAnswer, BuildStepsAnswer, BuildDirectAnswer, BuildSummaryAnswer,
      Answer.init]

theorem AskOffline_type_of_ne_nil (se : SearchEngine) (db : Database) (query : Str)
    (hq : query ≠ []) :
    (AskOffline se db query).type = answerTypeOfIntent (AnalyzeQuery query).intent := by
  have hne : query.isEmpty = false := by cases query <;> simp_all
  unfold AskOffline
  simp only [hne, Bool.false_eq_true, if_false]
  split <;> simp [synthesize_type]

/-- C3: for a non-empty query for which the vault returns at least one result, the
type of the answer of `AskOffline` is the one attached to the intent of the query
(QUOTE: quotes, HOWTO: steps, WHAT, WHEN, WHERE: direct, WHY, GENERAL: summary),
whatever the encyclopedia reader is and returns. -/
theorem askOffline_type_fixed_by_intent (se : SearchEngine) (db : Database) (query : Str)
    (hq : query ≠ []) (_hv : vaultQuery se db query ≠ []) :
    (AskOffline se db query).type = answerTypeOfIntent (AnalyzeQuery query).intent :=
  AskOffline_type_of_ne_nil se db query hq

/-- C3, at the query "how to purify water" on a store that returns one document. -/
theorem askOffline_type_fixed_by_intent_witness :
    vaultQuery vaultOnlyEngine sampleDatabase "how to purify water".toList ≠ [] ∧
    (AskOffline vaultOnlyEngine sampleDatabase "how to purify water".toList).type
      = answerTypeOfIntent (AnalyzeQuery "how to purify water".toList).intent :=
  ⟨by simp [vaultQuery, vaultOnlyEngine, sampleDatabase, Database.SearchFTS, sampleEngine]; decide,
   askOffline_type_fixed_by_intent vaultOnlyEngine sampleDatabase "how to purify water".toList
     (by decide)
     (by simp [vaultQuery, vaultOnlyEngine, sampleDatabase, Database.SearchFTS, sampleEngine]
         decide)⟩

theorem GenerateAnswer_nil_nil (query : Str) :
    (GenerateAnswer query [] []).type = ANSWER_SUMMARY ∧
    (GenerateAnswer query [] []).confidence = 0 := by
  simp [GenerateAnswer, Answer.init]

theorem GenerateAnswer_type (query : Str) (v : List SearchResult) (z : List ZIMSearchResult) :
    (GenerateAnswer query v z).type = ANSWER_SUMMARY := by
  unfold GenerateAnswer
  split
  · rfl
  · split <;> rfl

theorem AskOnline_type_of_ne_nil (se : SearchEngine) (w : World) (query : Str)
    (hq : query ≠ []) : (AskOnline se query w).1.type = ANSWER_SUMMARY := by
  have hne : query.isEmpty = false := by cases query <;> simp_all
  simp only [AskOnline, hne, Bool.false_eq_true, if_false, GenerateAnswer_type]

/-- C4 (as stated, refuted): "random musings" is not empty, the vault and the
encyclopedia return nothing for it, and the answers of `AskOffline` and of `AskOnline`
have the type ANSWER_SUMMARY, not ANSWER_NONE. -/
theorem ask_without_results_not_none :
    "random musings".toList ≠ [] ∧
    vaultQuery vaultOnlyEngine emptyDatabase "random musings".toList = [] ∧
    zimQuery vaultOnlyEngine "random musings".toList = [] ∧
    (AskOffline vaultOnlyEngine emptyDatabase "random musings".toList).type ≠ ANSWER_NONE ∧
    (AskOnline vaultOnlyEngine "random musings".toList emptyWorld).1.type ≠ ANSWER_NONE := by
  refine ⟨by decide, ?_, rfl, ?_, ?_⟩
  · simp [vaultQuery, vaultOnlyEngine, emptyDatabase, Database.SearchFTS,
      Database.SearchQuotes, emptyEngine, joinIndex, sqlLimit]
  · rw [AskOffline_type_of_ne_nil _ _ _ (by decide)]
    decide
  · rw [AskOnline_type_of_ne_nil _ _ _ (by decide)]
    decide

/-- C4 (amended): an empty query yields ANSWER_NONE with confidence 0 on both paths.
For a non-empty query for which neither the vault nor the encyclopedia returns a
result, the answer has confidence 0; its type is the one attached to the intent on
the offline path and ANSWER_SUMMARY on the online path. -/
theorem ask_without_results (se : SearchEngine) (db : Database) (w : World) (query : Str) :
    (query = [] →
      (AskOffline se db query).type = ANSWER_NONE ∧ (AskOffline se db query).confidence = 0 ∧
      (AskOnline se query w).1.type = ANSWER_NONE ∧ (AskOnline se query w).1.confidence = 0) ∧
    (query ≠ [] → vaultQuery se db query = [] → zimQuery se query = [] →
      (AskOffline se db query).confidence = 0 ∧
      (AskOffline se db query).type = answerTypeOfIntent (AnalyzeQuery query).intent) ∧
    (query ≠ [] → vaultQuery se (AskOnline se query w).2.db query = [] →
      zimQuery se query = [] →
      (AskOnline se query w).1.confidence = 0 ∧
      (AskOnline se query w).1.type = ANSWER_SUMMARY) := by
  refine ⟨?_, ?_, ?_⟩
  · rintro rfl
    simp [AskOffline, AskOnline, Answer.init]
  · intro hq hv hz
    refine ⟨?_, AskOffline_type_of_ne_nil se db query hq⟩
    have hne : query.isEmpty = false := by cases query <;> simp_all
    simp [AskOffline, hne, hv, hz, synthesize_nil_confidence]
  · intro hq hv hz
    have hne : query.isEmpty = false := by cases query <;> simp_all
    simp only [AskOnline, hne, Bool.false_eq_true, if_false] at hv ⊢
    simp only [hv, hz, List.isEmpty_nil, if_true]
    exact ⟨(GenerateAnswer_nil_nil query).2, (GenerateAnswer_nil_nil query).1⟩

/-- C4 (amended), at the query "random musings" on an empty store without encyclopedia. -/
theorem ask_without_results_witness :
    (AskOffline vaultOnlyEngine emptyDatabase "random musings".toList).confidence = 0 ∧
    (AskOffline vaultOnlyEngine emptyDatabase "random musings".toList).type
      = answerTypeOfIntent (AnalyzeQuery "random musings".toList).intent :=
  (ask_without_results vaultOnlyEngine emptyDatabase emptyWorld "random musings".toList).2.1
    (by decide)
    (by simp [vaultQuery, vaultOnlyEngine, emptyDatabase, Database.SearchFTS,
          Database.SearchQuotes, emptyEngine, joinIndex, sqlLimit])
    rfl

/-! ## Deduplication id: verified properties -/

/-- C5 (failing input): two pages whose urls differ after the sixteenth character,
with the same title and date, are different triples with the same id. -/
theorem generateItemHash_collision :
    ("https://example.com/a".toList, "T".toList, (0 : Int))
      ≠ ("https://example.com/b".toList, "T".toList, (0 : Int)) ∧
    GenerateItemHash "https://example.com/a".toList "T".toList 0
      = GenerateItemHash "https://example.com/b".toList "T".toList 0 ∧
    GenerateItemHash "https://example.com/a".toList "T".toList 0 = "https___example_".toList := by
  decide

/-! ## Lemmas on keywords and character classes -/

theorem tolower_toNat (c : Char) :
    (tolower c).toNat = if 65 ≤ c.toNat ∧ c.toNat ≤ 90 then c.toNat + 32 else c.toNat := by
  unfold tolower
  split
  · rename_i h
    obtain ⟨h1, h2⟩ := h
    have hc : c = Char.ofNat c.toNat := (Char.ofNat_toNat c).symm
    generalize c.toNat = n at h1 h2 hc
    subst hc
    interval_cases n <;> rfl
  · rfl

theorem isspace_tolower (c : Char) : isspace (tolower c) = isspace c := by
  unfold isspace
  rw [tolower_toNat]
  split
  · rename_i h
    obtain ⟨h1, h2⟩ := h
    have e1 : (c.toNat + 32 == 32) = false := by rw [beq_eq_false_iff_ne]; omega
    have e2 : (c.toNat == 32) = false := by rw [beq_eq_false_iff_ne]; omega
    have e3 : decide (c.toNat + 32 ≤ 13) = false := decide_eq_false (by omega)
    have e4 : decide (c.toNat ≤ 13) = false := decide_eq_false (by omega)
    simp [e1, e2, e3, e4]
  · rfl

theorem wordsAux_toLower : ∀ (s cur : Str),
    wordsAux (toLower s) (toLower cur) = (wordsAux s cur).map toLower
  | [], cur => by
    cases cur <;> simp [wordsAux, toLower]
  | c :: cs, cur => by
    have ih1 := wordsAux_toLower cs []
    have ih2 := wordsAux_toLower cs (cur ++ [c])
    simp only [toLower, List.map_cons, List.map_nil, List.map_append] at ih1 ih2 ⊢
    unfold wordsAux
    rw [isspace_tolower]
    by_cases hs : isspace c = true
    · cases cur with
      | nil => simp [hs, ih1]
      | cons a as => simp [hs, ih1]; rfl
    · simp [hs, ih2]

theorem words_toLower (s : Str) : words (toLower s) = (words s).map toLower := by
  have := wordsAux_toLower s []
  simpa [words, toLower] using this

theorem matchLoop_eq (t d : Str) : ∀ (kws : List Str) (m k : Nat),
    matchLoop t d kws (m, k) =
      (m + kws.countP (fun kw => contains t kw || contains d kw), k + kws.length)
  | [], m, k => by simp [matchLoop]
  | kw :: rest, m, k => by
    unfold matchLoop
    rw [matchLoop_eq t d rest, List.countP_cons, List.length_cons]
    by_cases h : (contains t kw || contains d kw) = true <;>
      refine Prod.ext ?_ ?_ <;> simp [h] <;> omega

theorem relevanceLoop_eq (t sn : Str) : ∀ (kws : List Str) (k tm sm : Nat),
    relevanceLoop t sn kws (k, tm, sm) =
      (k + kws.length, tm + kws.countP (fun kw => contains t kw),
        sm + kws.countP (fun kw => contains sn kw))
  | [], k, tm, sm => by simp [relevanceLoop]
  | kw :: rest, k, tm, sm => by
    unfold relevanceLoop
    rw [relevanceLoop_eq t sn rest]
    by_cases h1 : contains t kw = true <;> by_cases h2 : contains sn kw = true <;>
      simp [h1, h2] <;> omega

theorem occursIgnoringCase_iff (keyword text : Str) :
    occursIgnoringCase keyword text = true ↔ toLower keyword <:+: toLower text := by
  unfold occursIgnoringCase
  simp only [List.any_eq_true, List.mem_range, beq_iff_eq]
  constructor
  · rintro ⟨i, -, h⟩
    rw [← h]
    simp only [toLower, substr, List.map_take, List.map_drop]
    exact List.IsInfix.trans (List.IsPrefix.isInfix <| List.take_prefix _ _)
      (List.IsSuffix.isInfix <| List.drop_suffix _ _)
  · rintro ⟨pre, post, h⟩
    have hlen : pre.length ≤ text.length := by
      have := congrArg List.length h
      simp [toLower] at this
      omega
    refine ⟨pre.length, by omega, ?_⟩
    have hk : keyword.length = (toLower keyword).length := by simp [toLower]
    have : toLower (substr text pre.length keyword.length)
        = ((toLower text).drop pre.length).take keyword.length := by
      simp [toLower, substr, List.map_take, List.map_drop]
    rw [this, ← h, hk]
    simp

theorem contains_toLower (keyword text : Str) :
    contains (toLower text) (toLower keyword) = occursIgnoringCase keyword text := by
  rw [Bool.eq_iff_iff, contains_iff, occursIgnoringCase_iff]

/-- The function `FeedItemMatches` as a comparison of natural numbers. -/
theorem FeedItemMatches_eq (item : RSSItem) (query : Str) :
    FeedItemMatches item query =
      (decide (0 < (words (toLower query)).length) &&
       decide ((words (toLower query)).length ≤
         2 * (words (toLower query)).countP (fun kw =>
           contains (toLower item.title) kw || contains (toLower item.description) kw))) := by
  unfold FeedItemMatches
  simp only [matchLoop_eq, Nat.zero_add]
  by_cases hk : 0 < (words (toLower query)).length
  · have hq : (0 : ℚ) < ((words (toLower query)).length : ℚ) := by exact_mod_cast hk
    simp only [hk, decide_True, Bool.true_and]
    rw [decide_eq_decide, le_div_iff₀ hq]
    constructor
    · intro h
      have h2 : (((words (toLower query)).length : ℕ) : ℚ) ≤
          ((2 * (words (toLower query)).countP (fun kw =>
            contains (toLower item.title) kw || contains (toLower item.description) kw) : ℕ) : ℚ) := by
        push_cast
        linarith
      exact_mod_cast h2
    · intro h
      have h2 : (((words (toLower query)).length : ℕ) : ℚ) ≤
          ((2 * (words (toLower query)).countP (fun kw =>
            contains (toLower item.title) kw || contains (toLower item.description) kw) : ℕ) : ℚ) := by
        exact_mod_cast h
      push_cast at h2
      linarith
  · simp [hk]

theorem tdiv_days_lt (d n : Int) (hn : 0 < n) : Int.tdiv d (24 * 3600) < n ↔ d < n * 86400 := by
  rcases le_or_lt 0 d with h | h
  · rw [Int.tdiv_eq_ediv h (by norm_num)]
    omega
  · have h1 : Int.tdiv d (24 * 3600) = -((-d) / (24 * 3600)) := by
      rw [← Int.tdiv_eq_ediv (by omega) (by norm_num), Int.neg_tdiv, neg_neg]
    rw [h1]
    omega

theorem toInt32_of_range {x : Int} (h0 : -(2 ^ 31) ≤ x) (h1 : x < 2 ^ 31) : toInt32 x = x := by
  unfold toInt32
  have e31 : (2 : Int) ^ 31 = 2147483648 := by norm_num
  have e32 : (2 : Int) ^ 32 = 4294967296 := by norm_num
  rw [e31] at h0 h1 ⊢
  rw [e32]
  omega

theorem tdiv_days_ge (d n : Int) (hd : -(n * 86400) < d) :
    -n ≤ Int.tdiv d (24 * 3600) := by
  rcases le_or_lt 0 d with h | h
  · rw [Int.tdiv_eq_ediv h (by norm_num)]
    omega
  · have h1 : Int.tdiv d (24 * 3600) = -((-d) / (24 * 3600)) := by
      rw [← Int.tdiv_eq_ediv (by omega) (by norm_num), Int.neg_tdiv, neg_neg]
    rw [h1]
    omega

/-- For an age of less than 2^31 days in absolute value, the factor that the code
applies is the recency factor of the claims. -/
theorem appliedBoost_eq_recencyBoost (published now : Int)
    (hlo : -(2 ^ 31 * 86400) < now - published) (hhi : now - published < 2 ^ 31 * 86400) :
    appliedBoost published now = recencyBoost published now := by
  have hq1 : Int.tdiv (now - published) (24 * 3600) < 2 ^ 31 :=
    (tdiv_days_lt _ (2 ^ 31) (by norm_num)).mpr hhi
  have hq0 : -(2 ^ 31) ≤ Int.tdiv (now - published) (24 * 3600) :=
    tdiv_days_ge _ (2 ^ 31) hlo
  unfold appliedBoost recencyBoost
  rw [toInt32_of_range hq0 hq1]
  simp only [tdiv_days_lt _ 7 (by norm_num), tdiv_days_lt _ 30 (by norm_num)]

theorem appliedBoost_ge_one (published now : Int) : 1 ≤ appliedBoost published now := by
  unfold appliedBoost
  split_ifs <;> norm_num

/-- The function `CalculateRelevance` in closed form. -/
theorem CalculateRelevance_eq (result : OnlineResult) (query : Str) (now : Int) :
    CalculateRelevance result query now =
      min (appliedBoost result.published now *
        (if 0 < (words (toLower query)).length then
          (((words (toLower query)).countP (fun kw => contains (toLower result.title) kw) : ℚ)
              * 0.6 +
            ((words (toLower query)).countP (fun kw => contains (toLower result.snippet) kw) : ℚ)
              * 0.4) / ((words (toLower query)).length : ℚ)
         else 0)) 1 := by
  unfold CalculateRelevance appliedBoost
  simp only [relevanceLoop_eq, Nat.zero_add]
  split
  · rw [mul_comm]
  · split
    · rw [mul_comm]
    · rw [one_mul]

/-! ## The aggregator and the store: verified properties -/

theorem feedItemsLoop_db (feed : FeedConfig) (query : Str) :
    ∀ (items : List RSSItem) (results : List OnlineResult) (w : World),
      (feedItemsLoop feed query items results w).2.db = w.db
  | [], _, _ => rfl
  | item :: rest, results, w => by
    unfold feedItemsLoop
    split
    · rw [feedItemsLoop_db feed query rest]; rfl
    · exact feedItemsLoop_db feed query rest _ _

theorem SearchFeed_db (net : NetFetcher) (rss : RSSParser) (settings : OnlineSearchSettings)
    (feed : FeedConfig) (query : Str) (w : World) :
    (SearchFeed net rss settings feed query w).2.db = w.db := by
  unfold SearchFeed
  dsimp only
  split
  · rfl
  · split
    · rfl
    · rw [feedItemsLoop_db]; rfl

theorem feedsLoop_db (net : NetFetcher) (rss : RSSParser) (settings : OnlineSearchSettings)
    (query : Str) (limit : Int) :
    ∀ (feeds : List FeedConfig) (acc : List OnlineResult) (w : World),
      (feedsLoop net rss settings query limit feeds acc w).2.db = w.db
  | [], _, _ => rfl
  | feed :: rest, acc, w => by
    unfold feedsLoop
    split
    · exact feedsLoop_db net rss settings query limit rest _ _
    · dsimp only
      split
      · exact SearchFeed_db ..
      · rw [feedsLoop_db net rss settings query limit rest, SearchFeed_db]

theorem SearchRSSFeeds_db (os : OnlineSearch) (query : Str) (limit : Int) (w : World) :
    (SearchRSSFeeds os query limit w).2.db = w.db := by
  unfold SearchRSSFeeds
  split
  · exact feedsLoop_db ..
  · rfl

theorem FetchAndExtract_db (os : OnlineSearch) (url : Str) (w : World) :
    (FetchAndExtract os url w).2.db = w.db := by
  unfold FetchAndExtract
  split
  · dsimp only
    split
    · rfl
    · split <;> rfl
  · rfl

theorem IsOnline_db (os : OnlineSearch) (w : World) : (IsOnline os w).2.db = w.db := by
  unfold IsOnline; split <;> rfl

theorem CheckCacheSizeLimit_world (os : OnlineSearch) (w : World) :
    (CheckCacheSizeLimit os w).2 = w := by
  unfold CheckCacheSizeLimit PruneOldCache; split <;> rfl

theorem FreshAgainst.nil (base : List VaultItem) : FreshAgainst base [] := by
  intro pre x post h
  simp at h

theorem FreshAgainst.cons {base added : List VaultItem} {item : VaultItem}
    (h1 : ∀ y ∈ base, y.id ≠ item.id) (h2 : FreshAgainst (base ++ [item]) added) :
    FreshAgainst base (item :: added) := by
  intro pre x post h y hy
  cases pre with
  | nil =>
    simp only [List.nil_append, List.cons.injEq] at h
    obtain ⟨rfl, -⟩ := h
    simp only [List.append_nil] at hy
    exact h1 y hy
  | cons p pre1 =>
    simp only [List.cons_append, List.cons.injEq] at h
    obtain ⟨rfl, h⟩ := h
    exact h2 pre1 x post h y (by simpa using hy)

theorem FreshAgainst.tail {base added : List VaultItem} {item : VaultItem}
    (h : FreshAgainst base (item :: added)) : FreshAgainst (base ++ [item]) added := by
  intro pre x post e y hy
  exact h (item :: pre) x post (by simp [e]) y (by simpa using hy)

theorem FreshAgainst.not_mem_base {base added : List VaultItem} (h : FreshAgainst base added) :
    ∀ x ∈ added, ∀ y ∈ base, y.id ≠ x.id := by
  intro x hx y hy
  obtain ⟨pre, post, e⟩ := List.append_of_mem hx
  exact h pre x post e y (List.mem_append_left _ hy)

theorem FreshAgainst.pairwise : ∀ {added base : List VaultItem}, FreshAgainst base added →
    added.Pairwise (fun a b => a.id ≠ b.id)
  | [], _, _ => List.Pairwise.nil
  | item :: added, base, h => by
    refine List.Pairwise.cons ?_ (FreshAgainst.pairwise h.tail)
    intro x hx
    exact h.tail.not_mem_base x hx item (by simp)

theorem items_filter (rows : List (Nat × VaultItem)) (id : Str) :
    (rows.filter (fun r => r.2.id ≠ id)).map Prod.snd
      = (rows.map Prod.snd).filter (fun x => x.id ≠ id) := by
  rw [List.filter_map]
  rfl

/-- An accepted insertion of an id that `GetItemById` does not find appends the row. -/
theorem InsertItem_of_not_found (d : Database) (item : VaultItem)
    (hwf : d.stmt_insert = true → d.db = true)
    (hnf : d.GetItemById item.id = none) (hok : (d.InsertItem item).1 = true) :
    (d.InsertItem item).2.items = d.items ++ [item] ∧ (∀ y ∈ d.items, y.id ≠ item.id) ∧
    (d.InsertItem item).2.stmt_insert = d.stmt_insert ∧ (d.InsertItem item).2.db = d.db := by
  unfold Database.InsertItem at hok ⊢
  by_cases hs : d.stmt_insert = true
  · have hd := hwf hs
    have hall : ∀ y ∈ d.items, y.id ≠ item.id := by
      intro y hy
      simp only [Database.GetItemById, hd, if_true, List.find?_eq_none, decide_eq_true_eq]
        at hnf
      exact hnf y hy
    have hf : d.items.filter (fun x => x.id ≠ item.id) = d.items := by
      rw [List.filter_eq_self]
      intro y hy
      simpa using hall y hy
    rw [if_pos hs]
    refine ⟨?_, hall, rfl, rfl⟩
    simp only [Database.items, List.map_append, List.map_cons, List.map_nil, items_filter]
    rw [show List.map Prod.snd d.rows = d.items from rfl, hf]
  · simp [hs] at hok

/-- Invariant of the fetch loop: the store grows exactly by the items appended to the
output, and each of them carried an id that was absent just before its insertion. -/
theorem fetchLoop_spec (os : OnlineSearch) :
    ∀ (results : List OnlineResult) (out : List VaultItem) (cnt : Int) (w : World),
      (w.db.stmt_insert = true → w.db.db = true) →
      ∃ added,
        (fetchLoop os results (out, cnt) w).1.1 = out ++ added ∧
        (fetchLoop os results (out, cnt) w).2.db.items = w.db.items ++ added ∧
        FreshAgainst w.db.items added
  | [], out, cnt, w, _ => ⟨[], by simp [fetchLoop], by simp [fetchLoop], FreshAgainst.nil _⟩
  | result :: rest, out, cnt, w, hwf => by
    have hfe := FetchAndExtract_db os result.url w
    have hwf1 : (FetchAndExtract os result.url w).2.db.stmt_insert = true →
        (FetchAndExtract os result.url w).2.db.db = true := by rw [hfe]; exact hwf
    unfold fetchLoop
    split
    · exact ⟨[], by simp, by simp, FreshAgainst.nil _⟩
    · dsimp only
      split
      · rename_i item _
        split
        · rename_i hdup
          split
          · rename_i hsave
            -- the item is saved
            have hdb : os.database = true := by
              by_contra hc
              simp [SaveToVault, hc] at hsave
            have hnf : (FetchAndExtract os result.url w).2.db.GetItemById item.id = none := by
              simpa [IsDuplicate, hdb] using hdup
            have hok : ((FetchAndExtract os result.url w).2.db.InsertItem item).1 = true := by
              simpa [SaveToVault, hdb] using hsave
            obtain ⟨h1, h2, h3, h4⟩ := InsertItem_of_not_found _ item hwf1 hnf hok
            have hsdb : (SaveToVault os item (FetchAndExtract os result.url w).2).2.db
                = ((FetchAndExtract os result.url w).2.db.InsertItem item).2 := by
              simp [SaveToVault, hdb]
            obtain ⟨added, e1, e2, e3⟩ := fetchLoop_spec os rest (out ++ [item]) (cnt + 1)
              (SaveToVault os item (FetchAndExtract os result.url w).2).2
              (by rw [hsdb, h3, h4]; exact hwf1)
            rw [hsdb, h1, hfe] at e2 e3
            rw [hfe] at h2
            exact ⟨item :: added, by simpa using e1, by simpa using e2, FreshAgainst.cons h2 e3⟩
          · rename_i hsave
            have hsdb : (SaveToVault os item (FetchAndExtract os result.url w).2).2.db
                = (FetchAndExtract os result.url w).2.db := by
              unfold SaveToVault at hsave ⊢
              split
              · rfl
              · rename_i hdb
                simp only [hdb, not_true_eq_false, if_false] at hsave
                unfold Database.InsertItem at hsave ⊢
                split
                · rename_i hs; simp [hs] at hsave
                · rfl
            obtain ⟨added, e1, e2, e3⟩ := fetchLoop_spec os rest out cnt
              (SaveToVault os item (FetchAndExtract os result.url w).2).2
              (by rw [hsdb]; exact hwf1)
            rw [hsdb, hfe] at e2 e3
            exact ⟨added, e1, e2, e3⟩
        · obtain ⟨added, e1, e2, e3⟩ := fetchLoop_spec os rest out cnt _ hwf1
          rw [hfe] at e2 e3
          exact ⟨added, e1, e2, e3⟩
      · obtain ⟨added, e1, e2, e3⟩ := fetchLoop_spec os rest out cnt _ hwf1
        rw [hfe] at e2 e3
        exact ⟨added, e1, e2, e3⟩

/-- What `SearchAndSave` does to the store, for an empty output list: the table grows
exactly by the returned items, each fresh at its insertion. -/
theorem SearchAndSave_spec (os : OnlineSearch) (query : Str) (w : World)
    (hwf : w.db.stmt_insert = true → w.db.db = true) :
    (SearchAndSave os query [] w).2.db.items = w.db.items ++ (SearchAndSave os query [] w).1.2 ∧
    FreshAgainst w.db.items (SearchAndSave os query [] w).1.2 := by
  unfold SearchAndSave
  split
  · exact ⟨by simp, FreshAgainst.nil _⟩
  · dsimp only
    split
    · exact ⟨by simp [IsOnline_db], FreshAgainst.nil _⟩
    · split
      · exact ⟨by simp [SearchRSSFeeds_db, IsOnline_db], FreshAgainst.nil _⟩
      · have hdb : (SearchRSSFeeds os query os.settings.maxResults (IsOnline os w).2).2.db
            = w.db := by rw [SearchRSSFeeds_db, IsOnline_db]
        obtain ⟨added, e1, e2, e3⟩ := fetchLoop_spec os
          (SearchRSSFeeds os query os.settings.maxResults (IsOnline os w).2).1 [] 0
          (SearchRSSFeeds os query os.settings.maxResults (IsOnline os w).2).2
          (by rw [hdb]; exact hwf)
        rw [hdb] at e2 e3
        simp only [List.nil_append] at e1
        have hw3 : ∀ v : World,
            (if 0 < os.settings.cacheSizeLimitMB then (CheckCacheSizeLimit os v).2 else v) = v := by
          intro v; split
          · exact CheckCacheSizeLimit_world os v
          · rfl
        rw [hw3, e1, e2]
        exact ⟨rfl, e3⟩

/-- C6: `SearchAndSave`, called with an empty output list on a store whose insert
statement is prepared only when its handle is open, leaves the table equal to the
initial rows followed by the returned items; each returned item carried an id that
no initial row and no earlier returned item had (the id was absent just before its
insertion); so every initial row is still stored and the returned ids are pairwise
distinct. -/
theorem searchAndSave_inserts_only_absent_ids (os : OnlineSearch) (query : Str) (w : World)
    (hwf : w.db.stmt_insert = true → w.db.db = true) :
    (SearchAndSave os query [] w).2.db.items = w.db.items ++ (SearchAndSave os query [] w).1.2 ∧
    (∀ pre x post, (SearchAndSave os query [] w).1.2 = pre ++ x :: post →
      ∀ y ∈ w.db.items ++ pre, y.id ≠ x.id) ∧
    (∀ y ∈ w.db.items, y ∈ (SearchAndSave os query [] w).2.db.items) ∧
    (SearchAndSave os query [] w).1.2.Pairwise (fun a b => a.id ≠ b.id) := by
  obtain ⟨h1, h2⟩ := SearchAndSave_spec os query w hwf
  refine ⟨h1, h2, ?_, h2.pairwise⟩
  intro y hy
  rw [h1]
  exact List.mem_append_left _ hy

/-- C6, at the one-feed catalog with a matching item and an empty store. -/
theorem searchAndSave_inserts_only_absent_ids_witness :
    (emptyWorld.db.stmt_insert = true → emptyWorld.db.db = true) ∧
    (SearchAndSave (aggregatorOf [strongItem, otherItem]) "water purification".toList []
        emptyWorld).1.2.Pairwise (fun a b => a.id ≠ b.id) :=
  ⟨fun _ => rfl,
   (searchAndSave_inserts_only_absent_ids (aggregatorOf [strongItem, otherItem])
      "water purification".toList emptyWorld (fun _ => rfl)).2.2.2⟩

/-! ## End-to-end scenario -/

theorem toSizeT_of_int {x : Int} (h0 : 0 ≤ x) (h1 : x < 2 ^ 31) : (toSizeT x : Int) = x := by
  unfold toSizeT
  have : x % 2 ^ 32 = x := Int.emod_eq_of_lt h0 (by omega)
  rw [this]
  exact Int.toNat_of_nonneg h0

/-- C8: `FeedItemMatches` is true exactly when the query has at least one
whitespace-separated keyword and at least half of its keywords, counted with
repetition, occur as case-insensitive substrings of the title or of the description
of the item; it is false for a query without keyword. -/
theorem feedItemMatches_iff_half_of_keywords (item : RSSItem) (query : Str) :
    (FeedItemMatches item query = true ↔
      1 ≤ (words query).length ∧
      (words query).length ≤ 2 * (words query).countP (fun kw =>
        occursIgnoringCase kw item.title || occursIgnoringCase kw item.description)) ∧
    (words query = [] → FeedItemMatches item query = false) := by
  have hf : ((fun kw => contains (toLower item.title) kw ||
        contains (toLower item.description) kw) ∘ toLower) =
      (fun kw => occursIgnoringCase kw item.title ||
        occursIgnoringCase kw item.description) := by
    funext kw
    simp only [Function.comp_apply, contains_toLower]
  have key : FeedItemMatches item query =
      (decide (0 < (words query).length) &&
       decide ((words query).length ≤ 2 * (words query).countP (fun kw =>
        occursIgnoringCase kw item.title || occursIgnoringCase kw item.description))) := by
    rw [FeedItemMatches_eq, words_toLower, List.length_map, List.countP_map, hf]
  constructor
  · rw [key]
    simp only [Bool.and_eq_true, decide_eq_true_eq]
    constructor
    · rintro ⟨h1, h2⟩; exact ⟨h1, h2⟩
    · rintro ⟨h1, h2⟩; exact ⟨h1, h2⟩
  · intro h
    rw [key, h]
    rfl

/-- C8, at the query "water purification" and the item "Water purification methods". -/
theorem feedItemMatches_iff_half_of_keywords_witness :
    FeedItemMatches strongItem "water purification".toList = true :=
  (feedItemMatches_iff_half_of_keywords strongItem "water purification".toList).1.mpr
    ⟨by decide, by decide⟩

/-- C9 (as stated, refuted): a candidate published 2^31 days before `now`, whose title
holds both keywords of the query, is older than 30 days, so the factor of the claim is
1 and its formula gives 3/5; the code stores the day count in an `int`, where it is
negative, applies the factor 1.2 and returns 18/25. -/
theorem calculateRelevance_wrapped_age :
    30 * 86400 ≤ 0 - ancientResult.published ∧
    recencyBoost ancientResult.published 0 = 1 ∧
    min 1 (recencyBoost ancientResult.published 0 *
      (0.6 * ((words (toLower "water purification".toList)).countP
          (fun kw => contains (toLower ancientResult.title) kw) : ℚ) +
       0.4 * ((words (toLower "water purification".toList)).countP
          (fun kw => contains (toLower ancientResult.snippet) kw) : ℚ)) /
      ((words (toLower "water purification".toList)).length : ℚ)) = 3 / 5 ∧
    CalculateRelevance ancientResult "water purification".toList 0 = 18 / 25 := by
  have hk : (words (toLower "water purification".toList)).length = 2 := by decide
  have hT : (words (toLower "water purification".toList)).countP
      (fun kw => contains (toLower ancientResult.title) kw) = 2 := by decide
  have hS : (words (toLower "water purification".toList)).countP
      (fun kw => contains (toLower ancientResult.snippet) kw) = 0 := by decide
  have hb : recencyBoost ancientResult.published 0 = 1 := by
    norm_num [recencyBoost, ancientResult]
  have ha : appliedBoost ancientResult.published 0 = 1.2 := by
    have hq : Int.tdiv (0 - ancientResult.published) (24 * 3600) = 2 ^ 31 := by
      decide
    unfold appliedBoost
    rw [hq]
    norm_num [toInt32]
  refine ⟨by norm_num [ancientResult], hb, ?_, ?_⟩
  · rw [hb, hk, hT, hS]
    norm_num
  · rw [CalculateRelevance_eq, ha, hk, hT, hS]
    norm_num

/-- C9 (amended): over exact rationals and with the time as an input, for a query with
`k ≥ 1` keywords of which `T` occur in the lower-cased title and `S` in the lower-cased
snippet, and an item whose age `now - published` is less than 2^31 days in absolute
value (so that the day count fits the `int` that holds it), `CalculateRelevance` is
`min(1, b × (0.6 T + 0.4 S) / k)` where `b` is 1.2 for an item published less than 7
days before `now`, 1.1 for less than 30 days and 1 otherwise; for every age it is 0
for a query without keyword, and it lies in [0, 1]. -/
theorem calculateRelevance_formula (result : OnlineResult) (query : Str) (now : Int) :
    (-(2 ^ 31 * 86400) < now - result.published → now - result.published < 2 ^ 31 * 86400 →
      1 ≤ (words (toLower query)).length →
      CalculateRelevance result query now =
        min 1 (recencyBoost result.published now *
          (0.6 * ((words (toLower query)).countP
              (fun kw => contains (toLower result.title) kw) : ℚ) +
           0.4 * ((words (toLower query)).countP
              (fun kw => contains (toLower result.snippet) kw) : ℚ)) /
          ((words (toLower query)).length : ℚ))) ∧
    ((words (toLower query)).length = 0 → CalculateRelevance result query now = 0) ∧
    0 ≤ CalculateRelevance result query now ∧ CalculateRelevance result query now ≤ 1 := by
  have hb := appliedBoost_ge_one result.published now
  refine ⟨?_, ?_, ?_, ?_⟩
  · intro hlo hhi hk
    rw [CalculateRelevance_eq, appliedBoost_eq_recencyBoost _ _ hlo hhi, if_pos (by omega),
      min_comm, mul_div_assoc, mul_comm _ (0.6 : ℚ), mul_comm _ (0.4 : ℚ)]
  · intro hk
    rw [CalculateRelevance_eq, hk]
    simp
  · rw [CalculateRelevance_eq]
    apply le_min _ (by norm_num)
    apply mul_nonneg (by linarith)
    split
    · positivity
    · exact le_refl _
  · rw [CalculateRelevance_eq]
    exact min_le_right _ _

/-- C9 (amended), at a query of two keywords and an item of age 0. -/
theorem calculateRelevance_formula_witness :
    1 ≤ (words (toLower "water purification".toList)).length ∧
    CalculateRelevance (candidateOf waterFeed strongItem) "water purification".toList 0 =
      min 1 (recencyBoost (candidateOf waterFeed strongItem).published 0 *
        (0.6 * ((words (toLower "water purification".toList)).countP
            (fun kw => contains (toLower (candidateOf waterFeed strongItem).title) kw) : ℚ) +
         0.4 * ((words (toLower "water purification".toList)).countP
            (fun kw => contains (toLower (candidateOf waterFeed strongItem).snippet) kw) : ℚ)) /
        ((words (toLower "water purification".toList)).length : ℚ)) :=
  ⟨by decide,
   (calculateRelevance_formula (candidateOf waterFeed strongItem)
      "water purification".toList 0).1 (by decide) (by decide) (by decide)⟩

/-- C10: for every query, snippet, publish time and current time, a result whose
title contains every keyword of the query scores at least as much as a result whose
title contains none of them, the two results being equal in all other fields
(keywords and titles are compared in lower case, as the code does). -/
theorem calculateRelevance_title_monotone (r : OnlineResult) (titleAll titleNone query : Str)
    (now : Int)
    (hall : ∀ kw ∈ words (toLower query), contains (toLower titleAll) kw = true)
    (_hnone : ∀ kw ∈ words (toLower query), contains (toLower titleNone) kw = false) :
    CalculateRelevance { r with title := titleNone } query now ≤
      CalculateRelevance { r with title := titleAll } query now := by
  have hb := appliedBoost_ge_one r.published now
  have hT : (words (toLower query)).countP (fun kw => contains (toLower titleAll) kw)
      = (words (toLower query)).length := List.countP_eq_length.mpr hall
  have hle : (words (toLower query)).countP (fun kw => contains (toLower titleNone) kw)
      ≤ (words (toLower query)).length := List.countP_le_length _
  have hleq : (((words (toLower query)).countP
      (fun kw => contains (toLower titleNone) kw) : ℕ) : ℚ) ≤
      (((words (toLower query)).length : ℕ) : ℚ) := by exact_mod_cast hle
  rw [CalculateRelevance_eq, CalculateRelevance_eq]
  dsimp only
  rw [hT]
  apply min_le_min_right
  apply mul_le_mul_of_nonneg_left _ (by linarith)
  split
  · apply div_le_div_of_nonneg_right _ (by positivity)
    linarith
  · exact le_refl _

/-- C10, at the query "water purification" with the titles "Water purification
methods" and "Cooking outdoors". -/
theorem calculateRelevance_title_monotone_witness :
    CalculateRelevance { candidateOf waterFeed otherItem with title := otherItem.title }
        "water purification".toList 0 ≤
      CalculateRelevance { candidateOf waterFeed otherItem with title := strongItem.title }
        "water purification".toList 0 :=
  calculateRelevance_title_monotone (candidateOf waterFeed otherItem) strongItem.title
    otherItem.title "water purification".toList 0 (by decide) (by decide)

/-! ## Ranking and cache: verified properties -/

theorem FilterAndRank_perm (results : List OnlineResult) (query : Str) :
    (FilterAndRank results query).Perm
      (results.filter (fun r => decide ((0.3 : ℚ) ≤ r.relevance))) := by
  unfold FilterAndRank
  have hf : (fun r : OnlineResult => decide (¬ (r.relevance < 0.3)))
      = (fun r => decide ((0.3 : ℚ) ≤ r.relevance)) := by
    funext r
    simp only [not_lt]
  rw [hf]
  exact (List.perm_insertionSort _ results).filter _

theorem FilterAndRank_sorted (results : List OnlineResult) (query : Str) :
    (FilterAndRank results query).Sorted (fun a b => b.relevance ≤ a.relevance) := by
  unfold FilterAndRank
  have : IsTotal OnlineResult (fun a b => b.relevance ≤ a.relevance) :=
    ⟨fun a b => le_total b.relevance a.relevance⟩
  have : IsTrans OnlineResult (fun a b => b.relevance ≤ a.relevance) :=
    ⟨fun a b c hab hbc => le_trans hbc hab⟩
  exact (List.sorted_insertionSort (fun a b : OnlineResult => b.relevance ≤ a.relevance)
    results).filter _

theorem SearchRSSFeeds_length_le (os : OnlineSearch) (query : Str) (limit : Int) (w : World)
    (h0 : 0 ≤ limit) (h1 : limit < 2 ^ 31) :
    ((SearchRSSFeeds os query limit w).1.length : Int) ≤ limit := by
  have hs := toSizeT_of_int h0 h1
  unfold SearchRSSFeeds
  split
  · dsimp only
    split
    · rw [List.length_take]
      omega
    · omega
  · simpa using h0

/-- C11: `FilterAndRank` returns a permutation of the candidates whose relevance is at
least 0.3 (so each as often as it occurs in the input), in non-increasing order of
relevance; and for every limit from 0 up to the largest `int`, the list that
`SearchRSSFeeds` returns has at most `limit` entries. -/
theorem filterAndRank_and_limit (os : OnlineSearch) (results : List OnlineResult)
    (query : Str) (limit : Int) (w : World) :
    (FilterAndRank results query).Perm
      (results.filter (fun r => decide ((0.3 : ℚ) ≤ r.relevance))) ∧
    (FilterAndRank results query).Sorted (fun a b => b.relevance ≤ a.relevance) ∧
    (0 ≤ limit → limit < 2 ^ 31 →
      ((SearchRSSFeeds os query limit w).1.length : Int) ≤ limit) :=
  ⟨FilterAndRank_perm results query, FilterAndRank_sorted results query,
   SearchRSSFeeds_length_le os query limit w⟩

/-- C11, at the one-feed catalog with the limit 10. -/
theorem filterAndRank_and_limit_witness :
    ((SearchRSSFeeds (aggregatorOf [strongItem, otherItem]) "water purification".toList 10
      emptyWorld).1.length : Int) ≤ 10 :=
  (filterAndRank_and_limit (aggregatorOf [strongItem, otherItem]) []
    "water purification".toList 10 emptyWorld).2.2 (by decide) (by decide)

/-- C12 (failing input): with a budget of 1 MB and twenty stored items the reported
usage is 2 MB; `CheckCacheSizeLimit` answers true and removes nothing, so the usage
is still 2 MB afterwards. -/
theorem checkCacheSizeLimit_evicts_nothing :
    smallCacheAggregator.settings.cacheSizeLimitMB = 1 ∧
    GetCacheSizeMB smallCacheAggregator crowdedWorld = 2 ∧
    (CheckCacheSizeLimit smallCacheAggregator crowdedWorld).1 = true ∧
    (CheckCacheSizeLimit smallCacheAggregator crowdedWorld).2.db.items = twentyItems ∧
    GetCacheSizeMB smallCacheAggregator
      (CheckCacheSizeLimit smallCacheAggregator crowdedWorld).2 = 2 := by
  refine ⟨rfl, by decide, by decide, ?_, ?_⟩
  · rw [CheckCacheSizeLimit_world]; rfl
  · rw [CheckCacheSizeLimit_world]; decide

/-! ## Idempotent insert: verified properties -/

/-- The invariant holds in a store with empty tables, where every run starts. -/
theorem consistent_of_empty (d : Database) (hr : d.rows = []) (hi : d.index = []) :
    d.Consistent := by
  refine ⟨?_, ?_, ?_, ?_⟩
  · simp [Database.items, hr]
  · simp [hr]
  · simp [hi]
  · intro e he
    rw [hi] at he
    simp at he

/-- C19 (failing input): for the Atom document whose entry has the self-closing link
`<link href="http://x/a"/>`, `ParseFeed` succeeds with one item and leaves its link
empty; the same happens when the link is written `<link href="http://x/a"></link>`. -/
theorem parseFeed_atom_href_not_extracted :
    (ParseFeed (fun _ => 0) atomSelfClosing 0).1.1 = true ∧
    (ParseFeed (fun _ => 0) atomSelfClosing 0).1.2.items.map (fun i => i.link) = [[]] ∧
    (ParseFeed (fun _ => 0) atomPaired 0).1.1 = true ∧
    (ParseFeed (fun _ => 0) atomPaired 0).1.2.items.map (fun i => i.link) = [[]] := by
  decide

/-- C20 (failing input): for the date text "not a date" both date parsers return the
clock value (here 1000), not the value 0 of a missing date; and two parses of one RSS
document, with the clock at 1000 and at 2000, give its item different dates. -/
theorem parseDate_returns_clock :
    ParseRFC822Date "not a date".toList 1000 = 1000 ∧
    ParseISO8601Date "not a date".toList 1000 = 1000 ∧
    ParseRFC822Date [] 1000 = 0 ∧
    (ParseFeed (fun _ => 1000) rssBadDate 0).1.2.items.map (fun i => i.pubDate) = [1000] ∧
    (ParseFeed (fun _ => 2000) rssBadDate 0).1.2.items.map (fun i => i.pubDate) = [2000] := by
  decide

/-! ## The content extractor: positions stay in range -/

theorem findFrom_bounds {pat : Str} : ∀ {s : Str} {i j : Nat}, findFrom pat s i = some j →
    j + pat.length ≤ i + s.length ∧ pat <+: s.drop (j - i)
  | [], i, j, h => by
    unfold findFrom at h
    split at h
    · rename_i hp
      simp only [Option.some.injEq] at h
      subst h
      rw [List.isPrefixOf_iff_prefix] at hp
      have := List.prefix_nil.mp hp
      subst this
      simp
    · simp at h
  | c :: cs, i, j, h => by
    unfold findFrom at h
    split at h
    · rename_i hp
      simp only [Option.some.injEq] at h
      subst h
      rw [List.isPrefixOf_iff_prefix] at hp
      exact ⟨by have := hp.length_le; omega, by simpa using hp⟩
    · have hge := findFrom_ge h
      obtain ⟨h1, h2⟩ := findFrom_bounds h
      refine ⟨by simp only [List.length_cons]; omega, ?_⟩
      have e : j - i = (j - (i + 1)) + 1 := by omega
      rw [e, List.drop_succ_cons]
      exact h2

/-- A successful `find` returns a position at or after `pos` at which the whole
pattern fits and occurs. -/
theorem find_bounds {s pat : Str} {pos j : Nat} (h : find s pat pos = some j) :
    pos ≤ j ∧ j + pat.length ≤ s.length ∧ pat <+: s.drop j := by
  unfold find at h
  split at h
  · rename_i hp
    have hge := findFrom_ge h
    obtain ⟨h1, h2⟩ := findFrom_bounds h
    refine ⟨hge, ?_, ?_⟩
    · rw [List.length_drop] at h1; omega
    · rw [List.drop_drop] at h2
      have e : pos + (j - pos) = j := by omega
      rw [e] at h2
      exact h2
  · simp at h

theorem substrChecked_some {s : Str} {pos : Nat} (len : Nat) (h : pos ≤ s.length) :
    substrChecked s pos len = some ((s.drop pos).take len) := by
  simp [substrChecked, h]

theorem substrFromChecked_some {s : Str} {pos : Nat} (h : pos ≤ s.length) :
    substrFromChecked s pos = some (s.drop pos) := by
  simp [substrFromChecked, h]

theorem CleanText_isSome (text : Str) : ∃ r, CleanText text = some r := by
  unfold CleanText
  dsimp only
  split
  · rename_i start end_ h1 h2
    unfold findFirstNotOf at h1
    split at h1
    · rename_i hlt
      simp only [Option.some.injEq] at h1
      subst h1
      exact ⟨_, substrChecked_some _ (Nat.le_of_lt hlt)⟩
    · simp at h1
  · exact ⟨_, rfl⟩

theorem FindBetween_isSome (str start end_ : Str) : ∃ r, FindBetween str start end_ = some r := by
  unfold FindBetween
  split
  · exact ⟨_, rfl⟩
  · split
    · exact ⟨_, rfl⟩
    · rename_i endPos h
      have := find_bounds h
      exact ⟨_, substrChecked_some _ (by omega)⟩

theorem metaContent_isSome (html search : Str) : ∃ r, metaContent html search = some r := by
  unfold metaContent
  split
  · exact ⟨_, rfl⟩
  · split
    · exact ⟨_, rfl⟩
    · split
      · exact ⟨_, rfl⟩
      · rename_i endPos h
        have := find_bounds h
        exact ⟨_, substrChecked_some _ (by omega)⟩

theorem titleFromH1_isSome (html : Str) : ∃ r, titleFromH1 html = some r := by
  unfold titleFromH1
  obtain ⟨h1, e⟩ := FindBetween_isSome html "<h1".toList "</h1>".toList
  rw [e, Option.some_bind]
  split
  · split
    · rename_i contentStart h
      have := find_bounds h
      have hl : (">".toList).length = 1 := rfl
      rw [substrFromChecked_some (by omega), Option.some_bind]
      exact CleanText_isSome _
    · exact ⟨_, rfl⟩
  · exact ⟨_, rfl⟩

theorem ExtractTitle_isSome (html : Str) : ∃ r, ExtractTitle html = some r := by
  unfold ExtractTitle GetMetaProperty
  obtain ⟨og, e⟩ := metaContent_isSome html
    ("property=\"".toList ++ "og:title".toList ++ "\"".toList)
  rw [e, Option.some_bind]
  split
  · exact CleanText_isSome _
  · obtain ⟨t, e2⟩ := FindBetween_isSome html "<title>".toList "</title>".toList
    rw [e2, Option.some_bind]
    split
    · exact CleanText_isSome _
    · exact titleFromH1_isSome html

theorem ExtractAuthor_isSome (html : Str) : ∃ r, ExtractAuthor html = some r := by
  unfold ExtractAuthor GetMetaTag GetMetaProperty
  obtain ⟨a, e⟩ := metaContent_isSome html ("name=\"".toList ++ "author".toList ++ "\"".toList)
  rw [e, Option.some_bind]
  split
  · exact ⟨_, rfl⟩
  · obtain ⟨b, e2⟩ := metaContent_isSome html
      ("property=\"".toList ++ "article:author".toList ++ "\"".toList)
    rw [e2, Option.some_bind]
    split <;> exact ⟨_, rfl⟩

theorem ExtractPublishDate_isSome (html : Str) : ∃ r, ExtractPublishDate html = some r := by
  unfold ExtractPublishDate GetMetaProperty
  obtain ⟨a, e⟩ := metaContent_isSome html
    ("property=\"".toList ++ "article:published_time".toList ++ "\"".toList)
  rw [e, Option.some_bind]
  split
  · obtain ⟨b, e2⟩ := metaContent_isSome html
      ("property=\"".toList ++ "datePublished".toList ++ "\"".toList)
    rw [e2, Option.some_bind]
    exact ⟨_, rfl⟩
  · exact ⟨_, rfl⟩

theorem domainOf_isSome (url : Str) : ∃ r, domainOf url = some r := by
  unfold domainOf
  split
  · rename_i protoEnd h
    have := find_bounds h
    have hl : ("://".toList).length = 3 := rfl
    exact ⟨_, substrChecked_some _ (by omega)⟩
  · exact ⟨_, rfl⟩

theorem snippetOf_eq (mainText : Str) :
    snippetOf mainText =
      some (if 500 < mainText.length then mainText.take 500 ++ "...".toList else mainText) := by
  unfold snippetOf
  split
  · rw [substrChecked_some _ (Nat.zero_le _)]
    simp
  · rfl

/-! ## The content extractor: every loop ends before its fuel -/

theorem eraseChecked_some {s : Str} {pos : Nat} (len : Nat) (h : pos ≤ s.length) :
    eraseChecked s pos len = some (s.take pos ++ s.drop (pos + len)) := by
  simp [eraseChecked, h]

/-- Each pass of a removal loop shortens the text, so the loop returns when its fuel
exceeds the length of the text. -/
theorem removeLoop_isSome (openTag closeTag : Str) (closeLen : Nat) (hc : 0 < closeLen)
    (ht : 0 < closeTag.length) :
    ∀ (fuel : Nat) (result : Str) (pos : Nat), result.length < fuel →
      ∃ r, removeLoop openTag closeTag closeLen fuel result pos = some r
  | 0, _, _, h => by omega
  | fuel + 1, result, pos, h => by
    unfold removeLoop
    split
    · exact ⟨_, rfl⟩
    · rename_i p hp
      split
      · exact ⟨_, rfl⟩
      · rename_i end_ he
        have b1 := find_bounds hp
        have b2 := find_bounds he
        rw [eraseChecked_some _ (by omega), Option.some_bind]
        apply removeLoop_isSome openTag closeTag closeLen hc ht fuel
        simp only [List.length_append, List.length_take, List.length_drop]
        omega

theorem RemoveScriptsAndStyles_isSome (html : Str) :
    ∃ r, RemoveScriptsAndStyles html = some r := by
  unfold RemoveScriptsAndStyles
  obtain ⟨r, e⟩ := removeLoop_isSome "<script".toList "</script>".toList 9 (by decide)
    (by decide) (html.length + 1) html 0 (by omega)
  rw [e, Option.some_bind]
  exact removeLoop_isSome "<style".toList "</style>".toList 8 (by decide) (by decide)
    (r.length + 1) r 0 (by omega)

/-- Each pass of `FindAllBetween` moves `pos` forward, so the loop returns when its
fuel exceeds the distance from `pos` to the end of the text. -/
theorem findAllBetweenLoop_isSome (str start end_ : Str) (he : 0 < end_.length) :
    ∀ (fuel pos : Nat) (results : List Str), pos ≤ str.length → str.length < fuel + pos →
      ∃ r, findAllBetweenLoop str start end_ fuel pos results = some r
  | 0, _, _, h1, h2 => by omega
  | fuel + 1, pos, results, h1, h2 => by
    unfold findAllBetweenLoop
    split
    · exact ⟨_, rfl⟩
    · rename_i startPos hs
      split
      · exact ⟨_, rfl⟩
      · rename_i endPos hend
        have b1 := find_bounds hs
        have b2 := find_bounds hend
        rw [substrChecked_some _ (by omega), Option.some_bind]
        exact findAllBetweenLoop_isSome str start end_ he fuel _ _ (by omega) (by omega)

theorem FindAllBetween_isSome (str start end_ : Str) (he : 0 < end_.length) :
    ∃ r, FindAllBetween str start end_ = some r :=
  findAllBetweenLoop_isSome str start end_ he _ _ _ (Nat.zero_le _) (by omega)

theorem take_two_eq_take {a l : Str} (h : a <+: l) (h2 : 2 ≤ a.length) :
    a.take 2 = l.take 2 := by
  obtain ⟨t, rfl⟩ := h
  rw [List.take_append_of_le_length h2]

/-- A closing delimiter that differs from the opening one in its first two characters
is found strictly after it. -/
theorem find_close_gt {s tag close : Str} {pos start end_ : Nat}
    (hs : find s tag pos = some start) (he : find s close start = some end_)
    (hne : tag.take 2 ≠ close.take 2) (h1 : 2 ≤ tag.length) (h2 : 2 ≤ close.length) :
    start < end_ := by
  have b1 := find_bounds hs
  have b2 := find_bounds he
  rcases Nat.lt_or_ge start end_ with h | h
  · exact h
  · exfalso
    have e : end_ = start := by omega
    rw [e] at b2
    exact hne ((take_two_eq_take b1.2.2 h1).trans (take_two_eq_take b2.2.2 h2).symm)

theorem linkCharsLoop_isSome (html : Str) :
    ∀ (fuel pos linkChars : Nat), pos ≤ html.length → html.length < fuel + pos →
      ∃ r, linkCharsLoop html fuel pos linkChars = some r
  | 0, _, _, h1, h2 => by omega
  | fuel + 1, pos, linkChars, h1, h2 => by
    unfold linkCharsLoop
    split
    · exact ⟨_, rfl⟩
    · rename_i p hp
      split
      · exact ⟨_, rfl⟩
      · rename_i end_ he
        have b1 := find_bounds hp
        have b2 := find_bounds he
        have hgt := find_close_gt hp he (by decide) (by decide) (by decide)
        exact linkCharsLoop_isSome html fuel _ _ (by omega) (by omega)

theorem CalculateLinkDensity_isSome (html : Str) : ∃ r, CalculateLinkDensity html = some r := by
  unfold CalculateLinkDensity
  split
  · exact ⟨_, rfl⟩
  · obtain ⟨r, e⟩ := linkCharsLoop_isSome html (html.length + 1) 0 0 (Nat.zero_le _) (by omega)
    rw [e, Option.some_bind]
    exact ⟨_, rfl⟩

theorem blockOf_isSome (tag content : Str) : ∃ r, blockOf tag content = some r := by
  unfold blockOf
  obtain ⟨r, e⟩ := CalculateLinkDensity_isSome content
  rw [e, Option.some_bind]
  exact ⟨_, rfl⟩

theorem contentBlocksLoop_isSome (html tag : Str) (hne : tag.take 2 ≠ "</".toList)
    (h2 : 2 ≤ tag.length) :
    ∀ (fuel pos : Nat) (blocks : List ContentBlock), pos ≤ html.length →
      html.length < fuel + pos → ∃ r, contentBlocksLoop html tag fuel pos blocks = some r
  | 0, _, _, h1, h3 => by omega
  | fuel + 1, pos, blocks, h1, h3 => by
    unfold contentBlocksLoop
    split
    · exact ⟨_, rfl⟩
    · rename_i start hs
      split
      · exact ⟨_, rfl⟩
      · rename_i end_ he
        have b1 := find_bounds hs
        have b2 := find_bounds he
        have hgt := find_close_gt hs he hne h2 (by decide)
        rw [substrChecked_some _ (by omega), Option.some_bind]
        obtain ⟨b, eb⟩ := blockOf_isSome tag ((html.drop start).take (end_ - start))
        rw [eb, Option.some_bind]
        exact contentBlocksLoop_isSome html tag hne h2 fuel _ _ (by omega) (by omega)

theorem contentBlocksTags_isSome (html : Str) :
    ∀ (tags : List Str) (blocks : List ContentBlock),
      (∀ tag ∈ tags, tag.take 2 ≠ "</".toList ∧ 2 ≤ tag.length) →
      ∃ r, contentBlocksTags html tags blocks = some r
  | [], _, _ => ⟨_, rfl⟩
  | tag :: rest, blocks, h => by
    unfold contentBlocksTags
    obtain ⟨h1, h2⟩ := h tag (List.mem_cons_self _ _)
    obtain ⟨r, e⟩ := contentBlocksLoop_isSome html tag h1 h2 (html.length + 1) 0 blocks
      (Nat.zero_le _) (by omega)
    rw [e, Option.some_bind]
    exact contentBlocksTags_isSome html rest r (fun t ht => h t (List.mem_cons_of_mem _ ht))

theorem FindContentBlocks_isSome (html : Str) : ∃ r, FindContentBlocks html = some r := by
  unfold FindContentBlocks
  apply contentBlocksTags_isSome
  intro tag ht
  simp only [List.mem_cons, List.mem_singleton, List.not_mem_nil, or_false] at ht
  rcases ht with rfl | rfl | rfl <;> exact ⟨by decide, by decide⟩

theorem paragraphsLoop_isSome : ∀ (ps : List Str) (result : Str),
    ∃ r, paragraphsLoop ps result = some r
  | [], _ => ⟨_, rfl⟩
  | p :: rest, result => by
    unfold paragraphsLoop
    split
    · rename_i contentStart h
      have b := find_bounds h
      have hl : (">".toList).length = 1 := rfl
      rw [substrFromChecked_some (by omega), Option.some_bind]
      exact paragraphsLoop_isSome rest _
    · exact paragraphsLoop_isSome rest _

theorem ExtractMainContent_isSome (html : Str) : ∃ r, ExtractMainContent html = some r := by
  unfold ExtractMainContent
  obtain ⟨a, ea⟩ := FindBetween_isSome html "<article".toList "</article>".toList
  rw [ea, Option.some_bind]
  split
  · exact ⟨_, rfl⟩
  · unfold mainContentFromMain
    obtain ⟨m, em⟩ := FindBetween_isSome html "<main".toList "</main>".toList
    rw [em, Option.some_bind]
    split
    · exact ⟨_, rfl⟩
    · unfold mainContentFromBlocks
      obtain ⟨bs, eb⟩ := FindContentBlocks_isSome html
      rw [eb, Option.some_bind]
      split
      · exact ⟨_, rfl⟩
      · unfold mainContentFromParagraphs
        obtain ⟨ps, ep⟩ := FindAllBetween_isSome html "<p".toList "</p>".toList (by decide)
        rw [ep, Option.some_bind]
        exact paragraphsLoop_isSome ps []

theorem contextStart_isSome (text : Str) (contextWords : Nat) :
    ∀ (start wordCount : Nat), start < text.length →
      ∃ r, contextStart text contextWords start wordCount = some r ∧ r ≤ start
  | 0, _, _ => ⟨0, rfl, le_refl _⟩
  | start + 1, wordCount, h => by
    unfold contextStart
    split
    · obtain ⟨c, hc⟩ : ∃ c, text.get? (start + 1) = some c :=
        ⟨text.get ⟨start + 1, h⟩, List.get?_eq_get h⟩
      rw [hc, Option.some_bind]
      obtain ⟨r, e, hr⟩ := contextStart_isSome text contextWords start
        (if isspace c then wordCount + 1 else wordCount) (by omega)
      exact ⟨r, e, by omega⟩
    · exact ⟨_, rfl, le_refl _⟩

theorem GetQuoteContext_isSome (text : Str) (position contextWords : Nat)
    (h : position < text.length) : ∃ r, GetQuoteContext text position contextWords = some r := by
  unfold GetQuoteContext
  obtain ⟨s, e, hs⟩ := contextStart_isSome text contextWords position 0 h
  rw [e, Option.some_bind]
  exact ⟨_, substrChecked_some _ (by omega)⟩

theorem findQuotedLoop_isSome (text openQuote closeQuote : Str) (ho : 0 < openQuote.length)
    (hc : 0 < closeQuote.length) :
    ∀ (fuel pos : Nat) (quotes : List Quote), pos ≤ text.length → text.length < fuel + pos →
      ∃ r, findQuotedLoop text openQuote closeQuote fuel pos quotes = some r
  | 0, _, _, h1, h2 => by omega
  | fuel + 1, pos, quotes, h1, h2 => by
    unfold findQuotedLoop
    split
    · exact ⟨_, rfl⟩
    · rename_i start hs
      split
      · exact ⟨_, rfl⟩
      · rename_i end_ he
        have b1 := find_bounds hs
        have b2 := find_bounds he
        rw [substrChecked_some _ (by omega), Option.some_bind]
        obtain ⟨ctx, ec⟩ := GetQuoteContext_isSome text start 10 (by omega)
        rw [ec, Option.some_bind]
        exact findQuotedLoop_isSome text openQuote closeQuote ho hc fuel _ _ (by omega)
          (by omega)

theorem FindQuotedText_isSome (text openQuote closeQuote : Str) (ho : 0 < openQuote.length)
    (hc : 0 < closeQuote.length) : ∃ r, FindQuotedText text openQuote closeQuote = some r :=
  findQuotedLoop_isSome text openQuote closeQuote ho hc _ _ _ (Nat.zero_le _) (by omega)

theorem ExtractQuotes_isSome (html : Str) (maxLength : Int) :
    ∃ r, ExtractQuotes html maxLength = some r := by
  unfold ExtractQuotes
  obtain ⟨a, ea⟩ := FindQuotedText_isSome (StripHTML html) "\"".toList "\"".toList
    (by decide) (by decide)
  obtain ⟨b, eb⟩ := FindQuotedText_isSome (StripHTML html) curlyOpen curlyClose
    (by decide) (by decide)
  rw [ea, Option.some_bind, eb, Option.some_bind]
  exact ⟨_, rfl⟩

/-- The run of `Extract` returns normally, with every part computed by the function
of that name on the cleaned or raw document. -/
theorem Extract_eq_some (cfg : ExtractorSettings) (html url : Str) :
    ∃ domain title author publishDate cleanHtml rawText cleanedText quotes,
      domainOf url = some domain ∧ ExtractTitle html = some title ∧
      ExtractAuthor html = some author ∧ ExtractPublishDate html = some publishDate ∧
      RemoveScriptsAndStyles html = some cleanHtml ∧
      ExtractMainContent cleanHtml = some rawText ∧ CleanText rawText = some cleanedText ∧
      ExtractQuotes html cfg.maxQuoteLength = some quotes ∧
      Extract cfg html url = some
        { title := title
          author := author
          publishDate := publishDate
          domain := domain
          mainText := (limitWordsLoop cfg.maxTextLength (words cleanedText) [] 0).1
          snippet :=
            if 500 < (limitWordsLoop cfg.maxTextLength (words cleanedText) [] 0).1.length then
              (limitWordsLoop cfg.maxTextLength (words cleanedText) [] 0).1.take 500
                ++ "...".toList
            else (limitWordsLoop cfg.maxTextLength (words cleanedText) [] 0).1
          quotes := (quotes.filter (fun q => 20 < q.text.length)).map (fun q => q.text)
          language := DetectLanguage (limitWordsLoop cfg.maxTextLength (words cleanedText) [] 0).1
          wordCount := (limitWordsLoop cfg.maxTextLength (words cleanedText) [] 0).2
          hasPaywall := DetectPaywall html } := by
  obtain ⟨domain, e1⟩ := domainOf_isSome url
  obtain ⟨title, e2⟩ := ExtractTitle_isSome html
  obtain ⟨author, e3⟩ := ExtractAuthor_isSome html
  obtain ⟨publishDate, e4⟩ := ExtractPublishDate_isSome html
  obtain ⟨cleanHtml, e5⟩ := RemoveScriptsAndStyles_isSome html
  obtain ⟨rawText, e6⟩ := ExtractMainContent_isSome cleanHtml
  obtain ⟨cleanedText, e7⟩ := CleanText_isSome rawText
  obtain ⟨quotes, e8⟩ := ExtractQuotes_isSome html cfg.maxQuoteLength
  refine ⟨domain, title, author, publishDate, cleanHtml, rawText, cleanedText, quotes,
    e1, e2, e3, e4, e5, e6, e7, e8, ?_⟩
  unfold Extract
  simp only [e1, e2, e3, e4, e5, e6, e7, e8, Option.some_bind, snippetOf_eq]

/-! ## The content extractor: verified properties -/

/-- C14 (failing input): the document made of the link block followed by the plain
block has no `<article>` or `<main>` element; each block has 500 words; the link
density of the link block is 9/10 and that of the plain block is 0; yet both blocks
found by `FindContentBlocks` have `linkDensity` 0 and score 500, and
`ExtractMainContent` returns the text of the link block, the first of the two. -/
theorem extractMainContent_selects_link_block :
    CountWords (StripHTML linkBlock) = 500 ∧ CountWords (StripHTML plainBlock) = 500 ∧
    CalculateLinkDensity linkBlock = some (9 / 10) ∧
    CalculateLinkDensity plainBlock = some 0 ∧
    (FindContentBlocks (linkBlock ++ plainBlock)).map
      (fun bs => bs.map (fun b => (b.linkDensity, b.score))) = some [(0, 500), (0, 500)] ∧
    ExtractMainContent (linkBlock ++ plainBlock) = some (repWords 500 "b ".toList) ∧
    ExtractMainContent (linkBlock ++ plainBlock) ≠ some (StripHTML plainBlock) := by
  refine ⟨by decide!, by decide!, by decide!, by decide!, by decide!, by decide!, by decide!⟩

/-- C15: for every html and url (and every setting of the extractor), `Extract` returns
a result whose snippet equals the main text when the main text has at most 500
characters, and is otherwise the first 500 characters of the main text followed by
"..."; so the snippet is a prefix of the main text, possibly followed by the marker. -/
theorem extract_snippet_from_mainText (cfg : ExtractorSettings) (html url : Str) :
    ∃ r, Extract cfg html url = some r ∧
      (r.mainText.length ≤ 500 → r.snippet = r.mainText) ∧
      (500 < r.mainText.length → r.snippet = r.mainText.take 500 ++ "...".toList) ∧
      (∃ p, p <+: r.mainText ∧ (r.snippet = p ∨ r.snippet = p ++ "...".toList)) := by
  obtain ⟨domain, title, author, publishDate, cleanHtml, rawText, cleanedText, quotes,
    -, -, -, -, -, -, -, -, e⟩ := Extract_eq_some cfg html url
  refine ⟨_, e, ?_, ?_, ?_⟩
  · intro h
    simp only [if_neg (not_lt.mpr h)]
  · intro h
    simp only [if_pos h]
  · dsimp only
    split
    · exact ⟨_, List.take_prefix _ _, Or.inr rfl⟩
    · exact ⟨_, List.prefix_refl _, Or.inl rfl⟩

/-- C16 (as stated, refuted): for the text `He said "hi" twice`, `ExtractQuotes` with
the limit 200 returns the quote "hi", of 2 characters. -/
theorem extractQuotes_returns_short_quote :
    (ExtractQuotes "He said \"hi\" twice".toList 200).map (fun qs => qs.map (fun q => q.text))
      = some ["hi".toList] := by
  decide

theorem ExtractQuotes_le (html : Str) (maxLength : Int) (h0 : 0 ≤ maxLength)
    (h1 : maxLength < 2 ^ 31) :
    ∃ qs, ExtractQuotes html maxLength = some qs ∧
      ∀ q ∈ qs, (q.text.length : Int) ≤ maxLength := by
  obtain ⟨a, ea⟩ := FindQuotedText_isSome (StripHTML html) "\"".toList "\"".toList
    (by decide) (by decide)
  obtain ⟨b, eb⟩ := FindQuotedText_isSome (StripHTML html) curlyOpen curlyClose
    (by decide) (by decide)
  unfold ExtractQuotes
  rw [ea, Option.some_bind, eb, Option.some_bind]
  refine ⟨_, rfl, ?_⟩
  intro q hq
  simp only [List.mem_filter, decide_eq_true_eq, not_lt] at hq
  have := toSizeT_of_int h0 h1
  omega

/-- C16 (amended): every quote returned by `ExtractQuotes(html, 200)` has a text of at
most 200 characters (no lower bound is applied there); the floor is applied by
`Extract`, whose list of quotes holds only texts of more than 20 and at most 200
characters. -/
theorem extractQuotes_length_bounds (html url : Str) :
    (∃ qs, ExtractQuotes html 200 = some qs ∧ ∀ q ∈ qs, q.text.length ≤ 200) ∧
    (∃ r, Extract defaultExtractorSettings html url = some r ∧
      ∀ t ∈ r.quotes, 20 < t.length ∧ t.length ≤ 200) := by
  constructor
  · obtain ⟨qs, e, h⟩ := ExtractQuotes_le html 200 (by decide) (by decide)
    exact ⟨qs, e, fun q hq => by have := h q hq; omega⟩
  · obtain ⟨domain, title, author, publishDate, cleanHtml, rawText, cleanedText, quotes,
      -, -, -, -, -, -, -, eq, e⟩ := Extract_eq_some defaultExtractorSettings html url
    obtain ⟨qs, e2, h⟩ := ExtractQuotes_le html 200 (by decide) (by decide)
    have hqs : quotes = qs := by
      have : some quotes = some qs := by rw [← eq, ← e2]; rfl
      exact Option.some.inj this
    subst hqs
    refine ⟨_, e, ?_⟩
    intro t ht
    simp only [List.mem_map, List.mem_filter, decide_eq_true_eq] at ht
    obtain ⟨q, ⟨hq, h20⟩, rfl⟩ := ht
    have := h q hq
    exact ⟨h20, by omega⟩

/-- C17 (as stated, refuted): in the sample document the text between `<article` and
`</article>` has 211 characters and its stripped text is empty; `ExtractMainContent`
returns this empty text and does not fall through to `<main>`, whose tier would
return 210 characters. -/
theorem extractMainContent_short_stripped_article :
    (FindBetween emptyArticleDoc "<article".toList "</article>".toList).map
      (fun a => (a.length, (StripHTML a).length)) = some (211, 0) ∧
    ExtractMainContent emptyArticleDoc = some [] ∧
    mainContentFromMain emptyArticleDoc = some (List.replicate 210 'x') := by
  refine ⟨by decide!, by decide!, by decide!⟩

/-- C17 (amended): `ExtractMainContent` returns the stripped text found between
`<article` and `</article>` exactly when that raw text (before stripping) is longer
than 200 characters; otherwise it is the `<main>` tier, which follows the same rule on
the raw text between `<main` and `</main>`; then the best content block when there
is a block; then the paragraphs. -/
theorem extractMainContent_tiers (html : Str) :
    (∃ article, FindBetween html "<article".toList "</article>".toList = some article ∧
      (200 < article.length → ExtractMainContent html = some (StripHTML article)) ∧
      (article.length ≤ 200 → ExtractMainContent html = mainContentFromMain html)) ∧
    (∃ main, FindBetween html "<main".toList "</main>".toList = some main ∧
      (200 < main.length → mainContentFromMain html = some (StripHTML main)) ∧
      (main.length ≤ 200 → mainContentFromMain html = mainContentFromBlocks html)) ∧
    (∃ blocks, FindContentBlocks html = some blocks ∧
      (blocks ≠ [] →
        mainContentFromBlocks html = some (StripHTML (SelectBestBlock blocks).content)) ∧
      (blocks = [] → mainContentFromBlocks html = mainContentFromParagraphs html)) := by
  refine ⟨?_, ?_, ?_⟩
  · obtain ⟨a, ea⟩ := FindBetween_isSome html "<article".toList "</article>".toList
    refine ⟨a, ea, ?_, ?_⟩
    · intro h
      have hne : a ≠ [] := by intro e; rw [e] at h; simp at h
      simp only [ExtractMainContent, ea, Option.some_bind, if_pos (And.intro hne h)]
    · intro h
      have : ¬ (a ≠ [] ∧ 200 < a.length) := fun c => by omega
      simp only [ExtractMainContent, ea, Option.some_bind, if_neg this]
  · obtain ⟨m, em⟩ := FindBetween_isSome html "<main".toList "</main>".toList
    refine ⟨m, em, ?_, ?_⟩
    · intro h
      have hne : m ≠ [] := by intro e; rw [e] at h; simp at h
      simp only [mainContentFromMain, em, Option.some_bind, if_pos (And.intro hne h)]
    · intro h
      have : ¬ (m ≠ [] ∧ 200 < m.length) := fun c => by omega
      simp only [mainContentFromMain, em, Option.some_bind, if_neg this]
  · obtain ⟨bs, eb⟩ := FindContentBlocks_isSome html
    refine ⟨bs, eb, ?_, ?_⟩
    · intro h
      simp only [mainContentFromBlocks, eb, Option.some_bind, if_pos h]
    · intro h
      simp only [mainContentFromBlocks, eb, Option.some_bind, h, ne_eq, not_true_eq_false,
        if_false]

/-- C17 (amended), at the sample document: the raw article text has 211 characters. -/
theorem extractMainContent_tiers_witness :
    ∃ article, FindBetween emptyArticleDoc "<article".toList "</article>".toList
        = some article ∧
      ExtractMainContent emptyArticleDoc = some (StripHTML article) := by
  obtain ⟨a, ea, h1, -⟩ := (extractMainContent_tiers emptyArticleDoc).1
  refine ⟨a, ea, h1 ?_⟩
  have e : FindBetween emptyArticleDoc "<article".toList "</article>".toList
      = some ((emptyArticleDoc.drop 8).take 211) := by decide!
  rw [e] at ea
  rw [← Option.some.inj ea]
  decide!

/-- C18: for every html and url, however malformed, and every setting, `Extract` returns
a result: no `substr`, `erase` or index is out of range and no scanning loop uses up
its fuel. The progress of each loop: a pass of `RemoveScriptsAndStyles` erases in
range and shortens the text; in `FindContentBlocks`, `CalculateLinkDensity`,
`FindAllBetween` and `FindQuotedText` the position after a pass lies strictly beyond
the position before it and within the text (for non-empty closing delimiters); the loops of `GetQuoteContext` return for
every position inside the text. -/
theorem extract_always_returns (cfg : ExtractorSettings) (html url : Str) :
    (∃ r, Extract cfg html url = some r) ∧
    (∀ (result openTag closeTag : Str) (pos p end_ n : Nat),
      find result openTag pos = some p → find result closeTag p = some end_ →
      0 < n → 0 < closeTag.length →
      ∃ r, eraseChecked result p (end_ - p + n) = some r ∧ r.length < result.length) ∧
    (∀ (doc tag : Str) (pos start end_ : Nat),
      tag ∈ ["<div".toList, "<section".toList, "<article".toList] →
      find doc tag pos = some start → find doc "</".toList start = some end_ →
      pos < end_ ∧ end_ ≤ doc.length) ∧
    (∀ (doc : Str) (pos p end_ : Nat),
      find doc "<a ".toList pos = some p → find doc "</a>".toList p = some end_ →
      pos < end_ ∧ end_ ≤ doc.length) ∧
    (∀ (str start close : Str) (pos startPos endPos : Nat), 0 < close.length →
      find str start pos = some startPos → find str close startPos = some endPos →
      pos < endPos + close.length ∧ endPos + close.length ≤ str.length) ∧
    (∀ (text openQuote closeQuote : Str) (pos start end_ : Nat), 0 < closeQuote.length →
      find text openQuote pos = some start →
      find text closeQuote (start + openQuote.length) = some end_ →
      pos < end_ + closeQuote.length ∧ end_ + closeQuote.length ≤ text.length) ∧
    (∀ (text : Str) (position contextWords : Nat), position < text.length →
      ∃ r, GetQuoteContext text position contextWords = some r) := by
  refine ⟨?_, ?_, ?_, ?_, ?_, ?_, ?_⟩
  · obtain ⟨_, _, _, _, _, _, _, _, -, -, -, -, -, -, -, -, e⟩ := Extract_eq_some cfg html url
    exact ⟨_, e⟩
  · intro result openTag closeTag pos p end_ n hp he hn hc
    have b1 := find_bounds hp
    have b2 := find_bounds he
    refine ⟨_, eraseChecked_some _ (by omega), ?_⟩
    simp only [List.length_append, List.length_take, List.length_drop]
    omega
  · intro doc tag pos start end_ ht hs he
    have b1 := find_bounds hs
    have b2 := find_bounds he
    simp only [List.mem_cons, List.mem_singleton, List.not_mem_nil, or_false] at ht
    have hgt : start < end_ := by
      rcases ht with rfl | rfl | rfl <;>
        exact find_close_gt hs he (by decide) (by decide) (by decide)
    have hl : ("</".toList).length = 2 := rfl
    exact ⟨by omega, by omega⟩
  · intro doc pos p end_ hs he
    have b1 := find_bounds hs
    have b2 := find_bounds he
    have hgt := find_close_gt hs he (by decide) (by decide) (by decide)
    exact ⟨by omega, by omega⟩
  · intro str start close pos startPos endPos hc hs he
    have b1 := find_bounds hs
    have b2 := find_bounds he
    exact ⟨by omega, by omega⟩
  · intro text openQuote closeQuote pos start end_ hc hs he
    have b1 := find_bounds hs
    have b2 := find_bounds he
    exact ⟨by omega, by omega⟩
  · intro text position contextWords h
    exact GetQuoteContext_isSome text position contextWords h

/-- C18, at a malformed page: the result exists, with an empty list of quotes. -/
theorem extract_always_returns_witness :
    (∃ r, Extract defaultExtractorSettings malformedPage "https://example.com/p".toList
      = some r) ∧
    (Extract defaultExtractorSettings malformedPage "https://example.com/p".toList).map
      (fun r => (r.domain, r.quotes)) = some ("example.com".toList, []) :=
  ⟨(extract_always_returns defaultExtractorSettings malformedPage
      "https://example.com/p".toList).1, by decide!⟩

/-! ## Query intent, continued: verified properties -/

theorem isSome_find_iff {s pat : Str} : (find s pat 0).isSome = true ↔ pat <:+: s := by
  rw [← contains_iff]; rfl

/-- C21 (failing input): the query "what did Einstein say about recent discoveries"
contains "recent", and `AnalyzeQuery` gives it the intent QUOTE with
`needsRecent = false`: the quote branch returns before the recency test. In general
the flag is false for every query that matches the quote rule, and for every other
query it is true exactly when the lower-cased query contains one of "recent",
"latest", "current", "today", "now". -/
theorem analyzeQuery_quote_skips_recency :
    (contains (toLower "what did Einstein say about recent discoveries".toList)
        "recent".toList = true ∧
      (AnalyzeQuery "what did Einstein say about recent discoveries".toList).intent
        = INTENT_QUOTE ∧
      (AnalyzeQuery "what did Einstein say about recent discoveries".toList).needsRecent
        = false) ∧
    (∀ query : Str, MatchesQuotePattern (toLower query) ≠ none →
      (AnalyzeQuery query).needsRecent = false) ∧
    (∀ query : Str, MatchesQuotePattern (toLower query) = none →
      ((AnalyzeQuery query).needsRecent = true ↔
        ("recent".toList <:+: toLower query ∨ "latest".toList <:+: toLower query ∨
          "current".toList <:+: toLower query ∨ "today".toList <:+: toLower query ∨
          "now".toList <:+: toLower query))) := by
  refine ⟨by decide, ?_, ?_⟩
  · intro query hq
    cases h : MatchesQuotePattern (toLower query) with
    | none => exact absurd h hq
    | some p => simp [AnalyzeQuery, h]
  · intro query hq
    have hA : (AnalyzeQuery query).needsRecent = recencyNeeded (toLower query) := by
      simp [AnalyzeQuery, hq]
    rw [hA]
    unfold recencyNeeded
    simp only [Bool.or_eq_true, isSome_find_iff, or_assoc]

/-- C21, at the query "latest news", which is no quote query: the flag is set. -/
theorem analyzeQuery_quote_skips_recency_witness :
    (AnalyzeQuery "latest news".toList).needsRecent = true :=
  (analyzeQuery_quote_skips_recency.2.2 "latest news".toList (by decide)).mpr
    (Or.inr (Or.inl (by decide)))

/-- C22 (as stated, refuted): "tell me why the sky is blue" matches none of the QUOTE,
HOWTO and WHAT rules and contains "why ", and its intent is GENERAL, not WHY. -/
theorem analyzeQuery_inner_why_is_general :
    MatchesQuotePattern (toLower "tell me why the sky is blue".toList) = none ∧
    MatchesHowToPattern (toLower "tell me why the sky is blue".toList) = false ∧
    MatchesWhatPattern (toLower "tell me why the sky is blue".toList) = false ∧
    contains (toLower "tell me why the sky is blue".toList) "why ".toList = true ∧
    (AnalyzeQuery "tell me why the sky is blue".toList).intent = INTENT_GENERAL ∧
    (AnalyzeQuery "tell me why the sky is blue".toList).intent ≠ INTENT_WHY := by
  decide

/-- C22 (amended): for a query that matches none of the QUOTE, HOWTO and WHAT rules,
the intent is WHEN if the lower-cased query starts with "when " or contains
"when did"; otherwise WHERE if it starts with "where " or contains "where is";
otherwise WHY if it starts with "why "; otherwise GENERAL. -/
theorem analyzeQuery_when_where_why (query : Str)
    (hq : MatchesQuotePattern (toLower query) = none)
    (hh : MatchesHowToPattern (toLower query) = false)
    (hw : MatchesWhatPattern (toLower query) = false) :
    (("when ".toList <+: toLower query ∨ "when did".toList <:+: toLower query) →
      (AnalyzeQuery query).intent = INTENT_WHEN) ∧
    (¬ ("when ".toList <+: toLower query ∨ "when did".toList <:+: toLower query) →
      ("where ".toList <+: toLower query ∨ "where is".toList <:+: toLower query) →
      (AnalyzeQuery query).intent = INTENT_WHERE) ∧
    (¬ ("when ".toList <+: toLower query ∨ "when did".toList <:+: toLower query) →
      ¬ ("where ".toList <+: toLower query ∨ "where is".toList <:+: toLower query) →
      "why ".toList <+: toLower query → (AnalyzeQuery query).intent = INTENT_WHY) ∧
    (¬ ("when ".toList <+: toLower query ∨ "when did".toList <:+: toLower query) →
      ¬ ("where ".toList <+: toLower query ∨ "where is".toList <:+: toLower query) →
      ¬ "why ".toList <+: toLower query → (AnalyzeQuery query).intent = INTENT_GENERAL) := by
  have hA : (AnalyzeQuery query).intent = nonQuoteIntent (toLower query) := by
    simp [AnalyzeQuery, hq]
  have hwhen : (find (toLower query) "when ".toList 0 == some 0 ||
      (find (toLower query) "when did".toList 0).isSome) = true ↔
      ("when ".toList <+: toLower query ∨ "when did".toList <:+: toLower query) := by
    rw [Bool.or_eq_true, beq_iff_eq, find_zero_iff, isSome_find_iff]
  have hwhere : (find (toLower query) "where ".toList 0 == some 0 ||
      (find (toLower query) "where is".toList 0).isSome) = true ↔
      ("where ".toList <+: toLower query ∨ "where is".toList <:+: toLower query) := by
    rw [Bool.or_eq_true, beq_iff_eq, find_zero_iff, isSome_find_iff]
  have hwhy : (find (toLower query) "why ".toList 0 == some 0) = true ↔
      "why ".toList <+: toLower query := by
    rw [beq_iff_eq, find_zero_iff]
  rw [hA]
  unfold nonQuoteIntent
  simp only [hh, hw, Bool.false_eq_true, if_false, hwhen, hwhere, hwhy]
  refine ⟨?_, ?_, ?_, ?_⟩
  · intro h; rw [if_pos h]
  · intro h1 h2; rw [if_neg h1, if_pos h2]
  · intro h1 h2 h3; rw [if_neg h1, if_neg h2, if_pos h3]
  · intro h1 h2 h3; rw [if_neg h1, if_neg h2, if_neg h3]

/-- C22 (amended), at the query "why is the sky blue". -/
theorem analyzeQuery_when_where_why_witness :
    (AnalyzeQuery "why is the sky blue".toList).intent = INTENT_WHY :=
  (analyzeQuery_when_where_why "why is the sky blue".toList (by decide) (by decide)
    (by decide)).2.2.1 (by decide) (by decide) (by decide)

/-! ## Answer synthesis, continued: verified properties -/

/-- C23 (as stated, refuted): for one result whose item has no quote field and no
snippet, the answer of `BuildQuotesAnswer` has an empty list of quotes and the
confidence 0.8. -/
theorem buildQuotesAnswer_confident_without_quotes :
    (BuildQuotesAnswer personAnalysis [silentResult]).quotes = [] ∧
    (BuildQuotesAnswer personAnalysis [silentResult]).confidence = 0.8 := by
  constructor
  · decide
  · simp [BuildQuotesAnswer]

/-- C23 (amended): the answer of `BuildQuotesAnswer` has confidence 0.8 whenever the
result list is not empty, whether or not a quote string was collected, and confidence
0 with no quote when the result list is empty; so a non-empty list of quotes comes
with the confidence 0.8. -/
theorem buildQuotesAnswer_confidence (analysis : QueryAnalysis) (results : List SearchResult) :
    (results ≠ [] → (BuildQuotesAnswer analysis results).confidence = 0.8) ∧
    (results = [] → (BuildQuotesAnswer analysis results).confidence = 0 ∧
      (BuildQuotesAnswer analysis results).quotes = []) ∧
    ((BuildQuotesAnswer analysis results).quotes ≠ [] →
      (BuildQuotesAnswer analysis results).confidence = 0.8) := by
  have h1 : results ≠ [] → (BuildQuotesAnswer analysis results).confidence = 0.8 := by
    intro h
    have hne : results.isEmpty = false := by cases results <;> simp_all
    simp [BuildQuotesAnswer, hne]
  have h2 : results = [] → (BuildQuotesAnswer analysis results).confidence = 0 ∧
      (BuildQuotesAnswer analysis results).quotes = [] := by
    rintro rfl
    simp [BuildQuotesAnswer, Answer.init]
  refine ⟨h1, h2, ?_⟩
  intro hq
  by_cases hr : results = []
  · exact absurd (h2 hr).2 hq
  · exact h1 hr

/-- C23 (amended), at one result without quote field and snippet. -/
theorem buildQuotesAnswer_confidence_witness :
    (BuildQuotesAnswer personAnalysis [silentResult]).confidence = 0.8 :=
  (buildQuotesAnswer_confidence personAnalysis [silentResult]).1 (by simp)

/-- C25: in `AskOffline`, for a non-empty query, when the confidence of the
synthesized answer is below 0.7 and the encyclopedia returns results, the final answer
is the synthesized one (same type, summary, steps, quotes, confidence and other
fields) with its sources followed by one encyclopedia source per encyclopedia result,
in order; when the confidence is 0.7 or more, or the encyclopedia returns nothing, the
synthesized answer is returned unchanged. -/
theorem askOffline_appends_encyclopedia (se : SearchEngine) (db : Database) (query : Str)
    (hq : query ≠ []) :
    ((synthesize (AnalyzeQuery query) (vaultQuery se db query)).confidence < 0.7 →
      zimQuery se query ≠ [] →
      AskOffline se db query =
        { synthesize (AnalyzeQuery query) (vaultQuery se db query) with
          sources := (synthesize (AnalyzeQuery query) (vaultQuery se db query)).sources ++
            (zimQuery se query).map (fun z => zimSource z "encyclopedia".toList 0.8) } ∧
      (AskOffline se db query).type
        = (synthesize (AnalyzeQuery query) (vaultQuery se db query)).type ∧
      (AskOffline se db query).summary
        = (synthesize (AnalyzeQuery query) (vaultQuery se db query)).summary ∧
      (AskOffline se db query).steps
        = (synthesize (AnalyzeQuery query) (vaultQuery se db query)).steps ∧
      (AskOffline se db query).quotes
        = (synthesize (AnalyzeQuery query) (vaultQuery se db query)).quotes ∧
      (AskOffline se db query).confidence
        = (synthesize (AnalyzeQuery query) (vaultQuery se db query)).confidence ∧
      ((AskOffline se db query).sources.drop
          (synthesize (AnalyzeQuery query) (vaultQuery se db query)).sources.length).map
          (fun s => (s.title, s.url, s.domain))
        = (zimQuery se query).map
          (fun z => (z.title, "wikipedia://".toList ++ z.url, "Wikipedia".toList))) ∧
    (0.7 ≤ (synthesize (AnalyzeQuery query) (vaultQuery se db query)).confidence →
      AskOffline se db query = synthesize (AnalyzeQuery query) (vaultQuery se db query)) ∧
    (zimQuery se query = [] →
      AskOffline se db query = synthesize (AnalyzeQuery query) (vaultQuery se db query)) := by
  have hne : query.isEmpty = false := by cases query <;> simp_all
  refine ⟨?_, ?_, ?_⟩
  · intro hc hz
    have hz2 : (zimQuery se query).isEmpty = false := by
      cases h : zimQuery se query <;> simp_all
    have key : AskOffline se db query =
        { synthesize (AnalyzeQuery query) (vaultQuery se db query) with
          sources := (synthesize (AnalyzeQuery query) (vaultQuery se db query)).sources ++
            (zimQuery se query).map (fun z => zimSource z "encyclopedia".toList 0.8) } := by
      unfold AskOffline
      simp only [hne, Bool.false_eq_true, if_false]
      rw [if_pos ⟨hc, by simp [hz2]⟩]
    refine ⟨key, ?_, ?_, ?_, ?_, ?_, ?_⟩ <;> rw [key]
    simp [List.drop_left, zimSource, Function.comp]
  · intro hc
    unfold AskOffline
    simp only [hne, Bool.false_eq_true, if_false]
    rw [if_neg (fun h => absurd h.1 (not_lt.mpr hc))]
  · intro hz
    unfold AskOffline
    simp only [hne, Bool.false_eq_true, if_false, hz]
    rw [if_neg (fun h => h.2 (by simp))]

/-- C25, at the query "random musings" on an empty store with a loaded encyclopedia. -/
theorem askOffline_appends_encyclopedia_witness :
    (AskOffline encyclopediaEngine emptyDatabase "random musings".toList).sources.length = 1 := by
  have h := (askOffline_appends_encyclopedia encyclopediaEngine emptyDatabase
    "random musings".toList (by decide)).1
    (by
      have : vaultQuery encyclopediaEngine emptyDatabase "random musings".toList = [] := by
        simp [vaultQuery, encyclopediaEngine, emptyDatabase, Database.SearchFTS,
          Database.SearchQuotes, emptyEngine, joinIndex, sqlLimit]
      rw [this, synthesize_nil_confidence]
      norm_num)
    (by simp [zimQuery, encyclopediaEngine, oneArticleReader])
  rw [h.1]
  have : vaultQuery encyclopediaEngine emptyDatabase "random musings".toList = [] := by
    simp [vaultQuery, encyclopediaEngine, emptyDatabase, Database.SearchFTS,
      Database.SearchQuotes, emptyEngine, joinIndex, sqlLimit]
  rw [this]
  decide

/-- C27: for every non-empty query, `AskOnline` returns an answer of type
ANSWER_SUMMARY with empty lists of steps and quotes, whatever the intent; when the
vault, queried after the ingestion, returns at least one result, the confidence is
0.8 and the summary is the concatenation of the snippets of the first three results
at most, each followed by a blank line. -/
theorem askOnline_always_summary (se : SearchEngine) (query : Str) (w : World)
    (hq : query ≠ []) :
    (AskOnline se query w).1.type = ANSWER_SUMMARY ∧
    (AskOnline se query w).1.steps = [] ∧ (AskOnline se query w).1.quotes = [] ∧
    (vaultQuery se (AskOnline se query w).2.db query ≠ [] →
      (AskOnline se query w).1.confidence = 0.8 ∧
      (AskOnline se query w).1.summary =
        (((vaultQuery se (AskOnline se query w).2.db query).take 3).map
          (fun r => r.item.text_snippet ++ "\n\n".toList)).flatten) := by
  have hne : query.isEmpty = false := by cases query <;> simp_all
  have hsq : ∀ v z, (GenerateAnswer query v z).steps = [] ∧ (GenerateAnswer query v z).quotes = [] := by
    intro v z
    unfold GenerateAnswer
    split
    · exact ⟨rfl, rfl⟩
    · split <;> exact ⟨rfl, rfl⟩
  refine ⟨AskOnline_type_of_ne_nil se w query hq, ?_, ?_, ?_⟩
  · simp only [AskOnline, hne, Bool.false_eq_true, if_false]
    exact (hsq _ _).1
  · simp only [AskOnline, hne, Bool.false_eq_true, if_false]
    exact (hsq _ _).2
  · simp only [AskOnline, hne, Bool.false_eq_true, if_false]
    intro hv
    have hv2 : ∀ l : List SearchResult, l ≠ [] → l.isEmpty = false := by
      intro l hl; cases l <;> simp_all
    unfold GenerateAnswer
    rw [if_pos (by simp [hv2 _ hv])]
    exact ⟨rfl, rfl⟩

/-- C27, at the query "how to purify water" without aggregator, on the sample store. -/
theorem askOnline_always_summary_witness :
    (AskOnline vaultOnlyEngine "how to purify water".toList
      { db := sampleDatabase, clock := fun _ => 0, tick := 0 }).1.type = ANSWER_SUMMARY :=
  (askOnline_always_summary vaultOnlyEngine "how to purify water".toList
    { db := sampleDatabase, clock := fun _ => 0, tick := 0 } (by decide)).1

theorem looksLikeStep_eq (line : Str) (expected : Nat) :
    looksLikeStep line expected = qualifiesAsStep line expected := by
  unfold looksLikeStep qualifiesAsStep
  rw [Bool.eq_iff_iff]
  simp only [Bool.and_eq_true, Bool.or_eq_true, decide_eq_true_eq, beq_iff_eq, find_zero_iff,
    isSome_find_iff]

theorem stepsLoop_eq : ∀ (lines acc : List Str), acc.length ≤ 10 →
    stepsLoop lines acc (acc.length + 1) =
      acc ++ (qualifyingLines lines acc.length).take (10 - acc.length)
  | [], acc, _ => by simp [stepsLoop, qualifyingLines]
  | line :: rest, acc, h => by
    unfold stepsLoop qualifyingLines
    rw [looksLikeStep_eq, Nat.add_comm 1 acc.length]
    by_cases hlt : acc.length < 10
    · rw [if_pos hlt]
      by_cases hq : qualifiesAsStep line (acc.length + 1) = true
      · rw [if_pos hq, if_pos hq]
        have ih := stepsLoop_eq rest (acc ++ [line]) (by simp; omega)
        simp only [List.length_append, List.length_singleton] at ih
        rw [ih]
        have e : 10 - acc.length = (10 - (acc.length + 1)) + 1 := by omega
        rw [e, List.take_succ_cons]
        simp
      · rw [if_neg hq, if_neg hq]
        exact stepsLoop_eq rest acc h
    · rw [if_neg hlt]
      have e : 10 - acc.length = 0 := by omega
      rw [e]
      simp

/-- C24: for a result list with a top result, `BuildStepsAnswer` returns the
confidence 0.7 and between 1 and 10 steps; the steps are the first ten at most of the
lines of the text of the top result that qualify (non-empty, and starting with the
decimal of 1 plus the number of lines collected so far, or starting with `-` or `*`,
or containing "step"), in order; when no line qualifies, the single step is the first
200 characters of the text followed by "...". -/
theorem buildStepsAnswer_steps (analysis : QueryAnalysis) (top : SearchResult)
    (rest : List SearchResult) :
    (BuildStepsAnswer analysis (top :: rest)).confidence = 0.7 ∧
    1 ≤ (BuildStepsAnswer analysis (top :: rest)).steps.length ∧
    (BuildStepsAnswer analysis (top :: rest)).steps.length ≤ 10 ∧
    (qualifyingLines (getlines (stepsText top)) 0 ≠ [] →
      (BuildStepsAnswer analysis (top :: rest)).steps
        = (qualifyingLines (getlines (stepsText top)) 0).take 10) ∧
    (qualifyingLines (getlines (stepsText top)) 0 = [] →
      (BuildStepsAnswer analysis (top :: rest)).steps
        = [(stepsText top).take 200 ++ "...".toList]) := by
  have hloop : stepsLoop (getlines (stepsText top)) [] 1
      = (qualifyingLines (getlines (stepsText top)) 0).take 10 := by
    have := stepsLoop_eq (getlines (stepsText top)) [] (by simp)
    simpa using this
  have hsteps : (BuildStepsAnswer analysis (top :: rest)).steps =
      if (qualifyingLines (getlines (stepsText top)) 0).take 10 = [] then
        [(stepsText top).take 200 ++ "...".toList]
      else (qualifyingLines (getlines (stepsText top)) 0).take 10 := by
    unfold BuildStepsAnswer
    simp only [← hloop]
    rfl
  have htake : ∀ l : List Str, l.take 10 = [] ↔ l = [] := by
    intro l; cases l <;> simp
  refine ⟨rfl, ?_, ?_, ?_, ?_⟩
  · rw [hsteps]
    split
    · simp
    · rename_i h
      exact List.length_pos.mpr h
  · rw [hsteps]
    split
    · simp
    · rw [List.length_take]; omega
  · intro h
    rw [hsteps, if_neg (fun c => h ((htake _).mp c))]
  · intro h
    rw [hsteps, if_pos ((htake _).mpr h)]

/-- C24, at a text with the lines "1. Fill the pot", "Stir well", "2. Boil for a minute". -/
theorem buildStepsAnswer_steps_witness :
    (BuildStepsAnswer personAnalysis [recipeResult]).steps
      = ["1. Fill the pot".toList, "2. Boil for a minute".toList] := by
  rw [(buildStepsAnswer_steps personAnalysis recipeResult []).2.2.2.1 (by decide)]
  decide

/-! ## Deduplication id, continued: verified properties -/

theorem GenerateItemHash_eq (url title : Str) (published : Int) :
    GenerateItemHash url title published =
      ((url ++ "_".toList ++ title ++ "_".toList ++ intToString published).take 16).map
        (fun c => if ¬ isalnum c then '_' else c) := by
  unfold GenerateItemHash
  dsimp only
  split
  · rfl
  · rename_i h
    rw [List.take_of_length_le (by omega)]

/-- C26: the id is the cleaned text of the first 16 characters of
`url + "_" + title + "_" + decimal(published)`; so two urls of at least 16 characters
with the same first 16 characters give the same id, whatever the titles and times;
and when a page with such an id is stored in an open store, `IsDuplicate` answers
true for every page whose id comes from a url with the same first 16 characters. -/
theorem generateItemHash_depends_on_url_head :
    (∀ (url title : Str) (published : Int),
      GenerateItemHash url title published =
        ((url ++ "_".toList ++ title ++ "_".toList ++ intToString published).take 16).map
          (fun c => if ¬ isalnum c then '_' else c)) ∧
    (∀ (u1 u2 t1 t2 : Str) (p1 p2 : Int), 16 ≤ u1.length → 16 ≤ u2.length →
      u1.take 16 = u2.take 16 → GenerateItemHash u1 t1 p1 = GenerateItemHash u2 t2 p2) ∧
    (∀ (os : OnlineSearch) (w : World) (stored page : VaultItem) (u1 u2 t1 t2 : Str)
      (p1 p2 : Int), os.database = true → w.db.db = true → stored ∈ w.db.items →
      stored.id = GenerateItemHash u1 t1 p1 → page.id = GenerateItemHash u2 t2 p2 →
      16 ≤ u1.length → 16 ≤ u2.length → u1.take 16 = u2.take 16 →
      IsDuplicate os page w = true) := by
  have h2 : ∀ (u1 u2 t1 t2 : Str) (p1 p2 : Int), 16 ≤ u1.length → 16 ≤ u2.length →
      u1.take 16 = u2.take 16 → GenerateItemHash u1 t1 p1 = GenerateItemHash u2 t2 p2 := by
    intro u1 u2 t1 t2 p1 p2 h1 h2 h
    rw [GenerateItemHash_eq, GenerateItemHash_eq]
    simp only [List.append_assoc]
    rw [List.take_append_of_le_length h1, List.take_append_of_le_length h2, h]
  refine ⟨GenerateItemHash_eq, h2, ?_⟩
  intro os w stored page u1 u2 t1 t2 p1 p2 hdb hopen hmem hs hp h1 h2' h
  have hid : stored.id = page.id := by rw [hs, hp]; exact h2 u1 u2 t1 t2 p1 p2 h1 h2' h
  simp only [IsDuplicate, hdb, not_true_eq_false, if_false, Database.GetItemById, hopen, if_true]
  rw [Option.isSome_iff_exists]
  have : ((w.db.items.find? (fun x => decide (x.id = page.id))).isSome) = true := by
    rw [List.find?_isSome]
    exact ⟨stored, hmem, by simpa using hid⟩
  exact Option.isSome_iff_exists.mp this

/-- C26, at the two urls "https://example.com/a" and "https://example.com/b". -/
theorem generateItemHash_depends_on_url_head_witness :
    GenerateItemHash "https://example.com/a".toList "First".toList 1
      = GenerateItemHash "https://example.com/b".toList "Second".toList 2 :=
  generateItemHash_depends_on_url_head.2.1 "https://example.com/a".toList
    "https://example.com/b".toList "First".toList "Second".toList 1 2
    (by decide) (by decide) (by decide)

/-! ## First occurrences -/

theorem findFrom_min {pat : Str} : ∀ {s : Str} {i j : Nat}, findFrom pat s i = some j →
    ∀ m, i + m < j → ¬ pat <+: s.drop m
  | [], i, j, h, m, hm => by
    unfold findFrom at h
    split at h
    · simp only [Option.some.injEq] at h; omega
    · simp at h
  | c :: cs, i, j, h, m, hm => by
    unfold findFrom at h
    split at h
    · simp only [Option.some.injEq] at h; omega
    · rename_i hp
      rw [List.isPrefixOf_iff_prefix] at hp
      cases m with
      | zero => simpa using hp
      | succ k =>
        rw [List.drop_succ_cons]
        exact findFrom_min h k (by omega)

/-- No occurrence of the pattern starts between `pos` and the position that `find`
returns. -/
theorem find_min {s pat : Str} {pos j : Nat} (h : find s pat pos = some j) :
    ∀ i, pos ≤ i → i < j → ¬ pat <+: s.drop i := by
  intro i hi hj
  unfold find at h
  split at h
  · have := findFrom_min h (i - pos) (by omega)
    rw [List.drop_drop] at this
    have e : pos + (i - pos) = i := by omega
    rwa [e] at this
  · simp at h

theorem findFrom_eq_some_of_first {pat : Str} : ∀ (k : Nat) (s : Str) (i : Nat),
    k ≤ s.length → pat <+: s.drop k → (∀ m, m < k → ¬ pat <+: s.drop m) →
    findFrom pat s i = some (i + k)
  | 0, s, i, _, hp, _ => by
    rw [Nat.add_zero]; exact findFrom_self_iff.mpr (by simpa using hp)
  | k + 1, [], i, hk, _, _ => by simp at hk
  | k + 1, c :: cs, i, hk, hp, hmin => by
    unfold findFrom
    have h0 : ¬ pat <+: c :: cs := by simpa using hmin 0 (by omega)
    rw [← List.isPrefixOf_iff_prefix] at h0
    rw [if_neg h0]
    have := @findFrom_eq_some_of_first pat k cs (i + 1) (by simpa using hk) (by simpa using hp)
      (fun m hm => by simpa using hmin (m + 1) (by omega))
    rw [this]; congr 1; omega

/-- The call `find` returns the first position at or after `pos` where the pattern
occurs. -/
theorem find_eq_some_of_first {s pat : Str} {pos j : Nat} (hpos : pos ≤ j) (hj : j ≤ s.length)
    (hp : pat <+: s.drop j) (hmin : ∀ i, pos ≤ i → i < j → ¬ pat <+: s.drop i) :
    find s pat pos = some j := by
  unfold find
  rw [if_pos (by omega)]
  have e : pos + (j - pos) = j := by omega
  have := @findFrom_eq_some_of_first pat (j - pos) (s.drop pos) pos
    (by rw [List.length_drop]; omega)
    (by rw [List.drop_drop, e]; exact hp)
    (fun m hm => by
      rw [List.drop_drop]
      exact hmin (pos + m) (by omega) (by omega))
  rw [this, e]

/-- A pattern whose first character does not occur again in it cannot start inside a
non-empty text `w` and run over into a text that starts with that character. -/
theorem not_prefix_straddle {pat ps w t : Str} {c : Char} (hpat : pat = c :: ps) (hc : c ∉ ps)
    (hw : w ≠ []) (hn : ¬ pat <+: w) : ¬ pat <+: w ++ c :: t := by
  rintro ⟨r, hr⟩
  rcases List.append_eq_append_iff.mp hr with ⟨a, ha, _⟩ | ⟨b, hb, hb2⟩
  · exact hn ⟨a, ha.symm⟩
  · cases b with
    | nil => exact hn (by rw [hb]; simp)
    | cons e es =>
      cases w with
      | nil => exact hw rfl
      | cons d ds =>
        rw [hpat] at hb
        simp only [List.cons_append, List.cons.injEq] at hb hb2
        apply hc
        rw [hb.2, ← hb2.1]
        simp

theorem occurs_append_head {pat ps t : Str} {c : Char} (hpat : pat = c :: ps) (hc : c ∉ ps) :
    ∀ (u : Str), pat <:+: u ++ c :: t → pat <:+: u ∨ pat <:+: c :: t
  | [], h => Or.inr (by simpa using h)
  | d :: us, h => by
    rw [List.cons_append, List.infix_cons_iff] at h
    rcases h with h | h
    · left
      by_contra hn
      exact not_prefix_straddle hpat hc (List.cons_ne_nil d us)
        (fun hp => hn hp.isInfix) (by simpa using h)
    · rcases occurs_append_head hpat hc us h with h1 | h1
      · exact Or.inl (List.infix_cons_iff.mpr (Or.inr h1))
      · exact Or.inr h1

/-- A pattern cannot start inside a text that lacks its first character. -/
theorem occurs_of_append_of_head_absent {pat ps : Str} {c : Char} (hpat : pat = c :: ps) :
    ∀ (u w : Str), c ∉ u → pat <:+: u ++ w → pat <:+: w
  | [], w, _, h => by simpa using h
  | d :: us, w, hu, h => by
    rw [List.cons_append, List.infix_cons_iff] at h
    rcases h with h | h
    · exfalso
      rw [hpat] at h
      have := List.cons_prefix_cons.mp h
      exact hu (by rw [← this.1]; simp)
    · exact occurs_of_append_of_head_absent hpat us w (fun m => hu (List.mem_cons_of_mem _ m)) h

/-- In `h ++ u ++ pat ++ v`, a search for `pat` from the end of `h` stops at the end of
`u`, when `u` is free of `pat` and the first character of `pat` occurs once in it. -/
theorem find_after_head {h u pat ps v : Str} {c : Char} (hpat : pat = c :: ps) (hc : c ∉ ps)
    (hu : ¬ pat <:+: u) :
    find (h ++ u ++ pat ++ v) pat h.length = some (h.length + u.length) := by
  have e : h ++ u ++ pat ++ v = h ++ (u ++ (pat ++ v)) := by simp
  rw [e]
  apply find_eq_some_of_first (by omega) (by simp only [List.length_append]; omega)
  · rw [List.drop_append, List.drop_left]
    exact List.prefix_append _ _
  · intro i hi hj
    have ei : i = h.length + (i - h.length) := by omega
    rw [ei, List.drop_append, List.drop_append_of_le_length (by omega)]
    have hne : u.drop (i - h.length) ≠ [] := by
      intro hnil
      have := congrArg List.length hnil
      rw [List.length_drop] at this
      simp at this
      omega
    have := @not_prefix_straddle pat ps (u.drop (i - h.length)) (ps ++ v) c hpat hc hne
      (fun hp => hu (hp.isInfix.trans (List.drop_suffix _ _).isInfix))
    rw [hpat]
    rw [hpat] at this
    exact this

/-! ## Steps, ids and blocks: verified properties -/

/-- The piece of the document that `FindContentBlocks` cuts out ends before the first
`</` and so holds none. -/
theorem content_without_close {html : Str} {start end_ : Nat}
    (he : find html "</".toList start = some end_) :
    ¬ "</".toList <:+: (html.drop start).take (end_ - start) := by
  rintro ⟨a, b, hab⟩
  have hl := congrArg List.length hab
  simp only [List.length_append, List.length_take, List.length_drop] at hl
  have hl2 : ("</".toList).length = 2 := rfl
  have hd : html.drop (start + a.length)
      = "</".toList ++ (b ++ (html.drop start).drop (end_ - start)) := by
    rw [← List.drop_drop]
    conv_lhs => rw [← List.take_append_drop (end_ - start) (html.drop start), ← hab]
    simp
  exact find_min he (start + a.length) (by omega) (by omega) ⟨_, hd.symm⟩

theorem linkCharsLoop_of_no_close {content : Str} (h : ¬ "</".toList <:+: content)
    (fuel : Nat) : linkCharsLoop content (fuel + 1) 0 0 = some 0 := by
  unfold linkCharsLoop
  split
  · rfl
  · rename_i p hp
    split
    · rfl
    · rename_i end_ he
      exfalso
      have b := find_bounds he
      have hp2 : "</".toList <+: "</a>".toList := ⟨"a>".toList, rfl⟩
      exact h ((hp2.trans b.2.2).isInfix.trans (List.drop_suffix _ _).isInfix)

theorem CalculateLinkDensity_of_no_close {content : Str} (h : ¬ "</".toList <:+: content) :
    CalculateLinkDensity content = some 0 := by
  unfold CalculateLinkDensity
  split
  · rfl
  · rw [linkCharsLoop_of_no_close h, Option.some_bind]
    simp

theorem blockOf_of_no_close (tag : Str) {content : Str} (h : ¬ "</".toList <:+: content) :
    blockOf tag content = some
      { tag := tag, content := content, textLength := CountWords (StripHTML content),
        linkDensity := 0, score := ((CountWords (StripHTML content) : Int) : ℚ) } := by
  unfold blockOf
  have hf : Rat.floor (0 : ℚ) = 0 := rfl
  rw [CalculateLinkDensity_of_no_close h, Option.some_bind]
  simp [hf]

theorem contentBlocksLoop_linkFree (html tag : Str) :
    ∀ (fuel pos : Nat) (blocks r : List ContentBlock),
      contentBlocksLoop html tag fuel pos blocks = some r →
      (∀ b ∈ blocks, b.LinkFree) → ∀ b ∈ r, b.LinkFree
  | 0, _, _, _, h, _ => by simp [contentBlocksLoop] at h
  | fuel + 1, pos, blocks, r, h, hb => by
    unfold contentBlocksLoop at h
    split at h
    · simp only [Option.some.injEq] at h; subst h; exact hb
    · rename_i start hs
      split at h
      · simp only [Option.some.injEq] at h; subst h; exact hb
      · rename_i end_ he
        have b1 := find_bounds hs
        have b2 := find_bounds he
        have hfree := @content_without_close html start end_ he
        rw [substrChecked_some _ (by omega), Option.some_bind,
          blockOf_of_no_close tag hfree, Option.some_bind] at h
        refine contentBlocksLoop_linkFree html tag fuel _ _ r h ?_
        intro b hmem
        by_cases hw : 50 < CountWords (StripHTML ((html.drop start).take (end_ - start)))
        · rw [if_pos hw] at hmem
          rcases List.mem_append.mp hmem with hm | hm
          · exact hb b hm
          · rw [List.mem_singleton] at hm
            subst hm
            exact ⟨hfree, CalculateLinkDensity_of_no_close hfree, rfl, rfl, rfl, hw⟩
        · rw [if_neg hw] at hmem
          exact hb b hmem

theorem contentBlocksTags_linkFree (html : Str) :
    ∀ (tags : List Str) (blocks r : List ContentBlock),
      contentBlocksTags html tags blocks = some r →
      (∀ b ∈ blocks, b.LinkFree) → ∀ b ∈ r, b.LinkFree
  | [], blocks, r, h, hb => by
    simp only [contentBlocksTags, Option.some.injEq] at h; subst h; exact hb
  | tag :: rest, blocks, r, h, hb => by
    unfold contentBlocksTags at h
    cases e : contentBlocksLoop html tag (html.length + 1) 0 blocks with
    | none => rw [e] at h; simp at h
    | some blocks1 =>
      rw [e, Option.some_bind] at h
      exact contentBlocksTags_linkFree html rest blocks1 r h
        (contentBlocksLoop_linkFree html tag _ _ blocks blocks1 e hb)

theorem selectLoop_by_words : ∀ (blocks : List ContentBlock) (best : ContentBlock),
    best.score = (best.textLength : ℚ) → (∀ b ∈ blocks, b.score = (b.textLength : ℚ)) →
    blocks.foldl (fun best block => if best.score < block.score then block else best) best
      = blocks.foldl
          (fun best block => if best.textLength < block.textLength then block else best) best
  | [], _, _, _ => rfl
  | b :: bs, best, h0, h => by
    have hb := h b (List.mem_cons_self _ _)
    have hrest : ∀ x ∈ bs, x.score = (x.textLength : ℚ) :=
      fun x hx => h x (List.mem_cons_of_mem _ hx)
    simp only [List.foldl_cons]
    by_cases hlt : best.textLength < b.textLength
    · have hlt2 : best.score < b.score := by rw [h0, hb]; exact_mod_cast hlt
      rw [if_pos hlt, if_pos hlt2]
      exact selectLoop_by_words bs b hb hrest
    · have hlt2 : ¬ best.score < b.score := by rw [h0, hb]; exact_mod_cast hlt
      rw [if_neg hlt, if_neg hlt2]
      exact selectLoop_by_words bs best h0 hrest

/-- C28: for every document `FindContentBlocks` returns blocks, and each of them has a
content without `</`, so that `CalculateLinkDensity` of the content is 0, the member
`linkDensity` is 0, and the score is the word count, which is greater than 50; and
`SelectBestBlock` on these blocks is the same fold with the word counts compared in
place of the scores, whatever links the blocks hold. -/
theorem findContentBlocks_blocks_link_free (html : Str) :
    ∃ blocks, FindContentBlocks html = some blocks ∧
      (∀ b ∈ blocks, ¬ "</".toList <:+: b.content ∧
        CalculateLinkDensity b.content = some 0 ∧ b.linkDensity = 0 ∧
        b.textLength = CountWords (StripHTML b.content) ∧
        b.score = ((CountWords (StripHTML b.content) : Int) : ℚ) ∧
        50 < CountWords (StripHTML b.content)) ∧
      SelectBestBlock blocks = blocks.foldl
        (fun best block => if best.textLength < block.textLength then block else best)
        { tag := [], content := [], textLength := 0, linkDensity := 0, score := 0 } := by
  obtain ⟨blocks, e⟩ := FindContentBlocks_isSome html
  have hfree : ∀ b ∈ blocks, b.LinkFree :=
    contentBlocksTags_linkFree html _ [] blocks e (fun b hb => by simp at hb)
  refine ⟨blocks, e, hfree, ?_⟩
  unfold SelectBestBlock
  apply selectLoop_by_words
  · simp
  · intro b hb
    obtain ⟨-, -, -, h4, h5, -⟩ := hfree b hb
    rw [h5, h4]

/-- C28, at the document of the link block followed by the plain block: two blocks are
found, both with `linkDensity` 0. -/
theorem findContentBlocks_blocks_link_free_witness :
    ∃ blocks, FindContentBlocks (linkBlock ++ plainBlock) = some blocks ∧
      blocks.length = 2 ∧ ∀ b ∈ blocks, b.linkDensity = 0 ∧ 50 < b.textLength := by
  obtain ⟨blocks, e, h, -⟩ := findContentBlocks_blocks_link_free (linkBlock ++ plainBlock)
  refine ⟨blocks, e, ?_, fun b hb => ⟨(h b hb).2.2.1, ?_⟩⟩
  · have hl : (FindContentBlocks (linkBlock ++ plainBlock)).map List.length = some 2 := by
      decide!
    rw [e] at hl
    simpa using hl
  · rw [(h b hb).2.2.2.1]
    exact (h b hb).2.2.2.2.2

/-! ## Attributes of the wrapping element -/

theorem stripHTMLLoop_plain : ∀ (a rest : Str), (∀ c ∈ a, c ≠ '<' ∧ c ≠ '>') →
    stripHTMLLoop (a ++ rest) false false false = a ++ stripHTMLLoop rest false false false
  | [], rest, _ => rfl
  | c :: cs, rest, h => by
    have hc := h c (List.mem_cons_self _ _)
    have ih := stripHTMLLoop_plain cs rest (fun x hx => h x (List.mem_cons_of_mem _ hx))
    rw [List.cons_append, stripHTMLLoop, if_neg hc.1, if_neg hc.2, ih]
    simp

theorem stripHTMLLoop_close (rest : Str) :
    stripHTMLLoop ('>' :: rest) false false false = stripHTMLLoop rest false false false := by
  rw [stripHTMLLoop]
  simp

theorem FindBetween_wrapped {opening closing ps u : Str} {c : Char}
    (hclose : closing = c :: ps) (hc : c ∉ ps) (hu : ¬ closing <:+: u) :
    FindBetween (opening ++ u ++ closing) opening closing = some u := by
  unfold FindBetween
  rw [find_zero_iff.mpr ⟨u ++ closing, by simp⟩]
  dsimp only
  rw [Nat.zero_add]
  have := @find_after_head opening u closing ps [] c hclose hc hu
  rw [List.append_nil] at this
  rw [this]
  dsimp only
  rw [substrChecked_some _ (by simp only [List.length_append]; omega)]
  congr 1
  simp

theorem no_close_in_element {closing ps A B : Str} (hclose : closing = '<' :: ps)
    (hA : ∀ c ∈ A, c ≠ '<' ∧ c ≠ '>') (hB : ¬ closing <:+: B) :
    ¬ closing <:+: A ++ ">".toList ++ B := by
  intro h
  apply hB
  apply occurs_of_append_of_head_absent hclose (A ++ ">".toList) B _ h
  intro hm
  rcases List.mem_append.mp hm with h1 | h1
  · exact (hA _ h1).1 rfl
  · simp at h1

theorem stripHTML_element (A B : Str) (hA : ∀ c ∈ A, c ≠ '<' ∧ c ≠ '>') :
    StripHTML (A ++ ">".toList ++ B) = A ++ StripHTML B := by
  unfold StripHTML
  rw [List.append_assoc, stripHTMLLoop_plain A _ hA]
  exact congrArg (A ++ ·) (stripHTMLLoop_close B)

theorem mainContentFromMain_element (A B : Str) (hA : ∀ c ∈ A, c ≠ '<' ∧ c ≠ '>')
    (hlen : 200 < B.length) (hB : ¬ "</main>".toList <:+: B) :
    mainContentFromMain ("<main".toList ++ A ++ ">".toList ++ B ++ "</main>".toList)
      = some (A ++ StripHTML B) := by
  have e : "<main".toList ++ A ++ ">".toList ++ B ++ "</main>".toList
      = "<main".toList ++ (A ++ ">".toList ++ B) ++ "</main>".toList := by simp
  have hf := @FindBetween_wrapped "<main".toList "</main>".toList "/main>".toList
    (A ++ ">".toList ++ B) '<' rfl (by decide) (no_close_in_element rfl hA hB)
  unfold mainContentFromMain
  rw [e, hf, Option.some_bind, if_pos ⟨by simp, by simp only [List.length_append]; omega⟩,
    stripHTML_element A B hA]

/-- C29: for an attribute text `A` without `<` and `>` and a body `B` of more than 200
characters, `ExtractMainContent` of `<article` + A + `>` + B + `</article>` returns A
followed by `StripHTML(B)` when B is free of `</article>`; the `<main>` tier does the
same on `<main` + A + `>` + B + `</main>` when B is free of `</main>`, and so does
`ExtractMainContent` on that document when B is also free of `<article`. -/
theorem extractMainContent_keeps_attributes (A B : Str)
    (hA : ∀ c ∈ A, c ≠ '<' ∧ c ≠ '>') (hlen : 200 < B.length) :
    (¬ "</article>".toList <:+: B →
      ExtractMainContent ("<article".toList ++ A ++ ">".toList ++ B ++ "</article>".toList)
        = some (A ++ StripHTML B)) ∧
    (¬ "</main>".toList <:+: B →
      mainContentFromMain ("<main".toList ++ A ++ ">".toList ++ B ++ "</main>".toList)
        = some (A ++ StripHTML B)) ∧
    (¬ "</main>".toList <:+: B → ¬ "<article".toList <:+: B →
      ExtractMainContent ("<main".toList ++ A ++ ">".toList ++ B ++ "</main>".toList)
        = some (A ++ StripHTML B)) := by
  refine ⟨?_, mainContentFromMain_element A B hA hlen, ?_⟩
  · intro hB
    have e : "<article".toList ++ A ++ ">".toList ++ B ++ "</article>".toList
        = "<article".toList ++ (A ++ ">".toList ++ B) ++ "</article>".toList := by simp
    have hf := @FindBetween_wrapped "<article".toList "</article>".toList "/article>".toList
      (A ++ ">".toList ++ B) '<' rfl (by decide) (no_close_in_element rfl hA hB)
    unfold ExtractMainContent
    rw [e, hf, Option.some_bind, if_pos ⟨by simp, by simp only [List.length_append]; omega⟩,
      stripHTML_element A B hA]
  · intro hB hart
    have habs : ¬ "<article".toList <:+:
        "<main".toList ++ A ++ ">".toList ++ B ++ "</main>".toList := by
      intro h
      have e : "<main".toList ++ A ++ ">".toList ++ B ++ "</main>".toList
          = '<' :: (("main".toList ++ A ++ ">".toList ++ B) ++ '<' :: "/main>".toList) := by
        simp
      rw [e, List.infix_cons_iff] at h
      rcases h with h | h
      · have h1 : "<article".toList = '<' :: 'a' :: "rticle".toList := rfl
        have h2 : "main".toList = 'm' :: "ain".toList := rfl
        rw [h1, h2] at h
        simp only [List.cons_append, List.cons_prefix_cons] at h
        exact absurd h.2.1 (by decide)
      · rcases @occurs_append_head "<article".toList "article".toList "/main>".toList '<' rfl
          (by decide) _ h with h1 | h1
        · apply hart
          have e2 : "main".toList ++ A ++ ">".toList ++ B
              = ("main".toList ++ A ++ ">".toList) ++ B := by simp
          rw [e2] at h1
          apply occurs_of_append_of_head_absent (rfl : "<article".toList = '<' :: "article".toList)
            _ B _ h1
          intro hm
          rcases List.mem_append.mp hm with h3 | h3
          · rcases List.mem_append.mp h3 with h4 | h4
            · simp at h4
            · exact (hA _ h4).1 rfl
          · simp at h3
        · have := h1.length_le
          simp at this
    unfold ExtractMainContent FindBetween
    rw [find_eq_none_of_absent habs]
    dsimp only
    rw [Option.some_bind, if_neg (by simp)]
    exact mainContentFromMain_element A B hA hlen hB

/-- C29, at the attribute text ` class="post"` and a body of 201 letters: the
attribute text is the start of the extracted content. -/
theorem extractMainContent_keeps_attributes_witness :
    ExtractMainContent
        ("<article".toList ++ sampleAttributes ++ ">".toList ++ sampleBody ++ "</article>".toList)
      = some (sampleAttributes ++ sampleBody) := by
  rw [(extractMainContent_keeps_attributes sampleAttributes sampleBody (by decide)
    (by decide!)).1 (by decide!)]
  decide!

/-! ## The quote pattern on every query -/

/-- C30: for all X and Y such that the lower-cased X does not contain " say", the
analysis of `"what did " + X + " say about " + Y` has the intent QUOTE, the person equal
to the lower-cased X, the secondary topic equal to the lower-cased Y, `needsOfficial`
true and `needsRecent` false. -/
theorem analyzeQuery_what_did_say_about (X Y : Str) (hX : ¬ " say".toList <:+: toLower X) :
    (AnalyzeQuery ("what did ".toList ++ X ++ " say about ".toList ++ Y)).intent = INTENT_QUOTE ∧
    (AnalyzeQuery ("what did ".toList ++ X ++ " say about ".toList ++ Y)).person = toLower X ∧
    (AnalyzeQuery ("what did ".toList ++ X ++ " say about ".toList ++ Y)).secondaryTopic
      = toLower Y ∧
    (AnalyzeQuery ("what did ".toList ++ X ++ " say about ".toList ++ Y)).needsOfficial = true ∧
    (AnalyzeQuery ("what did ".toList ++ X ++ " say about ".toList ++ Y)).needsRecent = false := by
  have hmap : ∀ a b : Str, toLower (a ++ b) = toLower a ++ toLower b :=
    fun a b => List.map_append _ _ _
  have l1 : toLower "what did ".toList = "what did ".toList := by decide
  have l2 : toLower " say about ".toList = " say".toList ++ " about ".toList := by decide
  have e : toLower ("what did ".toList ++ X ++ " say about ".toList ++ Y)
      = "what did ".toList ++ toLower X ++ " say".toList ++ (" about ".toList ++ toLower Y) := by
    rw [hmap, hmap, hmap, l1, l2]
    simp only [List.append_assoc]
  have hsay := @find_after_head "what did ".toList (toLower X) " say".toList "say".toList
    (" about ".toList ++ toLower Y) ' ' rfl (by decide) hX
  have h9 : ("what did ".toList).length = 9 := rfl
  rw [h9] at hsay
  have e2 : "what did ".toList ++ toLower X ++ " say".toList ++ (" about ".toList ++ toLower Y)
      = ("what did ".toList ++ toLower X) ++ (" say".toList ++ (" about ".toList ++ toLower Y)) := by
    simp only [List.append_assoc]
  have hlen : ("what did ".toList ++ toLower X).length = 9 + (toLower X).length := by
    rw [List.length_append, h9]
  have habout : find ("what did ".toList ++ toLower X ++ " say".toList ++
      (" about ".toList ++ toLower Y)) " about ".toList (9 + (toLower X).length)
      = some (9 + (toLower X).length + 4) := by
    rw [e2]
    apply find_eq_some_of_first (by omega)
    · simp only [List.length_append]; rw [h9]
      have : (" say".toList).length = 4 := rfl
      omega
    · rw [← hlen, List.drop_append]
      exact ⟨toLower Y, rfl⟩
    · intro i hi hj
      have ei : i = ("what did ".toList ++ toLower X).length + (i - (9 + (toLower X).length)) := by
        omega
      rw [ei, List.drop_append]
      have hm : i - (9 + (toLower X).length) < 4 := by omega
      generalize i - (9 + (toLower X).length) = m at hm
      interval_cases m <;> simp
  have hquote : MatchesQuotePattern
      ("what did ".toList ++ toLower X ++ " say".toList ++ (" about ".toList ++ toLower Y))
      = some (toLower X, toLower Y) := by
    unfold MatchesQuotePattern
    rw [find_zero_iff.mpr ⟨toLower X ++ " say".toList ++ (" about ".toList ++ toLower Y),
      by simp⟩]
    dsimp only
    rw [Nat.zero_add, hsay]
    dsimp only
    unfold aboutTopic
    rw [habout]
    dsimp only [substr, substrFrom]
    congr 1
    refine Prod.ext ?_ ?_
    · dsimp only
      have d9 : ∀ t : Str, List.drop 9 ("what did ".toList ++ t) = t := fun _ => rfl
      simp only [List.append_assoc]
      rw [d9]
      simp
    · dsimp only
      rw [e2, ← hlen, Nat.add_assoc, List.drop_append]
      rfl
  unfold AnalyzeQuery
  rw [e]
  dsimp only
  rw [hquote]
  exact ⟨rfl, rfl, rfl, rfl, rfl⟩

/-- C30, at X = "Mark Twain" and Y = "Writing". -/
theorem analyzeQuery_what_did_say_about_witness :
    (AnalyzeQuery "what did Mark Twain say about Writing".toList).person = "mark twain".toList ∧
    (AnalyzeQuery "what did Mark Twain say about Writing".toList).secondaryTopic
      = "writing".toList :=
  ⟨(analyzeQuery_what_did_say_about "Mark Twain".toList "Writing".toList (by decide)).2.1,
   (analyzeQuery_what_did_say_about "Mark Twain".toList "Writing".toList (by decide)).2.2.1⟩

end Vita
